import Mathlib

/-!
Shallow embedding of the linkerloader-rs link editor (src/) in Lean 4, with
theorems checking the natural-language specification against the code.

Modelling conventions:
* Rust i32 values are modelled as unbounded Int. Arithmetic overflow aborts
  in the debug profile of the source; no claim exercises values near the i32
  bounds, and casts (as usize) are modelled exactly where they occur.
* Rust % on i32 is truncated remainder, Int.tmod.
* Rust u8 bytes are modelled as Nat; every byte produced by the code here is
  below 256.
* usize is modelled as Nat; the cast (x : i32) as usize is the 64-bit
  sign-extension, modelled by usizeOfI32.
* Fallible code returns Except; panics (unwrap, assert, index out of bounds)
  are a distinguished error constructor.
-/

/-- Cast of an i32 value to usize (64-bit), as in Rust `x as usize`:
sign-extension, i.e. reduction of the two's-complement value mod 2^64. -/
def usizeOfI32 (v : Int) : Nat := (v % (2 ^ 64 : Int)).toNat

/-- Interpretation of a value below 2^32 as a signed 32-bit integer
(two's complement), as performed by `v as i32` on a smaller-range i64. -/
def toSigned32 (v : Nat) : Int :=
  if v < 2 ^ 31 then (v : Int) else (v : Int) - 2 ^ 32

/-- src/utils.rs find_seg_start: round `i` up to the next multiple of `n`
(`n == 0` returns `i` unchanged). Rust `%` is truncated remainder. -/
def find_seg_start (i n : Int) : Int :=
  if n = 0 then i
  else
    let rem := Int.tmod i n
    if rem = 0 then i else i + (n - rem)

/-- src/utils.rs mk_addr_4: four-byte big-endian encoding of an unsigned
integer, failing when it exceeds 0xFFFFFFFF. The source formats the value
as 8 uppercase hex digits and reads consecutive digit pairs; for values
at most 0xFFFFFFFF that is exactly the four big-endian base-256 digits. -/
def mk_addr_4 (i : Nat) : Option (List Nat) :=
  if i ≤ 0xFFFFFFFF then
    some [i / 2 ^ 24 % 256, i / 2 ^ 16 % 256, i / 2 ^ 8 % 256, i % 256]
  else none

/-- src/utils.rs mk_i_4: four-byte big-endian two's-complement encoding of an
i32 (Rust formats the 32-bit pattern as 8 hex digits and reads the pairs). -/
def mk_i_4 (i : Int) : List Nat :=
  let m := (i % (2 ^ 32 : Int)).toNat
  [m / 2 ^ 24 % 256, m / 2 ^ 16 % 256, m / 2 ^ 8 % 256, m % 256]

/-- src/utils.rs x_to_i4: decode four bytes (big-endian) into an i32 via an
i64 parse followed by `as i32`. Bytes are below 256 everywhere in the code. -/
def x_to_i4 (bytes : List Nat) : Option Int :=
  match bytes with
  | [b0, b1, b2, b3] => some (toSigned32 (((b0 * 256 + b1) * 256 + b2) * 256 + b3))
  | _ => none

/-! ## Core data model (src/types) -/

/-- src/types/segment.rs SegmentName (ordered TEXT < GOT < DATA < BSS, the
derived Rust Ord used by the BTreeMap keys). -/
inductive SegmentName
  | text
  | got
  | data
  | bss
deriving DecidableEq, Repr

/-- src/types/segment.rs SegmentDescr: R readable, W writable, P present. -/
inductive SegmentDescr
  | R
  | W
  | P
deriving DecidableEq, Repr

/-- src/types/segment.rs Segment. -/
structure Segment where
  segment_name : SegmentName
  segment_start : Int
  segment_len : Int
  segment_descr : List SegmentDescr
deriving DecidableEq, Repr

/-- Segment::new. -/
def Segment.new (n : SegmentName) : Segment :=
  { segment_name := n, segment_start := 0, segment_len := 0, segment_descr := [] }

/-- src/types/segment.rs SegmentData is a byte vector; bytes are below 256. -/
abbrev SegmentData := List Nat

/-- SegmentData::new: n zero bytes. -/
def SegmentData.new (n : Nat) : SegmentData := List.replicate n 0

/-- SegmentData::update replaces the slice from start to start+len by the
patch; out of bounds is a panic in the source, modelled as none. -/
def sd_update (d : List Nat) (start len : Nat) (patch : List Nat) : Option (List Nat) :=
  if start + len > d.length then none
  else some (d.take start ++ patch ++ d.drop (start + len))

/-- SegmentData::get_at: borrow the slice from start to start+len, none when
out of range. -/
def sd_get_at (d : List Nat) (start len : Nat) : Option (List Nat) :=
  if start + len > d.length then none
  else some ((d.drop start).take len)

/-- src/types/symbol_table.rs SymbolName. -/
inductive SymbolName
  | SName (s : String)
  | WrappedSName (s : String)
deriving DecidableEq, Repr

/-- Character-list comparison by code point; on strings this agrees with
the UTF-8 byte comparison of Rust String Ord. -/
def charsCmp : List Char → List Char → Ordering
  | [], [] => .eq
  | [], _ :: _ => .lt
  | _ :: _, [] => .gt
  | a :: as, b :: bs =>
    if a.toNat < b.toNat then .lt
    else if b.toNat < a.toNat then .gt
    else charsCmp as bs

/-- String comparison (Rust String Ord). -/
def strCmp (a b : String) : Ordering := charsCmp a.data b.data

/-- Deref of a SymbolName to its underlying string. -/
def SymbolName.underlying : SymbolName → String
  | .SName s => s
  | .WrappedSName s => s

/-- Derived Rust Ord on SymbolName: variant order first, then string order
(UTF-8 byte order agrees with codepoint order used by Lean compare). -/
def SymbolName.cmp : SymbolName → SymbolName → Ordering
  | .SName a, .SName b => strCmp a b
  | .SName _, .WrappedSName _ => .lt
  | .WrappedSName _, .SName _ => .gt
  | .WrappedSName a, .WrappedSName b => strCmp a b

/-- src/types/symbol_table.rs SymbolTableEntryType: D defined, U undefined. -/
inductive SymbolTableEntryType
  | D
  | U
deriving DecidableEq, Repr

/-- src/types/symbol_table.rs SymbolTableEntry. -/
structure SymbolTableEntry where
  st_name : SymbolName
  st_value : Int
  st_seg : Int
  st_type : SymbolTableEntryType
deriving DecidableEq, Repr

/-- SymbolTableEntry::is_common_block: undefined with non-zero value. -/
def SymbolTableEntry.is_common_block (e : SymbolTableEntry) : Bool :=
  e.st_type = SymbolTableEntryType.U && e.st_value ≠ 0

/-- SymbolTableEntry::is_defined. -/
def SymbolTableEntry.is_defined (e : SymbolTableEntry) : Bool :=
  e.st_type = SymbolTableEntryType.D

/-- src/types/relocation.rs RelRef (stores 0-based indexes). -/
inductive RelRef
  | SegmentRef (i : Nat)
  | SymbolRef (i : Nat)
  | NoRef
deriving DecidableEq, Repr

/-- src/types/relocation.rs RelType. -/
inductive RelType
  | A4
  | R4
  | AS4
  | RS4
  | U2
  | L2
  | GA4
  | GP4
  | GR4
  | ER4
deriving DecidableEq, Repr

/-- RelType::is_segment_rel. -/
def RelType.is_segment_rel : RelType → Bool
  | .A4 | .R4 | .GR4 => true
  | _ => false

/-- RelType::is_no_rel. -/
def RelType.is_no_rel : RelType → Bool
  | .GA4 | .ER4 => true
  | _ => false

/-- src/types/relocation.rs Relocation. -/
structure Relocation where
  rel_loc : Int
  rel_seg : SegmentName
  rel_ref : RelRef
  rel_type : RelType
deriving DecidableEq, Repr

/-- src/types/object.rs ObjectIn: header counts plus the four parallel
collections. -/
structure ObjectIn where
  nsegs : Int
  nsyms : Int
  nrels : Int
  segments : List Segment
  symbol_table : List SymbolTableEntry
  relocations : List Relocation
  object_data : List SegmentData
deriving DecidableEq, Repr

/-! ## Map models

BTreeMap keyed by SegmentName has only four possible keys; it is modelled
as a record of four optional slots, in key order. String- and
SymbolName-keyed maps are association lists; BTreeMap insertion keeps the
list sorted (the iteration order of the source), HashMap insertion
overwrites in place or appends (its iteration order is never relied on). -/

/-- Model of BTreeMap with SegmentName keys. -/
structure SegMap (α : Type) where
  text : Option α := none
  got : Option α := none
  data : Option α := none
  bss : Option α := none
deriving DecidableEq, Repr

/-- BTreeMap::get. -/
def SegMap.get (m : SegMap α) : SegmentName → Option α
  | .text => m.text
  | .got => m.got
  | .data => m.data
  | .bss => m.bss

/-- BTreeMap::insert (also the or_insert half of the entry API). -/
def SegMap.insert (m : SegMap α) : SegmentName → α → SegMap α
  | .text, v => { m with text := some v }
  | .got, v => { m with got := some v }
  | .data, v => { m with data := some v }
  | .bss, v => { m with bss := some v }

/-- entry().and_modify(f): apply f when the key is present. -/
def SegMap.andModify (m : SegMap α) (k : SegmentName) (f : α → α) : SegMap α :=
  match m.get k with
  | some v => m.insert k (f v)
  | none => m

/-- BTreeMap with String keys: insertion keeping the list sorted by key,
replacing an existing binding. -/
def insertSorted (l : List (String × α)) (k : String) (v : α) : List (String × α) :=
  match l with
  | [] => [(k, v)]
  | (k', v') :: t =>
    match strCmp k k' with
    | .lt => (k, v) :: (k', v') :: t
    | .eq => (k, v) :: t
    | .gt => (k', v') :: insertSorted t k v

/-- HashMap insert: overwrite in place or append. -/
def hashInsert (l : List (String × α)) (k : String) (v : α) : List (String × α) :=
  match l with
  | [] => [(k, v)]
  | (k', v') :: t => if k = k' then (k, v) :: t else (k', v') :: hashInsert t k v

/-- BTreeMap with SymbolName keys (the global symbol table): sorted insert
by the derived order. -/
def gstInsertSorted (l : List (SymbolName × α)) (k : SymbolName) (v : α) :
    List (SymbolName × α) :=
  match l with
  | [] => [(k, v)]
  | (k', v') :: t =>
    match SymbolName.cmp k k' with
    | .lt => (k, v) :: (k', v') :: t
    | .eq => (k, v) :: t
    | .gt => (k', v') :: gstInsertSorted t k v

/-- Lookup in a SymbolName-keyed association list. -/
def gstLookup (l : List (SymbolName × α)) (k : SymbolName) : Option α :=
  match l with
  | [] => none
  | (k', v') :: t => if k = k' then some v' else gstLookup t k

/-! ## Linker session state (src/common.rs, src/types/out.rs, src/types/library.rs) -/

/-- src/common.rs DefnProvenance. -/
inductive DefnProvenance
  | FromObjectIn
  | FromSharedLib (libname : String)
deriving DecidableEq, Repr

/-- src/common.rs Defn. -/
structure Defn where
  defn_mod_id : String
  defn_ste_ix : Option Nat
  defn_addr : Option Int
  defn_prov : DefnProvenance
deriving DecidableEq, Repr

/-- Defn::new. -/
def Defn.new (mod_id : String) (ste_ix : Nat) (addr : Option Int) : Defn :=
  { defn_mod_id := mod_id, defn_ste_ix := some ste_ix, defn_addr := addr,
    defn_prov := .FromObjectIn }

/-- src/common.rs Refs: HashMap from module id to symbol index. -/
abbrev Refs := List (String × Nat)

/-- src/linker/editor.rs LinkerInfo. -/
structure LinkerInfo where
  segment_mapping : List (String × SegMap Int)
  common_block_mapping : List (SymbolName × Int)
  symbol_tables : List (String × List SymbolTableEntry)
  global_symtable : List (SymbolName × (Option Defn × Refs))
deriving DecidableEq, Repr

/-- LinkerInfo::new. -/
def LinkerInfo.new : LinkerInfo :=
  { segment_mapping := [], common_block_mapping := [], symbol_tables := [],
    global_symtable := [] }

/-- src/types/out.rs ObjectOut. -/
structure ObjectOut where
  nsegs : Int
  nsyms : Int
  nrels : Int
  segments : SegMap Segment
  symbol_table : List SymbolTableEntry
  relocations : List Relocation
  object_data : SegMap SegmentData
deriving DecidableEq, Repr

/-- ObjectOut::new. -/
def ObjectOut.new : ObjectOut :=
  { nsegs := 0, nsyms := 0, nrels := 0, segments := {}, symbol_table := [],
    relocations := [], object_data := {} }

/-- src/types/stub.rs StubMember: exported symbol names mapped to either an
absolute address (Left) or the name of the defining library (Right). -/
structure StubMember where
  name : String
  syms : List (SymbolName × (Int ⊕ String))
deriving DecidableEq, Repr

/-- src/types/stub.rs StubLib (the parts the linker pass reads). -/
structure StubLib where
  libname : String
  members : List (String × StubMember)
  deps : List String
deriving DecidableEq, Repr

/-- src/types/library.rs StaticLib. The Stub variant is matched by
editor.rs; association lists are given in the iteration order of the
corresponding Rust map. -/
inductive StaticLib
  | DirLib (libname : String) (symbols : List (String × List SymbolName))
      (objects : List (String × ObjectIn))
  | FileLib (libname : String) (symbols : List (SymbolName × Nat))
      (objects : List ObjectIn)
  | Stub (stublib : StubLib)
deriving DecidableEq, Repr

/-- src/types/errors.rs LinkError. The WrappedSymbolNameAlreadyExists
variant is constructed by editor.rs wrap_routines; the snapshot of
errors.rs predates it, the spec lists it among the link errors. -/
inductive LinkError
  | UnexpectedLinkError
  | DuplicateObjectError
  | MultipleSymbolDefinitions
  | UndefinedSymbolError
  | AddressOverflowError
  | IntOverflowError
  | WrappedSymbolNameAlreadyExists
deriving DecidableEq, Repr

/-- Outcome of a linker-side computation: a returned LinkError value, or an
abort of the process (panic, failed assert, out-of-bounds index, unwrap on
None). -/
inductive LErr
  | link (e : LinkError)
  | crash (msg : String)
deriving DecidableEq, Repr

/-- Result monad for the linker embedding. -/
def LRes (α : Type) : Type := Except LErr α

instance : Monad LRes := inferInstanceAs (Monad (Except LErr))

/-- Unwrap an Option, aborting like Rust unwrap / a panicking index. -/
def orCrash (o : Option α) (msg : String) : LRes α :=
  match o with
  | some v => Except.ok v
  | none => Except.error (LErr.crash msg)

/-- Configuration held by LinkerEditor (src/linker/editor.rs). -/
structure LinkerCfg where
  text_start : Int
  data_start_boundary : Int
  bss_start_boundary : Int
deriving DecidableEq, Repr

/-! ## Phase 0: symbol wrapping (editor.rs wrap_routines) -/

/-- Rust str::starts_with on strings. -/
def strStartsWith (s pre : String) : Bool := pre.data.isPrefixOf s.data

/-- Byte slicing s[n..] of an ASCII string, as character drop. -/
def strDropChars (s : String) (n : Nat) : String := String.mk (s.data.drop n)

/-- Inner loop of wrap_routines over one symbol table. State: the
already_wrapped set (wrapped names inserted so far, shared across modules). -/
def wrapSyms (routine_names : List SymbolName) (already : List SymbolName) :
    List SymbolTableEntry → Except LErr (List SymbolTableEntry × List SymbolName)
  | [] => Except.ok ([], already)
  | sym :: rest =>
    if (strStartsWith sym.st_name.underlying "wrap_" ||
          strStartsWith sym.st_name.underlying "real_") &&
        (SymbolName.WrappedSName (strDropChars sym.st_name.underlying 5)) ∈ already then
      Except.error (LErr.link LinkError.WrappedSymbolNameAlreadyExists)
    else if sym.st_name ∈ routine_names then
      match wrapSyms routine_names
          (SymbolName.WrappedSName sym.st_name.underlying :: already) rest with
      | Except.ok (rest', already'') =>
        Except.ok ({ sym with st_name := SymbolName.WrappedSName sym.st_name.underlying }
          :: rest', already'')
      | Except.error e => Except.error e
    else
      match wrapSyms routine_names already rest with
      | Except.ok (rest', already'') => Except.ok (sym :: rest', already'')
      | Except.error e => Except.error e

/-- editor.rs wrap_routines: rename every symbol named in routine_names to
its Wrapped variant, failing when a symbol whose name starts with wrap_ or
real_ is visited after its suffix has been wrapped. -/
def wrap_routines (objs_in : List (String × ObjectIn))
    (routine_names : List SymbolName) : Except LErr (List (String × ObjectIn)) :=
  go [] objs_in
where
  go (already : List SymbolName) :
      List (String × ObjectIn) → Except LErr (List (String × ObjectIn))
  | [] => Except.ok []
  | (id, obj) :: rest =>
    match wrapSyms routine_names already obj.symbol_table with
    | Except.error e => Except.error e
    | Except.ok (st', already') =>
      match go already' rest with
      | Except.error e => Except.error e
      | Except.ok rest' => Except.ok ((id, { obj with symbol_table := st' }) :: rest')

/-! ## Phase 1: storage allocation and symbol tables
(editor.rs alloc_storage_and_symtables, build_symbol_tables) -/

/-- Segment loop of alloc_storage_and_symtables: allocate or extend the
output segment with the same name, record the module offset, and append
the object data (indexing obj.object_data panics when out of range). -/
def allocSegs (object_data : List SegmentData) :
    List (Nat × Segment) → ObjectOut → SegMap Int → LRes (ObjectOut × SegMap Int)
  | [], out, seg_offsets => Except.ok (out, seg_offsets)
  | (i, segment) :: rest, out, seg_offsets =>
    match
      (match out.segments.get segment.segment_name with
       | some out_seg =>
         ({ out with segments :=
              (out.segments.insert segment.segment_name
                { out_seg with segment_len := out_seg.segment_len + segment.segment_len }) },
          seg_offsets.insert segment.segment_name out_seg.segment_len)
       | none =>
         ({ out with
              nsegs := out.nsegs + 1
              segments :=
                (out.segments.insert segment.segment_name
                  { segment with segment_start := (0 : Int) }) },
          seg_offsets.insert segment.segment_name 0)) with
    | (out1, seg_offsets1) =>
      match object_data.get? i with
      | none => Except.error (LErr.crash "object_data index out of bounds")
      | some di =>
        match out1.object_data.get segment.segment_name with
        | some sd =>
          allocSegs object_data rest
            { out1 with object_data := out1.object_data.insert segment.segment_name (sd ++ di) }
            seg_offsets1
        | none =>
          allocSegs object_data rest
            { out1 with object_data := out1.object_data.insert segment.segment_name di }
            seg_offsets1

/-- HashMap entry().and_modify(max).or_insert for the common-block table. -/
def commonEntryMax (l : List (SymbolName × Int)) (k : SymbolName) (v : Int) :
    List (SymbolName × Int) :=
  match l with
  | [] => [(k, v)]
  | (k', v') :: t =>
    if k = k' then (k', if v > v' then v else v') :: t
    else (k', v') :: commonEntryMax t k v

/-- Common-block loop of alloc_storage_and_symtables: fold every
common-block entry into the size table, keeping the largest value. -/
def commonFold (stes : List SymbolTableEntry) (mapping : List (SymbolName × Int)) :
    List (SymbolName × Int) :=
  match stes with
  | [] => mapping
  | ste :: rest =>
    if ste.is_common_block then
      commonFold rest (commonEntryMax mapping ste.st_name ste.st_value)
    else commonFold rest mapping

/-- GOT tally of alloc_storage_and_symtables: 4 bytes per GP4 relocation. -/
def gotSize (rels : List Relocation) : Int :=
  match rels with
  | [] => 0
  | r :: rest => (if r.rel_type = RelType.GP4 then 4 else 0) + gotSize rest

/-- Update in place of an existing global-symtable binding. -/
def gstUpdate (l : List (SymbolName × α)) (k : SymbolName) (v : α) :
    List (SymbolName × α) :=
  match l with
  | [] => []
  | (k', v') :: t => if k = k' then (k, v) :: t else (k', v') :: gstUpdate t k v

/-- Symbol loop of editor.rs build_symbol_tables: register definitions and
references in the global symbol table, skipping common blocks; a second
definition of the same name is MultipleSymbolDefinitions. The assert that
the slot is empty inside and_modify is modelled as a crash. -/
def buildSymsLoop (obj_id : String) :
    List (Nat × SymbolTableEntry) →
    List (SymbolName × (Option Defn × Refs)) →
    LRes (List (SymbolName × (Option Defn × Refs)))
  | [], global => Except.ok global
  | (i, symbol) :: rest, global =>
    if symbol.is_common_block then buildSymsLoop obj_id rest global
    else
      if symbol.is_defined &&
          ((gstLookup global symbol.st_name).map (fun x => x.1.isSome)).getD false then
        Except.error (LErr.link LinkError.MultipleSymbolDefinitions)
      else
        match gstLookup global symbol.st_name with
        | some (defn, refs) =>
          if symbol.is_defined then
            match defn with
            | some _ => Except.error (LErr.crash "assert defn.is_none() failed")
            | none =>
              buildSymsLoop obj_id rest
                (gstUpdate global symbol.st_name (some (Defn.new obj_id i none), refs))
          else
            buildSymsLoop obj_id rest
              (gstUpdate global symbol.st_name (defn, hashInsert refs obj_id i))
        | none =>
          buildSymsLoop obj_id rest (gstInsertSorted global symbol.st_name
            (if symbol.is_defined then (some (Defn.new obj_id i none), ([] : Refs))
             else (none, ([(obj_id, i)] : Refs))))

/-- editor.rs build_symbol_tables: snapshot the module symbol table, then
fold its symbols into the global table. -/
def build_symbol_tables (info : LinkerInfo) (obj : ObjectIn) (obj_id : String) :
    LRes LinkerInfo :=
  match buildSymsLoop obj_id obj.symbol_table.enum info.global_symtable with
  | Except.error e => Except.error e
  | Except.ok g =>
    Except.ok { info with
      symbol_tables := hashInsert info.symbol_tables obj_id obj.symbol_table
      global_symtable := g }

/-- editor.rs alloc_storage_and_symtables: allocate storage for every
segment of the module, build symbol tables, record per-module segment
offsets and common blocks, and return the GOT bytes this module needs. -/
def alloc_storage_and_symtables (obj_id : String) (obj : ObjectIn)
    (out : ObjectOut) (info : LinkerInfo) : LRes (ObjectOut × LinkerInfo × Int) :=
  match allocSegs obj.object_data obj.segments.enum out {} with
  | Except.error e => Except.error e
  | Except.ok (out, seg_offsets) =>
    match build_symbol_tables info obj obj_id with
    | Except.error e => Except.error e
    | Except.ok info =>
      Except.ok (out,
        { info with
          segment_mapping := insertSorted info.segment_mapping obj_id seg_offsets
          common_block_mapping := commonFold obj.symbol_table info.common_block_mapping },
        gotSize obj.relocations)

/-! ## Phase 3: segment layout (editor.rs patch_* and alloc_got) -/

/-- editor.rs patch_text_seg: set the output .text start to text_start and
shift every module .text offset by it. -/
def patch_text_seg (cfg : LinkerCfg) (out : ObjectOut) (info : LinkerInfo) :
    ObjectOut × LinkerInfo :=
  ({ out with segments :=
      out.segments.andModify .text (fun s => { s with segment_start := cfg.text_start }) },
   { info with segment_mapping :=
      info.segment_mapping.map (fun (id, addrs) =>
        (id, addrs.andModify .text (fun a => a + cfg.text_start))) })

/-- editor.rs alloc_got: insert a zero-initialized .got segment right after
.text (the .text lookups unwrap). -/
def alloc_got (out : ObjectOut) (got_size : Int) : LRes ObjectOut :=
  match out.segments.get .text with
  | none => Except.error (LErr.crash "alloc_got: no .text segment")
  | some t =>
    Except.ok { out with
      segments := out.segments.insert .got
        { Segment.new .got with
          segment_start := t.segment_start + t.segment_len, segment_len := got_size },
      object_data := out.object_data.insert .got (SegmentData.new (usizeOfI32 got_size)) }

/-- editor.rs patch_data_seg: place .data at the aligned end of the last
code segment (.got when present, else .text; the lookup unwraps). -/
def patch_data_seg (cfg : LinkerCfg) (out : ObjectOut) (info : LinkerInfo) :
    LRes (ObjectOut × LinkerInfo) :=
  match out.segments.get
      (match out.segments.get .got with
       | some _ => SegmentName.got
       | none => SegmentName.text) with
  | none => Except.error (LErr.crash "patch_data_seg: missing last code segment")
  | some lastSeg =>
    Except.ok
      ({ out with segments :=
          out.segments.andModify .data (fun s =>
            { s with segment_start := find_seg_start (lastSeg.segment_start + lastSeg.segment_len) cfg.data_start_boundary }) },
       { info with segment_mapping :=
          info.segment_mapping.map (fun (id, addrs) =>
            (id, addrs.andModify .data (fun a => a +
              find_seg_start (lastSeg.segment_start + lastSeg.segment_len)
                cfg.data_start_boundary))) })

/-- editor.rs patch_bss_seg: place .bss at the aligned end of .data (the
.data lookup unwraps) and return bss_start. -/
def patch_bss_seg (cfg : LinkerCfg) (out : ObjectOut) (info : LinkerInfo) :
    LRes (ObjectOut × LinkerInfo × Int) :=
  match out.segments.get .data with
  | none => Except.error (LErr.crash "patch_bss_seg: no .data segment")
  | some d =>
    Except.ok
      ({ out with segments :=
          out.segments.andModify .bss (fun s =>
            { s with segment_start := find_seg_start (d.segment_start + d.segment_len) cfg.bss_start_boundary }) },
       { info with segment_mapping :=
          info.segment_mapping.map (fun (id, addrs) =>
            (id, addrs.andModify .bss (fun a => a +
              find_seg_start (d.segment_start + d.segment_len) cfg.bss_start_boundary))) },
       find_seg_start (d.segment_start + d.segment_len) cfg.bss_start_boundary)

/-- editor.rs patch_segment_offsets: text, optional GOT, data, bss. -/
def patch_segment_offsets (cfg : LinkerCfg) (out : ObjectOut) (info : LinkerInfo)
    (got_size : Int) : LRes (ObjectOut × LinkerInfo × Int) :=
  match patch_text_seg cfg out info with
  | (out, info) =>
    match (if got_size ≠ 0 then alloc_got out got_size else Except.ok out) with
    | Except.error e => Except.error e
    | Except.ok out =>
      match patch_data_seg cfg out info with
      | Except.error e => Except.error e
      | Except.ok (out, info) => patch_bss_seg cfg out info

/-! ## Phase 4: common blocks (editor.rs common_block_allocation) -/

/-- Sum of the common-block table values. -/
def commonSum (l : List (SymbolName × Int)) : Int :=
  match l with
  | [] => 0
  | (_, v) :: t => v + commonSum t

/-- editor.rs common_block_allocation: extend .bss by the summed common
block when non-zero, creating .bss at bss_start when absent. -/
def common_block_allocation (out : ObjectOut) (info : LinkerInfo) (bss_start : Int) :
    ObjectOut :=
  if commonSum info.common_block_mapping ≠ 0 then
    match out.segments.get .bss with
    | some seg =>
      { out with segments :=
        (out.segments.insert .bss
          { seg with segment_len := seg.segment_len + commonSum info.common_block_mapping }) }
    | none =>
      { out with
        nsegs := out.nsegs + 1
        segments :=
          (out.segments.insert .bss
            { Segment.new .bss with
              segment_start := bss_start
              segment_len := commonSum info.common_block_mapping }) }
  else out

/-! ## Phase 6: symbol address resolution (editor.rs resolve_global_sym_offsets) -/

/-- Body of resolve_global_sym_offsets for a single global-symtable entry:
the defining module symbol is fetched (unwraps and indexing panic), the
assert st_seg > 0 aborts on absolute or non-positive segment numbers, and
the final address is segment offset plus symbol value. -/
def resolveEntry (session : List (String × ObjectIn)) (info : LinkerInfo)
    (e : SymbolName × (Option Defn × Refs)) : LRes (SymbolName × (Option Defn × Refs)) :=
  match e with
  | (name, (some defn, refs)) =>
    match defn.defn_ste_ix with
    | some ste_ix =>
      match List.lookup defn.defn_mod_id info.symbol_tables with
      | none => Except.error (LErr.crash "resolve: symbol_tables.get unwrap")
      | some table =>
        match table.get? ste_ix with
        | none => Except.error (LErr.crash "resolve: symbol table index out of bounds")
        | some ste =>
          if ste.st_seg > 0 then
            match List.lookup defn.defn_mod_id session with
            | none => Except.error (LErr.crash "resolve: session_objects.get unwrap")
            | some obj =>
              match obj.segments.get? (usizeOfI32 ste.st_seg - 1) with
              | none => Except.error (LErr.crash "resolve: segments index out of bounds")
              | some seg =>
                match List.lookup defn.defn_mod_id info.segment_mapping with
                | none => Except.error (LErr.crash "resolve: segment_mapping.get unwrap")
                | some addrs =>
                  match addrs.get seg.segment_name with
                  | none => Except.error (LErr.crash "resolve: segment offset unwrap")
                  | some segment_offset =>
                    Except.ok (name,
                      (some { defn with defn_addr := some (segment_offset + ste.st_value) },
                       refs))
          else Except.error (LErr.crash "assert ste.st_seg > 0 failed")
    | none => Except.error (LErr.crash "resolve_global_sym_offsets: undefined symbol")
  | (_, (none, _)) => Except.error (LErr.crash "resolve_global_sym_offsets: undefined symbol")

/-- editor.rs resolve_global_sym_offsets: resolve every entry in order. -/
def resolve_global_sym_offsets (session : List (String × ObjectIn)) (info : LinkerInfo) :
    LRes LinkerInfo :=
  match go info.global_symtable with
  | Except.error e => Except.error e
  | Except.ok g => Except.ok { info with global_symtable := g }
where
  go : List (SymbolName × (Option Defn × Refs)) →
      LRes (List (SymbolName × (Option Defn × Refs)))
  | [] => Except.ok []
  | e :: rest =>
    match resolveEntry session info e with
    | Except.error err => Except.error err
    | Except.ok e' =>
      match go rest with
      | Except.error err => Except.error err
      | Except.ok rest' => Except.ok (e' :: rest')

/-! ## Phase 2: library satisfaction (editor.rs static_libs_symbol_lookup) -/

/-- Session state threaded through library satisfaction: output, link info
and the session_objects map of the editor. -/
structure LinkSt where
  out : ObjectOut
  info : LinkerInfo
  session : List (String × ObjectIn)
deriving Repr

/-- Ingestion of one library object into the session, as performed inside
static_libs_symbol_lookup: alloc_storage_and_symtables (its GOT tally is
discarded), session_objects insert, undefined names of the pulled module
pushed on the worklist, id marked visited. -/
def ingestLibObj (id : String) (obj : ObjectIn) (st : LinkSt)
    (undef : List SymbolName) (visited : List String) :
    LRes (LinkSt × List SymbolName × List String) :=
  match alloc_storage_and_symtables id obj st.out st.info with
  | Except.error e => Except.error e
  | Except.ok (out, info, _) =>
    Except.ok (⟨out, info, insertSorted st.session id obj⟩,
      undef ++ ((obj.symbol_table.filter (fun ste => !ste.is_defined)).map (·.st_name)),
      visited ++ [id])

/-- Decimal digit list of a value (fuel-structural like hexUpperGo). -/
def decDigitsGo : Nat → Nat → List Char
  | _, 0 => []
  | 0, _ + 1 => []
  | fuel + 1, n + 1 =>
    decDigitsGo fuel ((n + 1) / 10) ++ [Char.ofNat ('0'.toNat + (n + 1) % 10)]

/-- Decimal formatting of a usize (Rust Display). -/
def decRepr (n : Nat) : String :=
  if n = 0 then "0" else String.mk (decDigitsGo n n)

/-- DirLib scan for one undefined name: walk the MAP entries in order,
skip visited objects, and on the first entry exporting the name ingest its
object when present; that entry always breaks the whole library scan. -/
def scanDirLib (symbols : List (String × List SymbolName))
    (objects : List (String × ObjectIn)) (undef_sym : SymbolName) (st : LinkSt)
    (undef : List SymbolName) (visited : List String) :
    LRes (LinkSt × List SymbolName × List String × Bool)
  := go symbols st undef visited
where
  go : List (String × List SymbolName) → LinkSt → List SymbolName → List String →
      LRes (LinkSt × List SymbolName × List String × Bool)
  | [], st, undef, visited => Except.ok (st, undef, visited, false)
  | (lib_obj_name, lib_obj_syms) :: rest, st, undef, visited =>
    if lib_obj_name ∈ visited then go rest st undef visited
    else if undef_sym ∈ lib_obj_syms then
      match List.lookup lib_obj_name objects with
      | some lib_obj =>
        match ingestLibObj lib_obj_name lib_obj st undef visited with
        | Except.error e => Except.error e
        | Except.ok (st, undef, visited) => Except.ok (st, undef, visited, true)
      | none => Except.ok (st, undef, visited, true)
    else go rest st undef visited

/-- FileLib scan for one undefined name: every directory entry matching the
name ingests its module (keyed by the synthetic id libname_mod_index)
unless already visited; the scan never breaks out of the library loop. -/
def scanFileLib (libname : String) (symbols : List (SymbolName × Nat))
    (objects : List ObjectIn) (undef_sym : SymbolName) (st : LinkSt)
    (undef : List SymbolName) (visited : List String) :
    LRes (LinkSt × List SymbolName × List String)
  := go symbols st undef visited
where
  go : List (SymbolName × Nat) → LinkSt → List SymbolName → List String →
      LRes (LinkSt × List SymbolName × List String)
  | [], st, undef, visited => Except.ok (st, undef, visited)
  | (lib_obj_sym, obj_offset) :: rest, st, undef, visited =>
    if lib_obj_sym = undef_sym then
      match objects.get? obj_offset with
      | some lib_obj =>
        if libname ++ "_mod_" ++ decRepr obj_offset ∈ visited then go rest st undef visited
        else
          match ingestLibObj (libname ++ "_mod_" ++ decRepr obj_offset) lib_obj st
              undef visited with
          | Except.error e => Except.error e
          | Except.ok (st, undef, visited) => go rest st undef visited
      | none => go rest st undef visited
    else go rest st undef visited

/-- Scan of the static libraries in input order for one undefined name: a
DirLib hit breaks the scan, a FileLib hit continues with the next library,
the Stub arm only walks its members without any state change. -/
def scanLibs (libs : List StaticLib) (undef_sym : SymbolName) (st : LinkSt)
    (undef : List SymbolName) (visited : List String) :
    LRes (LinkSt × List SymbolName × List String)
  :=
  match libs with
  | [] => Except.ok (st, undef, visited)
  | lib :: rest =>
    match lib with
    | .DirLib _ symbols objects =>
      match scanDirLib symbols objects undef_sym st undef visited with
      | Except.error e => Except.error e
      | Except.ok (st, undef, visited, brk) =>
        if brk then Except.ok (st, undef, visited)
        else scanLibs rest undef_sym st undef visited
    | .FileLib libname symbols objects =>
      match scanFileLib libname symbols objects undef_sym st undef visited with
      | Except.error e => Except.error e
      | Except.ok (st, undef, visited) => scanLibs rest undef_sym st undef visited
    | .Stub _ => scanLibs rest undef_sym st undef visited

/-- Worklist loop of static_libs_symbol_lookup: pop the last undefined name
and scan the libraries; fuel bounds the recursion (the concrete bound used
by the embedding always suffices for terminating source runs, and running
out of fuel is reported as a crash, never as success). -/
def lookupLoop (libs : List StaticLib) : Nat → List SymbolName → List String →
    LinkSt → LRes LinkSt
  | _, [], _, st => Except.ok st
  | 0, _ :: _, _, _ => Except.error (LErr.crash "lookupLoop: out of fuel")
  | fuel + 1, undef@(_ :: _), visited, st =>
    match undef.getLast? with
    | none => Except.error (LErr.crash "unreachable: undef_syms.pop on empty vec")
    | some undef_sym =>
      match scanLibs libs undef_sym st undef.dropLast visited with
      | Except.error e => Except.error e
      | Except.ok (st, undef, visited) => lookupLoop libs fuel undef visited st

/-- Fuel bound for the worklist loop: one iteration per initial undefined
name plus one per symbol-table entry of any library object (each object is
ingested at most once and pushes at most its table length). -/
def lookupFuel (libs : List StaticLib) (undef : List SymbolName) : Nat :=
  undef.length + 1 +
    (libs.map (fun lib =>
      match lib with
      | .DirLib _ _ objects =>
        (objects.map (fun o => o.2.symbol_table.length)).sum
      | .FileLib _ _ objects => (objects.map (fun o => o.symbol_table.length)).sum
      | .Stub _ => 0)).sum

/-- editor.rs static_libs_symbol_lookup. -/
def static_libs_symbol_lookup (st : LinkSt) (undef_syms : List SymbolName)
    (static_libs : List StaticLib) : LRes LinkSt :=
  lookupLoop static_libs (lookupFuel static_libs undef_syms) undef_syms [] st

/-! ## Phase 7: relocation application (editor.rs run_relocations) -/

/-- Application of one relocation of module modname, with the running GOT
cursor; mirrors one arm of the match in run_relocations. The log line at
the head of the loop indexes the referenced segment or symbol and panics
out of range. -/
def applyReloc (cfg : LinkerCfg) (modname : String) (mod_obj : ObjectIn)
    (info : LinkerInfo) (r : Relocation) (out : ObjectOut) (got_offset : Nat) :
    LRes (ObjectOut × Nat) :=
  match (match r.rel_ref with
         | .SegmentRef seg_i =>
           (mod_obj.segments.get? seg_i).map (fun _ => ())
         | .SymbolRef sym_i =>
           (mod_obj.symbol_table.get? sym_i).map (fun _ => ())
         | .NoRef => some ()) with
  | none => Except.error (LErr.crash "run_relocations: reloc_entity index out of bounds")
  | some _ =>
  match r.rel_type with
  | .A4 =>
    match r.rel_ref with
    | .SymbolRef _ => Except.error (LErr.crash "run_relocations: A4 with SymbolRef")
    | .NoRef => Except.error (LErr.crash "run_relocations: A4 with NoRef")
    | .SegmentRef seg_i =>
      match mod_obj.segments.get? seg_i with
      | none => Except.error (LErr.crash "run_relocations: segments index out of bounds")
      | some seg =>
        let seg_name := seg.segment_name
        match (List.lookup modname info.segment_mapping).bind (fun m => m.get seg_name) with
        | none => Except.error (LErr.crash "run_relocations: segment_mapping unwrap")
        | some mod_seg_off =>
          match mk_addr_4 (usizeOfI32 mod_seg_off) with
          | none => Except.error (LErr.link LinkError.AddressOverflowError)
          | some saa =>
            let fixed : LRes ObjectOut :=
              match out.object_data.get r.rel_seg with
              | none => Except.ok out
              | some sd =>
                match out.segments.get r.rel_seg,
                      (List.lookup modname info.segment_mapping).bind
                        (fun m => m.get r.rel_seg) with
                | some relseg, some relmapoff =>
                  let reloc_seg_start := relseg.segment_start - relmapoff
                  let reloc_seg_off := reloc_seg_start + r.rel_loc
                  match sd_update sd (usizeOfI32 reloc_seg_off) 4 saa with
                  | none => Except.error (LErr.crash "SegmentData::update out of bounds")
                  | some sd' =>
                    Except.ok { out with object_data := out.object_data.insert r.rel_seg sd' }
                | _, _ => Except.error (LErr.crash "run_relocations: unwrap in A4 fixup")
            match fixed with
            | Except.error e => Except.error e
            | Except.ok out =>
              match (List.lookup modname info.segment_mapping).bind
                      (fun m => m.get r.rel_seg),
                    out.segments.get r.rel_seg with
              | some relmapoff, some relseg =>
                let er_rel_loc := relmapoff + r.rel_loc - relseg.segment_start
                Except.ok ({ out with relocations := out.relocations ++
                  [{ rel_loc := er_rel_loc, rel_seg := r.rel_seg,
                     rel_ref := RelRef.NoRef, rel_type := RelType.ER4 }] }, got_offset)
              | _, _ => Except.error (LErr.crash "run_relocations: unwrap for ER4 loc")
  | .R4 =>
    match r.rel_ref with
    | .SymbolRef _ => Except.error (LErr.crash "run_relocations: R4 with SymbolRef")
    | .NoRef => Except.error (LErr.crash "run_relocations: R4 with NoRef")
    | .SegmentRef seg_i =>
      match mod_obj.segments.get? seg_i with
      | none => Except.error (LErr.crash "run_relocations: segments index out of bounds")
      | some seg =>
        let seg_name := seg.segment_name
        match (List.lookup modname info.segment_mapping).bind (fun m => m.get seg_name),
              (List.lookup modname info.segment_mapping).bind (fun m => m.get r.rel_seg) with
        | some mod_seg_off, some relmapoff =>
          let next_insr_loc := relmapoff + r.rel_loc + 4
          match out.object_data.get r.rel_seg with
          | none => Except.ok (out, got_offset)
          | some sd =>
            match out.segments.get r.rel_seg with
            | none => Except.error (LErr.crash "run_relocations: unwrap in R4 fixup")
            | some relseg =>
              let loc_off := next_insr_loc - 4 - relseg.segment_start
              match (sd_get_at sd (usizeOfI32 loc_off) 4).bind x_to_i4 with
              | none => Except.error (LErr.crash "run_relocations: R4 addend unwrap")
              | some addend =>
                let rel_addr_val := mk_i_4 (next_insr_loc - mod_seg_off + addend)
                match sd_update sd (usizeOfI32 loc_off) 4 rel_addr_val with
                | none => Except.error (LErr.crash "SegmentData::update out of bounds")
                | some sd' =>
                  Except.ok ({ out with
                    object_data := out.object_data.insert r.rel_seg sd' }, got_offset)
        | _, _ => Except.error (LErr.crash "run_relocations: segment_mapping unwrap")
  | .AS4 =>
    match r.rel_ref with
    | .SegmentRef _ => Except.error (LErr.crash "run_relocations: AS4 with SegmentRef")
    | .NoRef => Except.error (LErr.crash "run_relocations: AS4 with NoRef")
    | .SymbolRef sym_i =>
      match mod_obj.symbol_table.get? sym_i with
      | none => Except.error (LErr.crash "run_relocations: symbol index out of bounds")
      | some sym =>
        match (gstLookup info.global_symtable sym.st_name).bind
                (fun x => x.1.bind (fun d => d.defn_addr)) with
        | none => Except.error (LErr.crash "run_relocations: defn_addr unwrap")
        | some mod_sym_off =>
          match (List.lookup modname info.segment_mapping).bind
                  (fun m => m.get r.rel_seg),
                out.segments.get r.rel_seg with
          | some relmapoff, some relseg =>
            let loc_off := relmapoff + r.rel_loc - relseg.segment_start
            match (out.object_data.get r.rel_seg).bind
                    (fun sd => (sd_get_at sd (usizeOfI32 loc_off) 4).bind x_to_i4) with
            | none => Except.error (LErr.crash "run_relocations: AS4 addend unwrap")
            | some addend =>
              match mk_addr_4 (usizeOfI32 (mod_sym_off + addend)) with
              | none => Except.error (LErr.link LinkError.AddressOverflowError)
              | some v =>
                let fixed : LRes ObjectOut :=
                  match out.object_data.get r.rel_seg with
                  | none => Except.ok out
                  | some sd =>
                    match sd_update sd (usizeOfI32 loc_off) 4 v with
                    | none => Except.error (LErr.crash "SegmentData::update out of bounds")
                    | some sd' =>
                      Except.ok { out with
                        object_data := out.object_data.insert r.rel_seg sd' }
                match fixed with
                | Except.error e => Except.error e
                | Except.ok out =>
                  let er_rel_loc := relmapoff + r.rel_loc - relseg.segment_start
                  Except.ok ({ out with relocations := out.relocations ++
                    [{ rel_loc := er_rel_loc, rel_seg := r.rel_seg,
                       rel_ref := RelRef.NoRef, rel_type := RelType.ER4 }] }, got_offset)
          | _, _ => Except.error (LErr.crash "run_relocations: unwrap in AS4")
  | .RS4 =>
    match r.rel_ref with
    | .SegmentRef _ => Except.error (LErr.crash "run_relocations: RS4 with SegmentRef")
    | .NoRef => Except.error (LErr.crash "run_relocations: RS4 with NoRef")
    | .SymbolRef sym_i =>
      match mod_obj.symbol_table.get? sym_i with
      | none => Except.error (LErr.crash "run_relocations: symbol index out of bounds")
      | some sym =>
        match (gstLookup info.global_symtable sym.st_name).bind
                (fun x => x.1.bind (fun d => d.defn_addr)) with
        | none => Except.error (LErr.crash "run_relocations: defn_addr unwrap")
        | some mod_sym_off =>
          match (List.lookup modname info.segment_mapping).bind
                  (fun m => m.get r.rel_seg),
                out.segments.get r.rel_seg with
          | some loc_addr, some relseg =>
            let loc_off := loc_addr + r.rel_loc - relseg.segment_start
            match (out.object_data.get r.rel_seg).bind
                    (fun sd => (sd_get_at sd (usizeOfI32 loc_off) 4).bind x_to_i4) with
            | none => Except.error (LErr.crash "run_relocations: RS4 addend unwrap")
            | some addend =>
              let fixed : LRes ObjectOut :=
                match out.object_data.get r.rel_seg with
                | none => Except.ok out
                | some sd =>
                  let rel_addr_val := mk_i_4 (loc_addr + 4 - mod_sym_off + addend)
                  match sd_update sd (usizeOfI32 loc_off) 4 rel_addr_val with
                  | none => Except.error (LErr.crash "SegmentData::update out of bounds")
                  | some sd' =>
                    Except.ok { out with object_data := out.object_data.insert r.rel_seg sd' }
              match fixed with
              | Except.error e => Except.error e
              | Except.ok out => Except.ok (out, got_offset)
          | _, _ => Except.error (LErr.crash "run_relocations: unwrap in RS4")
  | .U2 =>
    match r.rel_ref with
    | .SegmentRef _ => Except.error (LErr.crash "run_relocations: U2 with SegmentRef")
    | .NoRef => Except.error (LErr.crash "run_relocations: U2 with NoRef")
    | .SymbolRef sym_i =>
      match mod_obj.symbol_table.get? sym_i with
      | none => Except.error (LErr.crash "run_relocations: symbol index out of bounds")
      | some sym =>
        match (gstLookup info.global_symtable sym.st_name).bind
                (fun x => x.1.bind (fun d => d.defn_addr)) with
        | none => Except.error (LErr.crash "run_relocations: defn_addr unwrap")
        | some mod_sym_off =>
          match (List.lookup modname info.segment_mapping).bind
                  (fun m => m.get r.rel_seg),
                out.segments.get r.rel_seg with
          | some loc_addr, some relseg =>
            let loc_off := loc_addr + r.rel_loc - relseg.segment_start
            match mk_addr_4 (usizeOfI32 mod_sym_off) with
            | none => Except.error (LErr.link LinkError.AddressOverflowError)
            | some v =>
              match out.object_data.get r.rel_seg with
              | none => Except.ok (out, got_offset)
              | some sd =>
                match sd_update sd (usizeOfI32 loc_off) 2 (v.take 2) with
                | none => Except.error (LErr.crash "SegmentData::update out of bounds")
                | some sd' =>
                  Except.ok ({ out with
                    object_data := out.object_data.insert r.rel_seg sd' }, got_offset)
          | _, _ => Except.error (LErr.crash "run_relocations: unwrap in U2")
  | .L2 =>
    match r.rel_ref with
    | .SegmentRef _ => Except.error (LErr.crash "run_relocations: L2 with SegmentRef")
    | .NoRef => Except.error (LErr.crash "run_relocations: L2 with NoRef")
    | .SymbolRef sym_i =>
      match mod_obj.symbol_table.get? sym_i with
      | none => Except.error (LErr.crash "run_relocations: symbol index out of bounds")
      | some sym =>
        match (gstLookup info.global_symtable sym.st_name).bind
                (fun x => x.1.bind (fun d => d.defn_addr)) with
        | none => Except.error (LErr.crash "run_relocations: defn_addr unwrap")
        | some mod_sym_off =>
          match (List.lookup modname info.segment_mapping).bind
                  (fun m => m.get r.rel_seg),
                out.segments.get r.rel_seg with
          | some loc_addr, some relseg =>
            let loc_off := loc_addr + r.rel_loc - relseg.segment_start
            match mk_addr_4 (usizeOfI32 mod_sym_off) with
            | none => Except.error (LErr.link LinkError.AddressOverflowError)
            | some v =>
              match out.object_data.get r.rel_seg with
              | none => Except.ok (out, got_offset)
              | some sd =>
                match sd_update sd (usizeOfI32 loc_off) 2 (v.drop 2) with
                | none => Except.error (LErr.crash "SegmentData::update out of bounds")
                | some sd' =>
                  Except.ok ({ out with
                    object_data := out.object_data.insert r.rel_seg sd' }, got_offset)
          | _, _ => Except.error (LErr.crash "run_relocations: unwrap in L2")
  | .GA4 =>
    match r.rel_ref with
    | .SegmentRef _ => Except.error (LErr.crash "run_relocations: GA4 with SegmentRef")
    | .SymbolRef _ => Except.error (LErr.crash "run_relocations: GA4 with SymbolRef")
    | .NoRef =>
      match (List.lookup modname info.segment_mapping).bind (fun m => m.get r.rel_seg),
            out.segments.get r.rel_seg with
      | some seg_addr, some relseg =>
        let loc_off := seg_addr + r.rel_loc - relseg.segment_start
        match out.segments.get .got with
        | none => Except.error (LErr.crash "run_relocations: .got segment unwrap")
        | some gotseg =>
          let got_off := gotseg.segment_start
          let dist_to_got := got_off - (seg_addr + r.rel_loc)
          match mk_addr_4 (usizeOfI32 dist_to_got) with
          | none => Except.error (LErr.link LinkError.AddressOverflowError)
          | some v =>
            match out.object_data.get r.rel_seg with
            | none => Except.ok (out, got_offset)
            | some sd =>
              match sd_update sd (usizeOfI32 loc_off) 4 (v.take 4) with
              | none => Except.error (LErr.crash "SegmentData::update out of bounds")
              | some sd' =>
                Except.ok ({ out with
                  object_data := out.object_data.insert r.rel_seg sd' }, got_offset)
      | _, _ => Except.error (LErr.crash "run_relocations: unwrap in GA4")
  | .GP4 =>
    match r.rel_ref with
    | .SegmentRef _ => Except.error (LErr.crash "run_relocations: GP4 with SegmentRef")
    | .NoRef => Except.error (LErr.crash "run_relocations: GP4 with NoRef")
    | .SymbolRef sym_i =>
      match mod_obj.symbol_table.get? sym_i with
      | none => Except.error (LErr.crash "run_relocations: symbol index out of bounds")
      | some sym =>
        match (gstLookup info.global_symtable sym.st_name).bind
                (fun x => x.1.bind (fun d => d.defn_addr)) with
        | none => Except.error (LErr.crash "run_relocations: defn_addr unwrap")
        | some mod_sym_off =>
          match mk_addr_4 (usizeOfI32 mod_sym_off) with
          | none => Except.error (LErr.link LinkError.AddressOverflowError)
          | some v =>
            let fixed : LRes ObjectOut :=
              match out.object_data.get .got with
              | none => Except.ok out
              | some sd =>
                match sd_update sd got_offset 4 v with
                | none => Except.error (LErr.crash "SegmentData::update out of bounds")
                | some sd' =>
                  Except.ok { out with object_data := out.object_data.insert .got sd' }
            match fixed with
            | Except.error e => Except.error e
            | Except.ok out =>
              match (List.lookup modname info.segment_mapping).bind
                      (fun m => m.get r.rel_seg),
                    out.segments.get r.rel_seg with
              | some relmapoff, some relseg =>
                let loc_off := relmapoff + r.rel_loc - relseg.segment_start
                match mk_addr_4 got_offset with
                | none => Except.error (LErr.link LinkError.AddressOverflowError)
                | some v2 =>
                  match out.object_data.get r.rel_seg with
                  | none => Except.ok (out, got_offset + 4)
                  | some sd =>
                    match sd_update sd (usizeOfI32 loc_off) 4 v2 with
                    | none =>
                      Except.error (LErr.crash "SegmentData::update out of bounds")
                    | some sd' =>
                      Except.ok ({ out with
                        object_data := out.object_data.insert r.rel_seg sd' },
                        got_offset + 4)
              | _, _ => Except.error (LErr.crash "run_relocations: unwrap in GP4")
  | .GR4 =>
    match r.rel_ref with
    | .SymbolRef _ => Except.error (LErr.crash "run_relocations: GR4 with SymbolRef")
    | .NoRef => Except.error (LErr.crash "run_relocations: GR4 with NoRef")
    | .SegmentRef seg_i =>
      match (List.lookup modname info.segment_mapping).bind (fun m => m.get r.rel_seg),
            out.segments.get r.rel_seg with
      | some relmapoff, some relseg =>
        let loc_off := relmapoff + r.rel_loc - relseg.segment_start
        match (out.object_data.get r.rel_seg).bind
                (fun sd => (sd_get_at sd (usizeOfI32 loc_off) 4).bind x_to_i4) with
        | none => Except.error (LErr.crash "run_relocations: GR4 addend unwrap")
        | some addr_off =>
          match mod_obj.segments.get? seg_i with
          | none => Except.error (LErr.crash "run_relocations: segments index out of bounds")
          | some seg =>
            match (List.lookup modname info.segment_mapping).bind
                    (fun m => m.get seg.segment_name) with
            | none => Except.error (LErr.crash "run_relocations: segment_mapping unwrap")
            | some seg_ref_addr =>
              match out.segments.get .got with
              | none => Except.error (LErr.crash "run_relocations: .got segment unwrap")
              | some gotseg =>
                let got_off := gotseg.segment_start
                match out.object_data.get r.rel_seg with
                | none => Except.ok (out, got_offset)
                | some sd =>
                  let rel_addr_val := mk_i_4 (seg_ref_addr + addr_off - got_off)
                  match sd_update sd (usizeOfI32 loc_off) 4 rel_addr_val with
                  | none => Except.error (LErr.crash "SegmentData::update out of bounds")
                  | some sd' =>
                    Except.ok ({ out with
                      object_data := out.object_data.insert r.rel_seg sd' }, got_offset)
      | _, _ => Except.error (LErr.crash "run_relocations: unwrap in GR4")
  | .ER4 =>
    match r.rel_ref with
    | .SymbolRef _ => Except.error (LErr.crash "run_relocations: ER4 with SymbolRef")
    | .SegmentRef _ => Except.error (LErr.crash "run_relocations: ER4 with SegmentRef")
    | .NoRef =>
      match (List.lookup modname info.segment_mapping).bind (fun m => m.get r.rel_seg),
            out.segments.get r.rel_seg with
      | some relmapoff, some relseg =>
        let loc_off := relmapoff + r.rel_loc - relseg.segment_start
        match (out.object_data.get r.rel_seg).bind
                (fun sd => (sd_get_at sd (usizeOfI32 loc_off) 4).bind x_to_i4) with
        | none => Except.error (LErr.crash "run_relocations: ER4 addr unwrap")
        | some addr =>
          match mk_addr_4 (usizeOfI32 (addr + cfg.text_start)) with
          | none => Except.error (LErr.link LinkError.AddressOverflowError)
          | some v =>
            match out.object_data.get r.rel_seg with
            | none => Except.ok (out, got_offset)
            | some sd =>
              match sd_update sd (usizeOfI32 loc_off) 4 v with
              | none => Except.error (LErr.crash "SegmentData::update out of bounds")
              | some sd' =>
                Except.ok ({ out with
                  object_data := out.object_data.insert r.rel_seg sd' }, got_offset)
      | _, _ => Except.error (LErr.crash "run_relocations: unwrap in ER4")

/-- Relocation loop of one module, threading the GOT cursor. -/
def runRelocsOfModule (cfg : LinkerCfg) (modname : String) (mod_obj : ObjectIn)
    (info : LinkerInfo) : List Relocation → ObjectOut → Nat → LRes (ObjectOut × Nat)
  | [], out, got_offset => Except.ok (out, got_offset)
  | r :: rest, out, got_offset =>
    match applyReloc cfg modname mod_obj info r out got_offset with
    | Except.error e => Except.error e
    | Except.ok (out, got_offset) => runRelocsOfModule cfg modname mod_obj info rest out got_offset

/-- editor.rs run_relocations: apply every relocation of every session
module, in session (sorted id) order, with one GOT cursor across all
modules. -/
def run_relocations (cfg : LinkerCfg) (session : List (String × ObjectIn))
    (out : ObjectOut) (info : LinkerInfo) : LRes ObjectOut :=
  go session out 0
where
  go : List (String × ObjectIn) → ObjectOut → Nat → LRes ObjectOut
  | [], out, _ => Except.ok out
  | (modname, mod_obj) :: rest, out, got_offset =>
    match runRelocsOfModule cfg modname mod_obj info mod_obj.relocations out got_offset with
    | Except.error e => Except.error e
    | Except.ok (out, got_offset) => go rest out got_offset

/-! ## do_link (editor.rs) -/

/-- Initial ingestion pass of do_link over the input objects: accumulate
GOT size and insert each module into session_objects. -/
def ingestInputs : List (String × ObjectIn) → LinkSt → Int → LRes (LinkSt × Int)
  | [], st, got_size => Except.ok (st, got_size)
  | (obj_id, obj) :: rest, st, got_size =>
    match alloc_storage_and_symtables obj_id obj st.out st.info with
    | Except.error e => Except.error e
    | Except.ok (out, info, g) =>
      ingestInputs rest
        ⟨out, info, insertSorted st.session obj_id obj⟩ (got_size + g)

/-- Undefined-name collection of do_link: global-symtable entries without a
definition, in table (sorted) order. -/
def undefNames (global : List (SymbolName × (Option Defn × Refs))) : List SymbolName :=
  match global with
  | [] => []
  | (name, (defn, _)) :: rest =>
    if defn.isNone then name :: undefNames rest else undefNames rest

/-- State of a link session just before relocations run: the phases of
editor.rs do_link up to and including resolve_global_sym_offsets. -/
def do_link_pre (cfg : LinkerCfg) (objs_in : List (String × ObjectIn))
    (static_libs : List StaticLib) (wrap_names : List SymbolName) : LRes LinkSt :=
  match wrap_routines objs_in wrap_names with
  | Except.error e => Except.error e
  | Except.ok objs =>
    match ingestInputs objs ⟨ObjectOut.new, LinkerInfo.new, []⟩ 0 with
    | Except.error e => Except.error e
    | Except.ok (st, got_size) =>
      match (if undefNames st.info.global_symtable ≠ [] then
               static_libs_symbol_lookup st (undefNames st.info.global_symtable)
                 static_libs
             else Except.ok st) with
      | Except.error e => Except.error e
      | Except.ok st =>
        match patch_segment_offsets cfg st.out st.info got_size with
        | Except.error e => Except.error e
        | Except.ok (out, info, bss_start) =>
          if (info.global_symtable.map (fun e => e.2.1)).any Option.isNone then
            Except.error (LErr.link LinkError.UndefinedSymbolError)
          else
            match resolve_global_sym_offsets st.session info with
            | Except.error e => Except.error e
            | Except.ok info2 =>
              Except.ok ⟨common_block_allocation out info bss_start, info2, st.session⟩

/-- editor.rs do_link (and so link and link_lib, which differ only in the
unused link-object-type tag): the full pipeline including relocations.
Returns the output object, the link info, and the session objects held by
the editor. -/
def do_link (cfg : LinkerCfg) (objs_in : List (String × ObjectIn))
    (static_libs : List StaticLib) (wrap_names : List SymbolName) :
    LRes (ObjectOut × LinkerInfo × List (String × ObjectIn)) :=
  match do_link_pre cfg objs_in static_libs wrap_names with
  | Except.error e => Except.error e
  | Except.ok st =>
    match run_relocations cfg st.session st.out st.info with
    | Except.error e => Except.error e
    | Except.ok out => Except.ok (out, st.info, st.session)

/-! ## Object text format (src/types/object.rs, parsing helpers of
src/types/segment.rs, symbol_table.rs, relocation.rs) -/

/-- src/types/errors.rs ParseError. -/
inductive ParseError
  | UnexpectedParseError
  | MissingMagicNumber
  | InvalidMagicNumber
  | MissingNSegsNSumsNRels
  | InvalidNSegsNSumsNRels
  | InvalidNSegsValue
  | InvalidNSymsValue
  | InvalidNRelsValue
  | InvalidSegment
  | InvalidSegmentName
  | InvalidSegmentStart
  | InvalidSegmentLen
  | InvalidSegmentDescr
  | InvalidNumOfSegments
  | InvalidSymbolTableEntry
  | InvalidSTEType
  | InvalidSTEValue
  | InvalidSTESegment
  | InvalidNumOfSTEs
  | STESegmentRefOutOfRange
  | InvalidRelocationEntry
  | InvalidRelRef
  | RelSegmentOutOfRange
  | RelSymbolOutOfRange
  | InvalidRelType
  | InvalidRelSegment
  | InvalidNumOfRelocations
  | InvalidObjectData
  | SegmentDataLengthMismatch
  | SegmentDataOutOfBounds
deriving DecidableEq, Repr

/-- Outcome of parsing: a ParseError value or an abort (a panicking unwrap
or index inside the parser). -/
inductive PErr
  | parse (e : ParseError)
  | crash (msg : String)
deriving DecidableEq, Repr

/-- Split of a character list at every line feed (no segment dropped). -/
def splitNl (cs : List Char) : List (List Char) :=
  match cs with
  | [] => [[]]
  | c :: rest =>
    let parts := splitNl rest
    if c = '\n' then [] :: parts
    else
      match parts with
      | p :: ps => (c :: p) :: ps
      | [] => [[c]]

/-- Removal of one trailing carriage return. -/
def stripCr (cs : List Char) : List Char :=
  match cs.getLast? with
  | some '\r' => cs.dropLast
  | _ => cs

/-- Rust str::lines(): substrings separated by a line feed, a final empty
segment dropped, one trailing carriage return stripped per line. -/
def rustLines (s : String) : List String :=
  let parts := splitNl s.data
  let parts :=
    match parts.getLast? with
    | some [] => parts.dropLast
    | _ => parts
  parts.map (fun l => String.mk (stripCr l))

/-- Rust char whitespace test on the characters the format uses (ASCII). -/
def isWsChar (c : Char) : Bool :=
  c = ' ' || c = '\t' || c = '\n' || c = '\r' || c = '\x0c'

/-- Maximal non-whitespace runs of a character list. -/
def wsTokens (cs : List Char) : List (List Char) :=
  match cs with
  | [] => []
  | c :: rest =>
    if isWsChar c then wsTokens rest
    else
      match wsTokens rest with
      | [] => [[c]]
      | t :: ts =>
        match rest with
        | [] => [[c]]
        | c' :: _ => if isWsChar c' then [c] :: t :: ts else (c :: t) :: ts

/-- Rust split_whitespace / split_ascii_whitespace: maximal non-whitespace
runs (the claims only exercise ASCII input, where the two agree). -/
def splitWs (s : String) : List String :=
  (wsTokens s.data).map String.mk

/-- Value of one hexadecimal digit. -/
def hexDigitVal (c : Char) : Option Nat :=
  if 48 ≤ c.toNat ∧ c.toNat ≤ 57 then some (c.toNat - 48)
  else if 97 ≤ c.toNat ∧ c.toNat ≤ 102 then some (c.toNat - 97 + 10)
  else if 65 ≤ c.toNat ∧ c.toNat ≤ 70 then some (c.toNat - 65 + 10)
  else none

/-- Accumulating hexadecimal read of a digit run. -/
def hexNatCore : List Char → Nat → Option Nat
  | [], acc => some acc
  | c :: cs, acc =>
    match hexDigitVal c with
    | some d => hexNatCore cs (acc * 16 + d)
    | none => none

/-- Optional single leading sign, as accepted by Rust from_str_radix. -/
def splitSign : List Char → Bool × List Char
  | '+' :: cs => (false, cs)
  | '-' :: cs => (true, cs)
  | cs => (false, cs)

/-- Rust i32::from_str_radix(s, 16): optional sign, at least one hex digit,
result within the i32 range (digit accumulation grows monotonically, so the
final range check is equivalent to the checked arithmetic of the source). -/
def from_str_radix_i32 (s : String) : Option Int :=
  let (neg, ds) := splitSign s.data
  if ds.isEmpty then none
  else
    match hexNatCore ds 0 with
    | none => none
    | some n =>
      if neg then (if n ≤ 2 ^ 31 then some (-(n : Int)) else none)
      else (if n ≤ 2 ^ 31 - 1 then some (n : Int) else none)

/-- Rust usize::from_str_radix(s, 16): a minus sign is only accepted for
value zero (checked subtraction from zero). -/
def from_str_radix_usize (s : String) : Option Nat :=
  let (neg, ds) := splitSign s.data
  if ds.isEmpty then none
  else
    match hexNatCore ds 0 with
    | none => none
    | some n =>
      if neg then (if n = 0 then some 0 else none)
      else (if n ≤ 2 ^ 64 - 1 then some n else none)

/-- Rust u8::from_str_radix(s, 16). -/
def from_str_radix_u8 (s : String) : Option Nat :=
  let (neg, ds) := splitSign s.data
  if ds.isEmpty then none
  else
    match hexNatCore ds 0 with
    | none => none
    | some n =>
      if neg then (if n = 0 then some 0 else none)
      else (if n ≤ 255 then some n else none)

/-- src/types/segment.rs segment_descr_from_chr. -/
def segment_descr_from_chr (c : Char) : Except PErr SegmentDescr :=
  match c with
  | 'R' => Except.ok SegmentDescr.R
  | 'W' => Except.ok SegmentDescr.W
  | 'P' => Except.ok SegmentDescr.P
  | _ => Except.error (PErr.parse ParseError.InvalidSegmentDescr)

/-- Descriptor-letter loop of parse_segment. -/
def parseDescrs : List Char → Except PErr (List SegmentDescr)
  | [] => Except.ok []
  | c :: cs =>
    match segment_descr_from_chr c with
    | Except.error e => Except.error e
    | Except.ok d =>
      match parseDescrs cs with
      | Except.error e => Except.error e
      | Except.ok ds => Except.ok (d :: ds)

/-- src/types/segment.rs parse_segment. -/
def parse_segment (s : String) : Except PErr Segment :=
  match splitWs s with
  | [name, start, len, descr] =>
    match
      (match name with
       | ".text" => some SegmentName.text
       | ".data" => some SegmentName.data
       | ".bss" => some SegmentName.bss
       | _ => none) with
    | none => Except.error (PErr.parse ParseError.InvalidSegmentName)
    | some segment_name =>
      match from_str_radix_i32 start with
      | none => Except.error (PErr.parse ParseError.InvalidSegmentStart)
      | some segment_start =>
        match from_str_radix_i32 len with
        | none => Except.error (PErr.parse ParseError.InvalidSegmentLen)
        | some segment_len =>
          match parseDescrs descr.data with
          | Except.error e => Except.error e
          | Except.ok segment_descr =>
            Except.ok { segment_name, segment_start, segment_len, segment_descr }
  | _ => Except.error (PErr.parse ParseError.InvalidSegment)

/-- src/types/symbol_table.rs parse_symbol_table_entry: any name token is
accepted as a plain symbol name, the segment number is only rejected when
it exceeds nsegs. -/
def parse_symbol_table_entry (nsegs : Int) (s : String) : Except PErr SymbolTableEntry :=
  match splitWs s with
  | [name, value, seg, ty] =>
    match from_str_radix_i32 value with
    | none => Except.error (PErr.parse ParseError.InvalidSTEValue)
    | some st_value =>
      match from_str_radix_i32 seg with
      | none => Except.error (PErr.parse ParseError.InvalidSTESegment)
      | some st_seg =>
        if st_seg > nsegs then Except.error (PErr.parse ParseError.STESegmentRefOutOfRange)
        else
          match ty with
          | "D" => Except.ok ⟨SymbolName.SName name, st_value, st_seg, .D⟩
          | "U" => Except.ok ⟨SymbolName.SName name, st_value, st_seg, .U⟩
          | _ => Except.error (PErr.parse ParseError.InvalidSTEType)
  | _ => Except.error (PErr.parse ParseError.InvalidSymbolTableEntry)

/-- src/types/relocation.rs parse_relocation. The ref field is parsed as
usize; `i - 1` underflows and aborts (debug profile) when the field is 0
and the kind requires a segment or symbol reference. -/
def parse_relocation (segs : List Segment) (st : List SymbolTableEntry) (s : String) :
    Except PErr Relocation :=
  match splitWs s with
  | [loc, seg, _ref, ty] =>
    match from_str_radix_i32 loc with
    | none => Except.error (PErr.parse ParseError.InvalidRelRef)
    | some rel_loc =>
      match from_str_radix_i32 seg with
      | none => Except.error (PErr.parse ParseError.InvalidRelSegment)
      | some i =>
        match segs.get? (usizeOfI32 (i - 1)) with
        | none => Except.error (PErr.parse ParseError.RelSegmentOutOfRange)
        | some sseg =>
          let rel_seg := sseg.segment_name
          match
            (match ty with
             | "A4" => some RelType.A4
             | "R4" => some RelType.R4
             | "AS4" => some RelType.AS4
             | "RS4" => some RelType.RS4
             | "U2" => some RelType.U2
             | "L2" => some RelType.L2
             | "GA4" => some RelType.GA4
             | "GP4" => some RelType.GP4
             | "GR4" => some RelType.GR4
             | "ER4" => some RelType.ER4
             | _ => none) with
          | none => Except.error (PErr.parse ParseError.InvalidRelType)
          | some rel_type =>
            match from_str_radix_usize _ref with
            | none => Except.error (PErr.parse ParseError.InvalidRelRef)
            | some i =>
              if rel_type.is_segment_rel then
                if i = 0 then Except.error (PErr.crash "usize subtraction underflow")
                else
                  match segs.get? (i - 1) with
                  | none => Except.error (PErr.parse ParseError.RelSegmentOutOfRange)
                  | some _ => Except.ok ⟨rel_loc, rel_seg, RelRef.SegmentRef (i - 1), rel_type⟩
              else if rel_type.is_no_rel then
                Except.ok ⟨rel_loc, rel_seg, RelRef.NoRef, rel_type⟩
              else
                if i = 0 then Except.error (PErr.crash "usize subtraction underflow")
                else
                  match st.get? (i - 1) with
                  | none => Except.error (PErr.parse ParseError.RelSymbolOutOfRange)
                  | some _ => Except.ok ⟨rel_loc, rel_seg, RelRef.SymbolRef (i - 1), rel_type⟩
  | _ => Except.error (PErr.parse ParseError.InvalidRelocationEntry)

/-- Byte loop of src/types/segment.rs parse_segment_data: every token must
be a hex byte (the source unwraps, aborting on a bad token). -/
def parseBytes : List String → Except PErr (List Nat)
  | [] => Except.ok []
  | t :: ts =>
    match from_str_radix_u8 t with
    | none => Except.error (PErr.crash "u8::from_str_radix unwrap")
    | some b =>
      match parseBytes ts with
      | Except.error e => Except.error e
      | Except.ok bs => Except.ok (b :: bs)

/-- src/types/segment.rs parse_segment_data. -/
def parse_segment_data (seg_len : Nat) (s : String) : Except PErr SegmentData :=
  match parseBytes (splitWs s) with
  | Except.error e => Except.error e
  | Except.ok x =>
    if x.length ≠ seg_len then Except.error (PErr.parse ParseError.SegmentDataLengthMismatch)
    else Except.ok x

/-- src/types/object.rs parse_nsegs_nsyms_nrels on the header line. -/
def parse_nsegs_nsyms_nrels (input : List String) :
    Except PErr ((Int × Int × Int) × List String) :=
  match input with
  | [] => Except.error (PErr.parse ParseError.MissingNSegsNSumsNRels)
  | vals :: rest =>
    match (splitWs vals).map from_str_radix_i32 with
    | [n_segs, n_syms, n_rels] =>
      match n_segs with
      | none => Except.error (PErr.parse ParseError.InvalidNSegsValue)
      | some nsegs =>
        match n_syms with
        | none => Except.error (PErr.parse ParseError.InvalidNSymsValue)
        | some nsyms =>
          match n_rels with
          | none => Except.error (PErr.parse ParseError.InvalidNRelsValue)
          | some nrels => Except.ok ((nsegs, nsyms, nrels), rest)
    | _ => Except.error (PErr.parse ParseError.InvalidNSegsNSumsNRels)

/-- Counted line loop of parse_object_file (`for _ in 0..n` with a line
consumed per iteration; exhausted input reports the given error). -/
def parseCount (p : String → Except PErr α) (tooFew : ParseError) :
    Nat → List String → Except PErr (List α × List String)
  | 0, input => Except.ok ([], input)
  | n + 1, input =>
    match input with
    | [] => Except.error (PErr.parse tooFew)
    | l :: rest =>
      match p l with
      | Except.error e => Except.error e
      | Except.ok a =>
        match parseCount p tooFew n rest with
        | Except.error e => Except.error e
        | Except.ok (as, rest') => Except.ok (a :: as, rest')

/-- Object-data loop of parse_object_file: one line per declared segment,
read with that segment's length (as usize). -/
def parseDataLoop : List Segment → List String → Except PErr (List SegmentData × List String)
  | [], input => Except.ok ([], input)
  | seg :: segs, input =>
    match input with
    | [] => Except.error (PErr.parse ParseError.InvalidObjectData)
    | l :: rest =>
      match parse_segment_data (usizeOfI32 seg.segment_len) l with
      | Except.error e => Except.error e
      | Except.ok sd =>
        match parseDataLoop segs rest with
        | Except.error e => Except.error e
        | Except.ok (sds, rest') => Except.ok (sd :: sds, rest')

/-- Overcount peek of parse_object_file: when the next line also parses as
an item of the section just read, its count was too small; a panic raised
while trying that parse aborts. -/
def peekCheck (p : String → Except PErr α) (overcount : ParseError)
    (input : List String) : Except PErr Unit :=
  match input.head? with
  | none => Except.ok ()
  | some l =>
    match p l with
    | Except.ok _ => Except.error (PErr.parse overcount)
    | Except.error (PErr.crash m) => Except.error (PErr.crash m)
    | Except.error (PErr.parse _) => Except.ok ()

/-- src/types/object.rs MAGIC_NUMBER. -/
def MAGIC_NUMBER : String := "LINK"

/-- src/types/object.rs parse_object_file: magic line, header counts, the
three counted sections each followed by a one-line overcount peek, then one
data line per segment and a trailing-content check. -/
def parse_object_file (file_contents : String) : Except PErr ObjectIn :=
  match rustLines file_contents with
  | [] => Except.error (PErr.parse ParseError.MissingMagicNumber)
  | mn :: input =>
    if mn ≠ MAGIC_NUMBER then Except.error (PErr.parse ParseError.InvalidMagicNumber)
    else
      match parse_nsegs_nsyms_nrels input with
      | Except.error e => Except.error e
      | Except.ok ((nsegs, nsyms, nrels), input) =>
        match parseCount parse_segment ParseError.InvalidNumOfSegments nsegs.toNat input with
        | Except.error e => Except.error e
        | Except.ok (segments, input) =>
          match peekCheck (parse_segment) ParseError.InvalidNumOfSegments input with
          | Except.error e => Except.error e
          | Except.ok _ =>
            match parseCount (parse_symbol_table_entry nsegs)
                ParseError.InvalidNumOfSTEs nsyms.toNat input with
            | Except.error e => Except.error e
            | Except.ok (symbol_table, input) =>
              match peekCheck (parse_symbol_table_entry nsegs)
                  ParseError.InvalidNumOfSTEs input with
              | Except.error e => Except.error e
              | Except.ok _ =>
                match parseCount (parse_relocation segments symbol_table)
                    ParseError.InvalidNumOfRelocations nrels.toNat input with
                | Except.error e => Except.error e
                | Except.ok (relocations, input) =>
                  match peekCheck (parse_relocation segments symbol_table)
                      ParseError.InvalidNumOfRelocations input with
                  | Except.error e => Except.error e
                  | Except.ok _ =>
                    match parseDataLoop segments input with
                    | Except.error e => Except.error e
                    | Except.ok (object_data, input) =>
                      if input ≠ [] then
                        Except.error (PErr.parse ParseError.SegmentDataOutOfBounds)
                      else
                        Except.ok { nsegs, nsyms, nrels, segments, symbol_table,
                                    relocations, object_data }

/-! ## Printer (src/types/object.rs ObjectIn::ppr and the Display impls) -/

/-- Uppercase hex digit. -/
def hexDigitChar (n : Nat) : Char :=
  if n < 10 then Char.ofNat ('0'.toNat + n)
  else Char.ofNat ('A'.toNat + (n - 10))

/-- Digit list of a value in base 16, most significant first; the fuel
argument (any bound at least the digit count, the callers pass the value
itself) keeps the recursion structural. -/
def hexUpperGo : Nat → Nat → List Char
  | _, 0 => []
  | 0, _ + 1 => []
  | fuel + 1, n + 1 => hexUpperGo fuel ((n + 1) / 16) ++ [hexDigitChar ((n + 1) % 16)]

/-- Rust formatting of a non-negative value without padding, as produced by
a bare X format. -/
def hexUpper (n : Nat) : String :=
  if n = 0 then "0" else String.mk (hexUpperGo n n)

/-- Rust X formatting of an i32: the 32-bit two's-complement pattern in
uppercase hex without padding. -/
def fmtHexI32 (v : Int) : String := hexUpper ((v % (2 ^ 32 : Int)).toNat)

/-- Rust 02X formatting of a byte. -/
def fmtHexByte (b : Nat) : String :=
  String.mk [hexDigitChar (b / 16 % 16), hexDigitChar (b % 16)]

/-- Display of a SegmentName. -/
def SegmentName.display : SegmentName → String
  | .text => ".text"
  | .got => ".got"
  | .data => ".data"
  | .bss => ".bss"

/-- Display of a SymbolName (a wrapped name shows as wrap_ prefix). -/
def SymbolName.display : SymbolName → String
  | .SName s => s
  | .WrappedSName s => "wrap_" ++ s

/-- Display of a SymbolTableEntryType. -/
def SymbolTableEntryType.display : SymbolTableEntryType → String
  | .D => "D"
  | .U => "U"

/-- Display of a RelType. -/
def RelType.display : RelType → String
  | .A4 => "A4"
  | .R4 => "R4"
  | .AS4 => "AS4"
  | .RS4 => "RS4"
  | .U2 => "U2"
  | .L2 => "L2"
  | .GA4 => "GA4"
  | .GP4 => "GP4"
  | .GR4 => "GR4"
  | .ER4 => "ER4"

/-- Display of a RelRef: the index in hex, nothing for NoRef. -/
def RelRef.display : RelRef → String
  | .SegmentRef s => hexUpper s
  | .SymbolRef s => hexUpper s
  | .NoRef => ""

/-- Segment::ppr_seg_descr. -/
def Segment.ppr_seg_descr (seg : Segment) : String :=
  String.join (seg.segment_descr.map (fun sd =>
    match sd with
    | .R => "R"
    | .W => "W"
    | .P => "P"))

/-- String intercalation, as Vec::join. -/
def strJoin (sep : String) (l : List String) : String :=
  match l with
  | [] => ""
  | [x] => x
  | x :: xs => x ++ sep ++ strJoin sep xs

/-- Position of the first segment with the given name (Iterator::position). -/
def segPosition (segs : List Segment) (n : SegmentName) : Option Nat :=
  go segs 0
where
  go : List Segment → Nat → Option Nat
  | [], _ => none
  | s :: rest, i => if s.segment_name = n then some i else go rest (i + 1)

/-- Relocation lines of ObjectIn::ppr; the position lookup unwraps. -/
def pprRels (segs : List Segment) : List Relocation → Except PErr (List String)
  | [] => Except.ok []
  | rel :: rest =>
    match segPosition segs rel.rel_seg with
    | none => Except.error (PErr.crash "ppr: position unwrap")
    | some p =>
      match pprRels segs rest with
      | Except.error e => Except.error e
      | Except.ok ls =>
        Except.ok ((fmtHexI32 rel.rel_loc ++ " " ++ hexUpper (p + 1) ++ " " ++
          rel.rel_ref.display ++ " " ++ rel.rel_type.display) :: ls)

/-- src/types/object.rs ObjectIn::ppr: the magic token (no newline after
it), the header line, segment lines, a newline, symbol lines, a newline,
relocation lines and the data lines joined with no separator between the
last two groups. -/
def ObjectIn.ppr (obj : ObjectIn) (include_hdr : Bool) : Except PErr String :=
  match pprRels obj.segments obj.relocations with
  | Except.error e => Except.error e
  | Except.ok rels =>
    let hdr := if include_hdr then MAGIC_NUMBER else ""
    let headerLine := fmtHexI32 obj.nsegs ++ " " ++ fmtHexI32 obj.nsyms ++ " " ++
      fmtHexI32 obj.nrels ++ "\n"
    let segLines := obj.segments.map (fun seg =>
      seg.segment_name.display ++ " " ++ fmtHexI32 seg.segment_start ++ " " ++
        fmtHexI32 seg.segment_len ++ " " ++ seg.ppr_seg_descr)
    let steLines := obj.symbol_table.map (fun ste =>
      ste.st_name.display ++ " " ++ fmtHexI32 ste.st_value ++ " " ++
        fmtHexI32 ste.st_seg ++ " " ++ ste.st_type.display)
    let dataLines := obj.object_data.map (fun data =>
      strJoin " " (data.map fmtHexByte))
    Except.ok (hdr ++ headerLine ++ strJoin "\n" segLines ++ "\n" ++
      strJoin "\n" steLines ++ "\n" ++ strJoin "\n" rels ++ strJoin "\n" dataLines)

/-! ## Concrete link sessions used by the claim checks -/

/-- Configuration used by the concrete runs: text at 0x100, no alignment. -/
def cexCfg : LinkerCfg := ⟨0x100, 0, 0⟩

/-- A .text segment of the given length at module start 0. -/
def cexText (len : Int) : Segment := ⟨.text, 0, len, [.R, .P]⟩

/-- First module of the A4 run: 4 text bytes plus empty .data and .bss. -/
def mod_a : ObjectIn :=
  { nsegs := 3, nsyms := 0, nrels := 0,
    segments := [cexText 4, ⟨.data, 0, 0, []⟩, ⟨.bss, 0, 0, []⟩],
    symbol_table := [], relocations := [],
    object_data := [[0, 0, 0, 0], [], []] }

/-- Second module of the A4 run: 8 text bytes and an A4 relocation at
offset 4 targeting its own .text. -/
def mod_b : ObjectIn :=
  { nsegs := 1, nsyms := 0, nrels := 1,
    segments := [cexText 8],
    symbol_table := [],
    relocations := [⟨4, .text, .SegmentRef 0, .A4⟩],
    object_data := [[0, 0, 0, 0, 0, 0, 0, 0]] }

/-- Module with a single undefined reference to foo. -/
def mod_main : ObjectIn :=
  { nsegs := 3, nsyms := 1, nrels := 0,
    segments := [cexText 4, ⟨.data, 0, 0, []⟩, ⟨.bss, 0, 0, []⟩],
    symbol_table := [⟨.SName "foo", 0, 0, .U⟩], relocations := [],
    object_data := [[0, 0, 0, 0], [], []] }

/-- Library object defining foo, with one GP4 relocation on it. -/
def lib_obj_gp4 : ObjectIn :=
  { nsegs := 1, nsyms := 1, nrels := 1,
    segments := [cexText 8],
    symbol_table := [⟨.SName "foo", 0, 1, .D⟩],
    relocations := [⟨0, .text, .SymbolRef 0, .GP4⟩],
    object_data := [[0, 0, 0, 0, 0, 0, 0, 0]] }

/-- DirLib offering foo from object libobj (which carries a GP4). -/
def dirlib_L : StaticLib :=
  .DirLib "L" [("libobj", [.SName "foo"])] [("libobj", lib_obj_gp4)]

/-- Library object defining foo with no relocations. -/
def lib_obj_foo : ObjectIn :=
  { nsegs := 1, nsyms := 1, nrels := 0,
    segments := [cexText 4],
    symbol_table := [⟨.SName "foo", 0, 1, .D⟩],
    relocations := [],
    object_data := [[0, 0, 0, 0]] }

/-- FileLib whose directory offers foo from module 0. -/
def filelib_F : StaticLib := .FileLib "F" [(.SName "foo", 0)] [lib_obj_foo]

/-- A second library also offering foo, as a DirLib. -/
def dirlib_D2 : StaticLib :=
  .DirLib "D2" [("objA", [.SName "foo"])] [("objA", lib_obj_foo)]

/-- Module whose only symbol is a defined wrap_foo. -/
def mod_wrap_only : ObjectIn :=
  { nsegs := 3, nsyms := 1, nrels := 0,
    segments := [cexText 4, ⟨.data, 0, 0, []⟩, ⟨.bss, 0, 0, []⟩],
    symbol_table := [⟨.SName "wrap_foo", 0, 1, .D⟩], relocations := [],
    object_data := [[0, 0, 0, 0], [], []] }

/-- Module declaring foo before wrap_foo. -/
def mod_foo_then_wrap : ObjectIn :=
  { mod_wrap_only with
    nsyms := 2
    symbol_table := [⟨.SName "foo", 0, 1, .D⟩, ⟨.SName "wrap_foo", 1, 1, .D⟩] }

/-- Module declaring wrap_foo before foo. -/
def mod_wrap_then_foo : ObjectIn :=
  { mod_wrap_only with
    nsyms := 2
    symbol_table := [⟨.SName "wrap_foo", 1, 1, .D⟩, ⟨.SName "foo", 0, 1, .D⟩] }

/-- Module defining bar as an absolute symbol (segment field 0). -/
def mod_abs : ObjectIn :=
  { nsegs := 3, nsyms := 1, nrels := 0,
    segments := [cexText 4, ⟨.data, 0, 0, [.R]⟩, ⟨.bss, 0, 0, [.R]⟩],
    symbol_table := [⟨.SName "bar", 0, 0, .D⟩], relocations := [],
    object_data := [[0, 0, 0, 0], [], []] }

/-- Object text of mod_abs. -/
def mod_abs_text : String :=
  "LINK\n3 1 0\n.text 0 4 RP\n.data 0 0 R\n.bss 0 0 R\nbar 0 0 D\n00 00 00 00\n\n\n"

/-- Object text of the printer round-trip module. -/
def obj7_text : String := "LINK\n1 1 0\n.text 0 4 RP\nfoo 0 1 D\n00 01 02 03"

/-- The module parsed from obj7_text. -/
def obj7 : ObjectIn :=
  { nsegs := 1, nsyms := 1, nrels := 0,
    segments := [⟨.text, 0, 4, [.R, .P]⟩],
    symbol_table := [⟨.SName "foo", 0, 1, .D⟩],
    relocations := [],
    object_data := [[0, 1, 2, 3]] }

/-- Object text of the round-trip module with one relocation. -/
def obj7r_text : String := "LINK\n1 1 1\n.text 0 4 RP\nfoo 0 1 D\n0 1 1 A4\n00 01 02 03"

/-- The module parsed from obj7r_text. -/
def obj7r : ObjectIn :=
  { obj7 with
    nrels := 1
    relocations := [⟨0, .text, .SegmentRef 0, .A4⟩] }

/-- Common-block declaring module (undefined cb of the given size, own
.bss of two bytes). -/
def mod_cb (v : Int) : ObjectIn :=
  { nsegs := 3, nsyms := 1, nrels := 0,
    segments := [cexText 4, ⟨.data, 0, 0, []⟩, ⟨.bss, 0, 2, []⟩],
    symbol_table := [⟨.SName "cb", v, 0, .U⟩], relocations := [],
    object_data := [[0, 0, 0, 0], [], []] }

/-- Input module carrying one GP4 relocation on its own defined symbol. -/
def mod_gp4_self : ObjectIn :=
  { nsegs := 3, nsyms := 1, nrels := 1,
    segments := [cexText 8, ⟨.data, 0, 0, []⟩, ⟨.bss, 0, 0, []⟩],
    symbol_table := [⟨.SName "foo", 0, 1, .D⟩],
    relocations := [⟨0, .text, .SymbolRef 0, .GP4⟩],
    object_data := [[0, 0, 0, 0, 0, 0, 0, 0], [], []] }

/-- Linker info as produced by ingesting mod_abs under id m (used to
instantiate the resolution-phase statement of C10). -/
def c10_info : LinkerInfo :=
  { segment_mapping := [("m", { text := some 0x100, data := some 0x104, bss := some 0x104 })],
    common_block_mapping := [],
    symbol_tables := [("m", [⟨.SName "bar", 0, 0, .D⟩])],
    global_symtable := [(.SName "bar", (some ⟨"m", some 0, none, .FromObjectIn⟩, []))] }

/-- Sequential ingestion of a list of modules into the session: the shared
shape of do_link's initial pass and of every library pull (the GOT tally is
dropped, as the library path does). -/
def ingestList : List (String × ObjectIn) → LinkSt → LRes LinkSt
  | [], st => Except.ok st
  | (id, obj) :: rest, st =>
    match alloc_storage_and_symtables id obj st.out st.info with
    | Except.error e => Except.error e
    | Except.ok (out, info, _) =>
      ingestList rest ⟨out, info, insertSorted st.session id obj⟩

/-- Ids under which a library can ingest objects. -/
def libIds : StaticLib → List String
  | .DirLib _ _ objects => objects.map Prod.fst
  | .FileLib libname _ objects =>
    (List.range objects.length).map (fun i => libname ++ "_mod_" ++ decRepr i)
  | .Stub _ => []

/-- The pair of id and object is an object of one of the libraries under
its ingestion id. -/
def libObjOf (libs : List StaticLib) (id : String) (obj : ObjectIn) : Prop :=
  ∃ lib ∈ libs,
    match lib with
    | .DirLib _ _ objects => List.lookup id objects = some obj
    | .FileLib libname _ objects =>
      ∃ i, objects.get? i = some obj ∧ id = libname ++ "_mod_" ++ decRepr i
    | .Stub _ => False

/-- Common-block declarations of a module list, in declaration order. -/
def commonDecls (mods : List (String × ObjectIn)) : List (SymbolName × Int) :=
  (mods.flatMap (fun p => p.2.symbol_table)).filterMap
    (fun ste => if ste.is_common_block then some (ste.st_name, ste.st_value) else none)

/-- Values declared for one common-block name across a module list. -/
def declValues (mods : List (String × ObjectIn)) (name : SymbolName) : List Int :=
  (commonDecls mods).filterMap (fun q => if q.1 = name then some q.2 else none)

/-- Total .bss length contributed by one module's segments. -/
def moduleBssLen (obj : ObjectIn) : Int :=
  (obj.segments.filterMap (fun sg =>
    if sg.segment_name = SegmentName.bss then some sg.segment_len else none)).sum

/-- Length of the .bss slot of an output segment map, zero when absent. -/
def bssLenOf (m : SegMap Segment) : Int :=
  match m.get .bss with
  | none => 0
  | some s => s.segment_len

/-- One step of the running-maximum fold used by the common-block table
(HashMap entry().and_modify(max).or_insert). -/
def maxOptStep (a : Option Int) (v : Int) : Option Int :=
  match a with
  | none => some v
  | some w => some (if v > w then v else w)

/-- Maximum of a list of declared common-block sizes, none when the name
was never declared. -/
def maxDecl (l : List Int) : Option Int := l.foldl maxOptStep none

/-! ## Theorems -/

/-- Truncated remainder sits strictly above minus the (positive) divisor. -/
theorem tmod_gt_neg (x n : Int) (h : 0 < n) : -n < x.tmod n := by
  rcases le_or_lt 0 x with hx | hx
  · have := Int.tmod_nonneg n hx
    omega
  · have h1 : (-x).tmod n < n := Int.tmod_lt_of_pos (-x) h
    have h2 : (-x).tmod n = -(x.tmod n) := by
      rw [Int.tmod_def, Int.tmod_def, Int.neg_tdiv]
      ring
    omega

/-- Claim C5: for every i32 value i, x_to_i4 (mk_i_4 i) returns exactly i,
and mk_addr_4 u returns a 4-byte value exactly when u is at most
0xFFFFFFFF, returning no value otherwise. -/
theorem c5_codec_roundtrip_and_mk_addr_4 :
    (∀ i : Int, -2 ^ 31 ≤ i → i < 2 ^ 31 → x_to_i4 (mk_i_4 i) = some i) ∧
    (∀ u : Nat, (∃ bs, mk_addr_4 u = some bs ∧ bs.length = 4) ↔ u ≤ 0xFFFFFFFF) ∧
    (∀ u : Nat, u > 0xFFFFFFFF → mk_addr_4 u = none) := by
  refine ⟨?_, ?_, ?_⟩
  · intro i h1 h2
    unfold mk_i_4 x_to_i4 toSigned32
    simp only []
    congr 1
    omega
  · intro u
    constructor
    · rintro ⟨bs, hbs, -⟩
      unfold mk_addr_4 at hbs
      by_contra hgt
      simp [if_neg (by omega : ¬ u ≤ 0xFFFFFFFF)] at hbs
    · intro hle
      refine ⟨[u / 2 ^ 24 % 256, u / 2 ^ 16 % 256, u / 2 ^ 8 % 256, u % 256], ?_, rfl⟩
      unfold mk_addr_4
      rw [if_pos hle]
  · intro u hgt
    unfold mk_addr_4
    rw [if_neg (by omega)]

/-- Witness for C5 at i equal to minus one and u equal to five. -/
theorem c5_codec_roundtrip_and_mk_addr_4_witness :
    x_to_i4 (mk_i_4 (-1)) = some (-1) ∧
    (∃ bs, mk_addr_4 5 = some bs ∧ bs.length = 4) := by
  refine ⟨c5_codec_roundtrip_and_mk_addr_4.1 (-1) (by norm_num) (by norm_num), ?_⟩
  exact (c5_codec_roundtrip_and_mk_addr_4.2.1 5).mpr (by norm_num)

/-- Counterexample to claim C6 as stated: at x equal to minus three and n
equal to four, find_seg_start returns four, whose distance to x is seven,
not below n. -/
theorem c6_find_seg_start_counterexample :
    find_seg_start (-3) 4 = 4 ∧ ¬ (find_seg_start (-3) 4 - (-3) < 4) := by
  constructor <;> decide

/-- Claim C6 as amended: find_seg_start x 0 is x; for n positive the result
is at least x, is a multiple of n, and lands within 2n of x, the distance
dropping below n whenever x is non-negative (Rust truncated remainder makes
the rounding step overshoot for negative x). -/
theorem c6_find_seg_start_amended (x n : Int) :
    find_seg_start x 0 = x ∧
    (0 < n →
      x ≤ find_seg_start x n ∧
      find_seg_start x n % n = 0 ∧
      find_seg_start x n - x < 2 * n ∧
      (0 ≤ x → find_seg_start x n - x < n)) := by
  constructor
  · unfold find_seg_start
    simp
  · intro hn
    unfold find_seg_start
    rw [if_neg (by omega)]
    simp only []
    have hdiv : n * x.tdiv n + x.tmod n = x := Int.tdiv_add_tmod x n
    have hub : x.tmod n < n := Int.tmod_lt_of_pos x hn
    have hlb : -n < x.tmod n := tmod_gt_neg x n hn
    by_cases h0 : x.tmod n = 0
    · rw [if_pos h0]
      refine ⟨le_refl x, ?_, by omega, fun _ => by omega⟩
      have : x = n * x.tdiv n := by omega
      rw [this]
      exact Int.mul_emod_right n _
    · rw [if_neg h0]
      refine ⟨by omega, ?_, by omega, ?_⟩
      · have : x + (n - x.tmod n) = n * (x.tdiv n + 1) := by
          rw [Int.mul_add]
          omega
        rw [this]
        exact Int.mul_emod_right n _
      · intro hx
        have := Int.tmod_nonneg n hx
        omega

/-- Witness for C6 as amended, at x equal to minus three and n four. -/
theorem c6_find_seg_start_amended_witness :
    find_seg_start (-3) 0 = -3 ∧
    ((0 : Int) < 4 ∧ (-3 : Int) ≤ find_seg_start (-3) 4 ∧
      find_seg_start (-3) 4 % 4 = 0 ∧ find_seg_start (-3) 4 - (-3) < 2 * 4) := by
  have h := c6_find_seg_start_amended (-3) 4
  exact ⟨h.1, by decide, (h.2 (by decide)).1, (h.2 (by decide)).2.1, (h.2 (by decide)).2.2.1⟩

/-- Claim C7: the printer does not round-trip. ppr true pushes the magic
token without a newline, so the first printed line fuses LINK with the
header and re-parsing any module fails with InvalidMagicNumber; even with
the newline restored (the form the FileLib reader uses), a module with
relocations prints its last relocation line and first data line with no
separator and re-parsing fails. The relocation-free module round-trips once
the newline is inserted, matching the printer's librarian use. -/
theorem c7_ppr_roundtrip_code_bug :
    parse_object_file obj7_text = Except.ok obj7 ∧
    obj7.ppr true = Except.ok "LINK1 1 0\n.text 0 4 RP\nfoo 0 1 D\n00 01 02 03" ∧
    (obj7.ppr true).bind parse_object_file =
      Except.error (PErr.parse ParseError.InvalidMagicNumber) ∧
    ((obj7.ppr false).bind (fun b => parse_object_file ("LINK\n" ++ b))) =
      Except.ok obj7 ∧
    parse_object_file obj7r_text = Except.ok obj7r ∧
    obj7r.ppr true =
      Except.ok "LINK1 1 1\n.text 0 4 RP\nfoo 0 1 D\n0 1 0 A400 01 02 03" ∧
    ((obj7r.ppr false).bind (fun b => parse_object_file ("LINK\n" ++ b))) =
      Except.error (PErr.parse ParseError.InvalidRelocationEntry) := by
  refine ⟨by rfl, by rfl, by rfl, by rfl, by rfl, by rfl, by rfl⟩

/-- Claim C1: on a successful link of two modules a and b whose .text
segments land at output offsets 0 and 4, the A4 relocation of module b at
loc 4 must patch output offset modoff plus loc minus start, which is 8
(where the pushed ER4 indeed sits), but the code computes the write offset
as start minus modoff plus loc and patches offset 0: bytes 8..12 still hold
zeros while mk_addr_4 of the target offset 0x104 appears at bytes 0..4. -/
theorem c1_a4_write_offset_code_bug :
    (do_link cexCfg [("a", mod_a), ("b", mod_b)] [] []).map
        (fun t =>
          ((List.lookup "b" t.2.1.segment_mapping).bind (fun m => m.get .text),
           (t.1.object_data.get .text).bind (fun sd => sd_get_at sd 8 4),
           (t.1.object_data.get .text).bind (fun sd => sd_get_at sd 0 4),
           t.1.relocations)) =
      Except.ok (some 0x104, some [0, 0, 0, 0], some [0, 0, 1, 4],
        [⟨8, .text, .NoRef, .ER4⟩]) ∧
    mk_addr_4 (usizeOfI32 0x104) = some [0, 0, 1, 4] ∧
    ¬ ([0, 0, 0, 0] = [0, 0, 1, 4]) := by
  refine ⟨by rfl, by rfl, by decide⟩

/-- Counterexample to claim C4 as stated: the header line -1 0 0 is
accepted (i32 hex parsing takes a sign), producing a module whose nsegs is
minus one while its segment list is empty. -/
theorem c4_negative_header_counterexample :
    parse_object_file "LINK\n-1 0 0" = Except.ok ⟨-1, 0, 0, [], [], [], []⟩ ∧
    ¬ ((([] : List Segment).length : Int) = (-1 : Int)) := by
  refine ⟨by rfl, by decide⟩


/-- A counted section parse returns exactly as many items as requested. -/
theorem parseCount_length (p : String → Except PErr α) (e : ParseError) :
    ∀ (n : Nat) (input : List String) (as : List α) (rest : List String),
      parseCount p e n input = Except.ok (as, rest) → as.length = n := by
  intro n
  induction n with
  | zero =>
    intro input as rest h
    unfold parseCount at h
    cases h
    rfl
  | succ k ih =>
    intro input as rest h
    unfold parseCount at h
    split at h
    · cases h
    · split at h
      · cases h
      · split at h
        · cases h
        · cases h
          simp only [List.length_cons]
          rw [ih _ _ _ (by assumption)]

/-- parse_segment_data only accepts byte lists of the requested length. -/
theorem parse_segment_data_length (n : Nat) (s : String) (x : SegmentData)
    (h : parse_segment_data n s = Except.ok x) : x.length = n := by
  unfold parse_segment_data at h
  split at h
  · cases h
  · split at h
    · cases h
    · cases h
      omega

/-- The data loop returns one buffer per declared segment, each of the
segment's length read as usize. -/
theorem parseDataLoop_spec :
    ∀ (segs : List Segment) (input : List String) (sds : List SegmentData)
      (rest : List String), parseDataLoop segs input = Except.ok (sds, rest) →
      sds.length = segs.length ∧
      ∀ k seg, segs.get? k = some seg →
        ∃ sd, sds.get? k = some sd ∧ sd.length = usizeOfI32 seg.segment_len := by
  intro segs
  induction segs with
  | nil =>
    intro input sds rest h
    unfold parseDataLoop at h
    cases h
    exact ⟨rfl, by intro k seg hk; cases hk⟩
  | cons seg0 srest ih =>
    intro input sds rest h
    unfold parseDataLoop at h
    split at h
    · cases h
    · split at h
      · cases h
      · split at h
        · cases h
        · cases h
          obtain ⟨hlen, hall⟩ := ih _ _ _ (by assumption)
          refine ⟨by simp [hlen], ?_⟩
          intro k seg hk
          cases k with
          | zero =>
            cases hk
            exact ⟨_, rfl, parse_segment_data_length _ _ _ (by assumption)⟩
          | succ k' => exact hall k' seg hk

/-- Claim C4 as amended: for every accepted input the collection sizes are
the header counts clamped to zero (a negative count runs its section loop
zero times), object data is one buffer per segment, and each buffer has
the segment's declared length read as usize (equal to the declared length
whenever it is non-negative). -/
theorem c4_parse_object_file_sizes_amended (s : String) (m : ObjectIn)
    (h : parse_object_file s = Except.ok m) :
    m.segments.length = m.nsegs.toNat ∧
    m.symbol_table.length = m.nsyms.toNat ∧
    m.relocations.length = m.nrels.toNat ∧
    m.object_data.length = m.nsegs.toNat ∧
    (∀ k seg, m.segments.get? k = some seg →
      ∃ sd, m.object_data.get? k = some sd ∧
        sd.length = usizeOfI32 seg.segment_len) := by
  unfold parse_object_file at h
  repeat' split at h
  all_goals try cases h
  case _ =>
    obtain ⟨hdl, hdall⟩ := parseDataLoop_spec _ _ _ _ (by assumption)
    have h1 := parseCount_length parse_segment ParseError.InvalidNumOfSegments
      _ _ _ _ (by assumption)
    have h2 : _ := parseCount_length (parse_symbol_table_entry _)
      ParseError.InvalidNumOfSTEs _ _ _ _ (by assumption)
    have h3 : _ := parseCount_length (parse_relocation _ _)
      ParseError.InvalidNumOfRelocations _ _ _ _ (by assumption)
    exact ⟨h1, h2, h3, hdl.trans h1, hdall⟩


/-- Witness for C4 as amended on a concrete accepted object text. -/
theorem c4_parse_object_file_sizes_amended_witness :
    parse_object_file obj7_text = Except.ok obj7 ∧
    obj7.segments.length = obj7.nsegs.toNat ∧
    obj7.symbol_table.length = obj7.nsyms.toNat ∧
    obj7.relocations.length = obj7.nrels.toNat ∧
    obj7.object_data.length = obj7.nsegs.toNat := by
  have hp : parse_object_file obj7_text = Except.ok obj7 := by rfl
  have h := c4_parse_object_file_sizes_amended obj7_text obj7 hp
  exact ⟨hp, h.1, h.2.1, h.2.2.1, h.2.2.2.1⟩

/-- Every failure of resolveEntry is an abort, never a returned LinkError
value (the function's only failure modes are unwraps, the assert, and the
undefined-symbol panic). -/
theorem resolveEntry_err (session : List (String × ObjectIn)) (info : LinkerInfo)
    (e : SymbolName × (Option Defn × Refs)) (er : LErr)
    (h : resolveEntry session info e = Except.error er) : ∃ msg, er = LErr.crash msg := by
  unfold resolveEntry at h
  repeat' split at h
  all_goals first
  | (cases h; exact ⟨_, rfl⟩)
  | cases h

/-- The entry loop of resolve_global_sym_offsets aborts whenever the list
holds an entry whose defining symbol-table entry has a non-positive segment
field. -/
theorem resolveGo_bad (session : List (String × ObjectIn)) (info : LinkerInfo)
    (name : SymbolName) (defn : Defn) (refs : Refs) (ix : Nat)
    (table : List SymbolTableEntry) (ste : SymbolTableEntry) :
    ∀ l : List (SymbolName × (Option Defn × Refs)),
      (name, (some defn, refs)) ∈ l →
      defn.defn_ste_ix = some ix →
      List.lookup defn.defn_mod_id info.symbol_tables = some table →
      table.get? ix = some ste →
      ste.st_seg ≤ 0 →
      ∃ msg, resolve_global_sym_offsets.go session info l =
        Except.error (LErr.crash msg) := by
  intro l
  induction l with
  | nil => intro hmem; cases hmem
  | cons e rest ih =>
    intro hmem hix htab hget hseg
    unfold resolve_global_sym_offsets.go
    rcases List.mem_cons.mp hmem with heq | hmem'
    · subst heq
      simp only [resolveEntry, hix, htab, hget]
      rw [if_neg (by omega)]
      exact ⟨_, rfl⟩
    · cases hre : resolveEntry session info e with
      | error er =>
        obtain ⟨msg, rfl⟩ := resolveEntry_err session info e er hre
        exact ⟨msg, rfl⟩
      | ok e' =>
        obtain ⟨msg, hmsg⟩ := ih hmem' hix htab hget hseg
        rw [hmsg]
        exact ⟨msg, rfl⟩

/-- Claim C10: the parser accepts a defined symbol whose segment field is
zero (only the upper bound is checked); whenever the resolution phase is
reached with such a symbol in the global table, resolve_global_sym_offsets
aborts on the assert st_seg strictly positive instead of returning a
LinkError; and the full link of a module defining such an absolute symbol
aborts end to end. -/
theorem c10_absolute_symbol_resolution_aborts :
    parse_symbol_table_entry 1 "bar 0 0 D" =
      Except.ok ⟨.SName "bar", 0, 0, .D⟩ ∧
    (∀ (session : List (String × ObjectIn)) (info : LinkerInfo)
      (name : SymbolName) (defn : Defn) (refs : Refs) (ix : Nat)
      (table : List SymbolTableEntry) (ste : SymbolTableEntry),
      (name, (some defn, refs)) ∈ info.global_symtable →
      defn.defn_ste_ix = some ix →
      List.lookup defn.defn_mod_id info.symbol_tables = some table →
      table.get? ix = some ste →
      ste.st_seg ≤ 0 →
      ∃ msg, resolve_global_sym_offsets session info = Except.error (LErr.crash msg)) ∧
    parse_object_file mod_abs_text = Except.ok mod_abs ∧
    do_link cexCfg [("m", mod_abs)] [] [] =
      Except.error (LErr.crash "assert ste.st_seg > 0 failed") := by
  refine ⟨by rfl, ?_, by rfl, by rfl⟩
  intro session info name defn refs ix table ste hmem hix htab hget hseg
  obtain ⟨msg, hmsg⟩ :=
    resolveGo_bad session info name defn refs ix table ste
      info.global_symtable hmem hix htab hget hseg
  refine ⟨msg, ?_⟩
  unfold resolve_global_sym_offsets
  rw [hmsg]

/-- Witness for C10 at the concrete info of the mod_abs session. -/
theorem c10_absolute_symbol_resolution_aborts_witness :
    ((.SName "bar", (some ⟨"m", some 0, none, .FromObjectIn⟩, ([] : Refs))) ∈
        c10_info.global_symtable ∧
      List.lookup "m" c10_info.symbol_tables = some [⟨.SName "bar", 0, 0, .D⟩] ∧
      (0 : Int) ≤ 0) ∧
    (∃ msg, resolve_global_sym_offsets [] c10_info = Except.error (LErr.crash msg)) := by
  refine ⟨⟨by decide, by rfl, by decide⟩, ?_⟩
  exact c10_absolute_symbol_resolution_aborts.2.1 [] c10_info
    (.SName "bar") ⟨"m", some 0, none, .FromObjectIn⟩ [] 0
    [⟨.SName "bar", 0, 0, .D⟩] ⟨.SName "bar", 0, 0, .D⟩
    (by decide) (by rfl) (by rfl) (by rfl) (by decide)

/-- On success, the symbol loop of wrap_routines renames exactly the
symbols named in the wrap list, regardless of the already-wrapped set. -/
theorem wrapSyms_ok (W : List SymbolName) :
    ∀ (st : List SymbolTableEntry) (already : List SymbolName)
      (st' : List SymbolTableEntry) (already' : List SymbolName),
      wrapSyms W already st = Except.ok (st', already') →
      st' = st.map (fun sym =>
        if sym.st_name ∈ W then
          { sym with st_name := SymbolName.WrappedSName sym.st_name.underlying }
        else sym) := by
  intro st
  induction st with
  | nil =>
    intro already st' already' h
    unfold wrapSyms at h
    cases h
    rfl
  | cons sym rest ih =>
    intro already st' already' h
    unfold wrapSyms at h
    repeat' split at h
    all_goals try cases h
    all_goals simp_all [ih _ _ _ (by assumption)]

/-- On success, wrap_routines renames exactly the listed names in every
module and changes nothing else. -/
theorem wrap_routines_go_ok (W : List SymbolName) :
    ∀ (objs : List (String × ObjectIn)) (already : List SymbolName)
      (objs' : List (String × ObjectIn)),
      wrap_routines.go W already objs = Except.ok objs' →
      objs' = objs.map (fun p => (p.1,
        { p.2 with symbol_table := p.2.symbol_table.map (fun sym =>
            if sym.st_name ∈ W then
              { sym with st_name := SymbolName.WrappedSName sym.st_name.underlying }
            else sym) })) := by
  intro objs
  induction objs with
  | nil =>
    intro already objs' h
    unfold wrap_routines.go at h
    cases h
    rfl
  | cons p rest ih =>
    intro already objs' h
    unfold wrap_routines.go at h
    repeat' split at h
    all_goals try cases h
    all_goals
      simp_all [ih _ _ (by assumption), wrapSyms_ok W _ _ _ _ (by assumption)]

/-- Counterexample to claim C8 as stated: a link whose only module defines
wrap_foo, with foo in the wrap list, does not fail with
WrappedSymbolNameAlreadyExists; it succeeds. -/
theorem c8_wrap_error_counterexample :
    (do_link cexCfg [("m", mod_wrap_only)] [] [.SName "foo"]).isOk = true ∧
    do_link cexCfg [("m", mod_wrap_only)] [] [.SName "foo"] ≠
      Except.error (LErr.link LinkError.WrappedSymbolNameAlreadyExists) := by
  constructor
  · rfl
  · intro hc
    have : (do_link cexCfg [("m", mod_wrap_only)] [] [.SName "foo"]).isOk = true := by rfl
    rw [hc] at this
    cases this

/-- Claim C8 as amended: every symbol whose name is in the wrap list is
renamed to its Wrapped variant (on success the output is exactly the
renaming map); but the WrappedSymbolNameAlreadyExists check is
visit-order dependent: it fires only when a symbol named wrap_X or real_X
is visited after an X has been wrapped, so foo before wrap_foo errors
while wrap_foo before foo (or wrap_foo alone) passes. -/
theorem c8_wrap_routines_amended :
    (∀ (objs objs' : List (String × ObjectIn)) (W : List SymbolName),
      wrap_routines objs W = Except.ok objs' →
      objs' = objs.map (fun p => (p.1,
        { p.2 with symbol_table := p.2.symbol_table.map (fun sym =>
            if sym.st_name ∈ W then
              { sym with st_name := SymbolName.WrappedSName sym.st_name.underlying }
            else sym) }))) ∧
    wrap_routines [("m", mod_foo_then_wrap)] [.SName "foo"] =
      Except.error (LErr.link LinkError.WrappedSymbolNameAlreadyExists) ∧
    (wrap_routines [("m", mod_wrap_then_foo)] [.SName "foo"]).isOk = true ∧
    (wrap_routines [("m", mod_wrap_only)] [.SName "foo"]).isOk = true := by
  refine ⟨?_, by rfl, by rfl, by rfl⟩
  intro objs objs' W h
  exact wrap_routines_go_ok W objs [] objs' h

/-- Witness for C8 as amended on the one-module wrap run. -/
theorem c8_wrap_routines_amended_witness :
    wrap_routines [("m", mod_foo_then_wrap)] [] =
      Except.ok [("m", mod_foo_then_wrap)] ∧
    [("m", mod_foo_then_wrap)] =
      [("m", mod_foo_then_wrap)].map (fun p => (p.1,
        { p.2 with symbol_table := p.2.symbol_table.map (fun sym =>
            if sym.st_name ∈ ([] : List SymbolName) then
              { sym with st_name := SymbolName.WrappedSName sym.st_name.underlying }
            else sym) })) := by
  have hw : wrap_routines [("m", mod_foo_then_wrap)] [] =
      Except.ok [("m", mod_foo_then_wrap)] := by rfl
  exact ⟨hw, by
    have := c8_wrap_routines_amended.1 [("m", mod_foo_then_wrap)]
      [("m", mod_foo_then_wrap)] [] hw
    exact this⟩

/-- Counterexample to claim C2 as stated: the only GP4 relocations of this
session sit in the module pulled from the library (the input module has
none), so the session GP4 tally is one relocation, four bytes; yet the
link succeeds with no .got segment at all, because the GOT requirement
returned by the ingestion of a library object is discarded. -/
theorem c2_got_counterexample :
    (do_link cexCfg [("main", mod_main)] [dirlib_L] []).map (fun t =>
      (t.1.segments.get .got, t.2.2.map Prod.fst,
       (t.2.2.map (fun p => gotSize p.2.relocations)).sum)) =
      Except.ok (none, ["libobj", "main"], 4) ∧
    ¬ ((4 : Int) = 0 ∨ (none : Option Segment).isSome) := by
  exact ⟨by rfl, by decide⟩

/-- Counterexample to claim C9 as stated: with a FileLib followed by a
DirLib both offering foo, the FileLib scan ingests its member but does not
break out of the library loop, so the DirLib is scanned for the same name
and ingests a second definition of foo; the link fails with
MultipleSymbolDefinitions instead of pulling only from the first library.
With the FileLib alone the same session links fine and pulls exactly its
member. -/
theorem c9_first_library_counterexample :
    do_link cexCfg [("main", mod_main)] [filelib_F, dirlib_D2] [] =
      Except.error (LErr.link LinkError.MultipleSymbolDefinitions) ∧
    (do_link cexCfg [("main", mod_main)] [filelib_F] []).map
        (fun t => t.2.2.map Prod.fst) =
      Except.ok ["F_mod_0", "main"] := by
  exact ⟨by rfl, by rfl⟩

/-- One relocation step never changes the output segment table, segment
count or symbol table: every arm only rewrites object_data or appends an
output relocation. -/
theorem applyReloc_segments (cfg : LinkerCfg) (mn : String) (mo : ObjectIn)
    (info : LinkerInfo) (r : Relocation) (out : ObjectOut) (g : Nat)
    (out' : ObjectOut) (g' : Nat)
    (h : applyReloc cfg mn mo info r out g = Except.ok (out', g')) :
    out'.segments = out.segments ∧ out'.nsegs = out.nsegs ∧
    out'.symbol_table = out.symbol_table := by
  unfold applyReloc at h
  repeat' (first | split at h | simp only [] at h)
  all_goals try cases h
  all_goals try exact ⟨rfl, rfl, rfl⟩
  all_goals (
    rename _ = Except.ok _ => hfix
    split at hfix <;> (cases hfix <;> exact ⟨rfl, rfl, rfl⟩))

/-- The relocation loop of one module preserves the segment table. -/
theorem runRelocsOfModule_segments (cfg : LinkerCfg) (mn : String) (mo : ObjectIn)
    (info : LinkerInfo) :
    ∀ (rels : List Relocation) (out : ObjectOut) (g : Nat) (out' : ObjectOut) (g' : Nat),
      runRelocsOfModule cfg mn mo info rels out g = Except.ok (out', g') →
      out'.segments = out.segments ∧ out'.nsegs = out.nsegs ∧
      out'.symbol_table = out.symbol_table := by
  intro rels
  induction rels with
  | nil =>
    intro out g out' g' h
    unfold runRelocsOfModule at h
    cases h
    exact ⟨rfl, rfl, rfl⟩
  | cons r rest ih =>
    intro out g out' g' h
    unfold runRelocsOfModule at h
    cases ha : applyReloc cfg mn mo info r out g with
    | error e => rw [ha] at h; cases h
    | ok pr =>
      rw [ha] at h
      obtain ⟨out1, g1⟩ := pr
      obtain ⟨h1, h2, h3⟩ := applyReloc_segments cfg mn mo info r out g out1 g1 ha
      obtain ⟨h4, h5, h6⟩ := ih out1 g1 out' g' h
      exact ⟨h4.trans h1, h5.trans h2, h6.trans h3⟩

/-- run_relocations preserves the segment table, segment count and symbol
table of the output. -/
theorem run_relocations_segments (cfg : LinkerCfg) (info : LinkerInfo) :
    ∀ (session : List (String × ObjectIn)) (out : ObjectOut) (g : Nat) (out' : ObjectOut),
      run_relocations.go cfg info session out g = Except.ok out' →
      out'.segments = out.segments ∧ out'.nsegs = out.nsegs ∧
      out'.symbol_table = out.symbol_table := by
  intro session
  induction session with
  | nil =>
    intro out g out' h
    unfold run_relocations.go at h
    cases h
    exact ⟨rfl, rfl, rfl⟩
  | cons p rest ih =>
    intro out g out' h
    unfold run_relocations.go at h
    cases hm : runRelocsOfModule cfg p.1 p.2 info p.2.relocations out g with
    | error e => rw [hm] at h; cases h
    | ok pr =>
      rw [hm] at h
      obtain ⟨out1, g1⟩ := pr
      obtain ⟨h1, h2, h3⟩ := runRelocsOfModule_segments cfg p.1 p.2 info _ out g out1 g1 hm
      obtain ⟨h4, h5, h6⟩ := ih out1 g1 out' h
      exact ⟨h4.trans h1, h5.trans h2, h6.trans h3⟩

/-- Reading back the inserted key. -/
theorem segMap_get_insert_self (m : SegMap α) (k : SegmentName) (v : α) :
    (m.insert k v).get k = some v := by
  cases k <;> rfl

/-- Insertion at a different key leaves a slot unchanged. -/
theorem segMap_get_insert_ne (m : SegMap α) (k k' : SegmentName) (v : α)
    (h : k ≠ k') : (m.insert k v).get k' = m.get k' := by
  cases k <;> cases k' <;> first | (exact absurd rfl h) | rfl

/-- andModify leaves other slots unchanged. -/
theorem segMap_get_andModify_ne (m : SegMap α) (k k' : SegmentName) (f : α → α)
    (h : k ≠ k') : (m.andModify k f).get k' = m.get k' := by
  unfold SegMap.andModify
  cases hg : m.get k with
  | none => rfl
  | some v => exact segMap_get_insert_ne m k k' (f v) h

/-- Inversion of one segment-loop iteration: the step extends or creates
the slot of the processed segment name, leaves every other slot unchanged,
and adds the segment's length to the .bss total exactly when it is .bss. -/
theorem allocSegs_cons_inv (od : List SegmentData) (i : Nat) (segment : Segment)
    (rest : List (Nat × Segment)) (out : ObjectOut) (offs : SegMap Int)
    (out' : ObjectOut) (offs' : SegMap Int)
    (h : allocSegs od ((i, segment) :: rest) out offs = Except.ok (out', offs')) :
    ∃ out1 offs1,
      allocSegs od rest out1 offs1 = Except.ok (out', offs') ∧
      (∀ k, k ≠ segment.segment_name → out1.segments.get k = out.segments.get k) ∧
      (∀ k, k ≠ segment.segment_name → out1.object_data.get k = out.object_data.get k) ∧
      bssLenOf out1.segments = bssLenOf out.segments +
        (if segment.segment_name = SegmentName.bss then segment.segment_len else 0) ∧
      (out1.segments.get .bss = none ↔ out.segments.get .bss = none ∧
        segment.segment_name ≠ SegmentName.bss) := by
  unfold allocSegs at h
  cases hsg : out.segments.get segment.segment_name with
  | some out_seg =>
    rw [hsg] at h
    simp only [] at h
    cases hdi : od.get? i with
    | none => rw [hdi] at h; cases h
    | some di =>
      rw [hdi] at h
      simp only [] at h
      cases hod : out.object_data.get segment.segment_name with
      | some sd =>
        rw [hod] at h
        simp only [] at h
        refine ⟨_, _, h, ?_, ?_, ?_, ?_⟩
        · intro k hk
          exact segMap_get_insert_ne _ _ _ _ (Ne.symm hk)
        · intro k hk
          exact segMap_get_insert_ne _ _ _ _ (Ne.symm hk)
        · by_cases hb : segment.segment_name = SegmentName.bss
          · rw [hb] at hsg ⊢
            unfold bssLenOf
            simp only [segMap_get_insert_self, hsg]
            simp
          · unfold bssLenOf
            simp only []
            rw [segMap_get_insert_ne _ _ _ _ hb]
            simp [hb]
        · by_cases hb : segment.segment_name = SegmentName.bss
          · rw [hb] at hsg ⊢
            simp [segMap_get_insert_self, hsg]
          · simp only []
            rw [segMap_get_insert_ne _ _ _ _ hb]
            simp [hb]
      | none =>
        rw [hod] at h
        simp only [] at h
        refine ⟨_, _, h, ?_, ?_, ?_, ?_⟩
        · intro k hk
          exact segMap_get_insert_ne _ _ _ _ (Ne.symm hk)
        · intro k hk
          exact segMap_get_insert_ne _ _ _ _ (Ne.symm hk)
        · by_cases hb : segment.segment_name = SegmentName.bss
          · rw [hb] at hsg ⊢
            unfold bssLenOf
            simp only [segMap_get_insert_self, hsg]
            simp
          · unfold bssLenOf
            simp only []
            rw [segMap_get_insert_ne _ _ _ _ hb]
            simp [hb]
        · by_cases hb : segment.segment_name = SegmentName.bss
          · rw [hb] at hsg ⊢
            simp [segMap_get_insert_self, hsg]
          · simp only []
            rw [segMap_get_insert_ne _ _ _ _ hb]
            simp [hb]
  | none =>
    rw [hsg] at h
    simp only [] at h
    cases hdi : od.get? i with
    | none => rw [hdi] at h; cases h
    | some di =>
      rw [hdi] at h
      simp only [] at h
      cases hod : out.object_data.get segment.segment_name with
      | some sd =>
        rw [hod] at h
        simp only [] at h
        refine ⟨_, _, h, ?_, ?_, ?_, ?_⟩
        · intro k hk
          exact segMap_get_insert_ne _ _ _ _ (Ne.symm hk)
        · intro k hk
          exact segMap_get_insert_ne _ _ _ _ (Ne.symm hk)
        · by_cases hb : segment.segment_name = SegmentName.bss
          · rw [hb] at hsg ⊢
            unfold bssLenOf
            simp only [segMap_get_insert_self, hsg]
            simp
          · unfold bssLenOf
            simp only []
            rw [segMap_get_insert_ne _ _ _ _ hb]
            simp [hb]
        · by_cases hb : segment.segment_name = SegmentName.bss
          · rw [hb] at hsg ⊢
            simp [segMap_get_insert_self, hsg]
          · simp only []
            rw [segMap_get_insert_ne _ _ _ _ hb]
            simp [hb]
      | none =>
        rw [hod] at h
        simp only [] at h
        refine ⟨_, _, h, ?_, ?_, ?_, ?_⟩
        · intro k hk
          exact segMap_get_insert_ne _ _ _ _ (Ne.symm hk)
        · intro k hk
          exact segMap_get_insert_ne _ _ _ _ (Ne.symm hk)
        · by_cases hb : segment.segment_name = SegmentName.bss
          · rw [hb] at hsg ⊢
            unfold bssLenOf
            simp only [segMap_get_insert_self, hsg]
            simp
          · unfold bssLenOf
            simp only []
            rw [segMap_get_insert_ne _ _ _ _ hb]
            simp [hb]
        · by_cases hb : segment.segment_name = SegmentName.bss
          · rw [hb] at hsg ⊢
            simp [segMap_get_insert_self, hsg]
          · simp only []
            rw [segMap_get_insert_ne _ _ _ _ hb]
            simp [hb]

/-- The segment loop keeps the .got slots of the segment table and of the
object data unchanged when the module declares no .got segment (the parser
cannot produce one). -/
theorem allocSegs_got (od : List SegmentData) :
    ∀ (l : List (Nat × Segment)) (out : ObjectOut) (offs : SegMap Int)
      (out' : ObjectOut) (offs' : SegMap Int),
      allocSegs od l out offs = Except.ok (out', offs') →
      (∀ q ∈ l, (Prod.snd q).segment_name ≠ SegmentName.got) →
      out'.segments.get .got = out.segments.get .got ∧
      out'.object_data.get .got = out.object_data.get .got := by
  intro l
  induction l with
  | nil =>
    intro out offs out' offs' h _
    unfold allocSegs at h
    cases h
    exact ⟨rfl, rfl⟩
  | cons q rest ih =>
    intro out offs out' offs' h hng
    obtain ⟨i, segment⟩ := q
    have hne : segment.segment_name ≠ SegmentName.got :=
      hng (i, segment) (List.mem_cons_self _ _)
    obtain ⟨out1, offs1, hrec, hsegne, hodne, -, -⟩ :=
      allocSegs_cons_inv od i segment rest out offs out' offs' h
    obtain ⟨h1, h2⟩ := ih out1 offs1 out' offs' hrec
      (fun q hq => hng q (List.mem_cons_of_mem _ hq))
    exact ⟨h1.trans (hsegne .got (Ne.symm hne)),
           h2.trans (hodne .got (Ne.symm hne))⟩

/-- The segment loop adds each .bss contribution to the .bss length of the
output, and creates the slot exactly when some processed segment is .bss. -/
theorem allocSegs_bss (od : List SegmentData) :
    ∀ (l : List (Nat × Segment)) (out : ObjectOut) (offs : SegMap Int)
      (out' : ObjectOut) (offs' : SegMap Int),
      allocSegs od l out offs = Except.ok (out', offs') →
      bssLenOf out'.segments = bssLenOf out.segments +
        (l.map (fun q => if (Prod.snd q).segment_name = SegmentName.bss
          then (Prod.snd q).segment_len else 0)).sum ∧
      (out'.segments.get .bss = none ↔ out.segments.get .bss = none ∧
        ∀ q ∈ l, (Prod.snd q).segment_name ≠ SegmentName.bss) := by
  intro l
  induction l with
  | nil =>
    intro out offs out' offs' h
    unfold allocSegs at h
    cases h
    exact ⟨by simp, by simp⟩
  | cons q rest ih =>
    intro out offs out' offs' h
    obtain ⟨i, segment⟩ := q
    obtain ⟨out1, offs1, hrec, hsegne, hodne, hlen, hnone⟩ :=
      allocSegs_cons_inv od i segment rest out offs out' offs' h
    obtain ⟨h1, h2⟩ := ih out1 offs1 out' offs' hrec
    constructor
    · rw [h1, hlen]
      simp only [List.map_cons, List.sum_cons]
      ring
    · rw [h2, hnone]
      simp only [List.mem_cons]
      constructor
      · rintro ⟨⟨hn, hhd⟩, hall⟩
        exact ⟨hn, fun q hq => hq.elim (fun he => by rw [he]; exact hhd) (hall q)⟩
      · rintro ⟨hn, hall⟩
        exact ⟨⟨hn, hall (i, segment) (Or.inl rfl)⟩,
               fun q hq => hall q (Or.inr hq)⟩

/-- Lookup in the empty SymbolName map. -/
theorem gstLookup_nil (name : SymbolName) : gstLookup ([] : List (SymbolName × α)) name = none := rfl

/-- One-step reduction of gstLookup. -/
theorem gstLookup_cons (k' : SymbolName) (v' : α) (t : List (SymbolName × α))
    (name : SymbolName) :
    gstLookup ((k', v') :: t) name = if name = k' then some v' else gstLookup t name := rfl

/-- Character-list comparison is an equality test when it returns eq. -/
theorem charsCmp_eq_iff : ∀ (a b : List Char), charsCmp a b = Ordering.eq ↔ a = b := by
  intro a
  induction a with
  | nil =>
    intro b
    cases b <;> simp [charsCmp]
  | cons c as ih =>
    intro b
    cases b with
    | nil => simp [charsCmp]
    | cons d bs =>
      unfold charsCmp
      by_cases h1 : c.toNat < d.toNat
      · rw [if_pos h1]
        simp only [List.cons.injEq]
        constructor
        · intro hc; cases hc
        · rintro ⟨hc, -⟩
          subst hc
          omega
      · rw [if_neg h1]
        by_cases h2 : d.toNat < c.toNat
        · rw [if_pos h2]
          simp only [List.cons.injEq]
          constructor
          · intro hc; cases hc
          · rintro ⟨hc, -⟩
            subst hc
            omega
        · rw [if_neg h2]
          have hnat : c.toNat = d.toNat := by omega
          have hcd : c = d := by
            have h3 := congrArg Char.ofNat hnat
            rwa [Char.ofNat_toNat, Char.ofNat_toNat] at h3
          subst hcd
          simp [ih bs]

/-- String comparison returns eq exactly on equal strings. -/
theorem strCmp_eq_iff (a b : String) : strCmp a b = Ordering.eq ↔ a = b := by
  unfold strCmp
  rw [charsCmp_eq_iff]
  constructor
  · intro h
    cases a; cases b
    simp_all
  · intro h; rw [h]

/-- The derived SymbolName order returns eq exactly on equal names. -/
theorem symbolName_cmp_eq_iff (a b : SymbolName) :
    SymbolName.cmp a b = Ordering.eq ↔ a = b := by
  cases a <;> cases b <;> simp [SymbolName.cmp, strCmp_eq_iff]

/-- Updating in place never changes which keys are present. -/
theorem gstLookup_gstUpdate_isSome (l : List (SymbolName × α)) (k : SymbolName)
    (v : α) (name : SymbolName) :
    (gstLookup (gstUpdate l k v) name).isSome = (gstLookup l name).isSome := by
  induction l with
  | nil => rfl
  | cons q t ih =>
    obtain ⟨k', v'⟩ := q
    unfold gstUpdate
    by_cases hk : k = k'
    · rw [if_pos hk]
      subst hk
      rw [gstLookup_cons, gstLookup_cons]
      by_cases hn : name = k
      · rw [if_pos hn, if_pos hn]
        rfl
      · rw [if_neg hn, if_neg hn]
    · rw [if_neg hk]
      rw [gstLookup_cons, gstLookup_cons]
      by_cases hn : name = k'
      · rw [if_pos hn, if_pos hn]
      · rw [if_neg hn, if_neg hn]
        exact ih

/-- Sorted insertion makes exactly the inserted key present on top of the
existing ones. -/
theorem gstLookup_gstInsertSorted_isSome (k : SymbolName) (v : α) (name : SymbolName) :
    ∀ (l : List (SymbolName × α)),
    (gstLookup (gstInsertSorted l k v) name).isSome = true ↔
      (name = k ∨ (gstLookup l name).isSome = true) := by
  intro l
  induction l with
  | nil =>
    unfold gstInsertSorted
    rw [gstLookup_cons, gstLookup_nil]
    by_cases hn : name = k
    · rw [if_pos hn]
      simp [hn]
    · rw [if_neg hn]
      simp [hn]
  | cons q t ih =>
    obtain ⟨k', v'⟩ := q
    unfold gstInsertSorted
    cases hc : SymbolName.cmp k k' with
    | lt =>
      simp only []
      rw [gstLookup_cons, gstLookup_cons]
      by_cases hn : name = k
      · simp [hn]
      · simp [hn]
    | eq =>
      have hkk : k = k' := (symbolName_cmp_eq_iff k k').mp hc
      subst hkk
      simp only []
      rw [gstLookup_cons, gstLookup_cons]
      by_cases hn : name = k
      · rw [if_pos hn, if_pos hn]
        simp [hn]
      · rw [if_neg hn, if_neg hn]
        simp [hn]
    | gt =>
      simp only []
      rw [gstLookup_cons, gstLookup_cons]
      by_cases hn : name = k'
      · rw [if_pos hn, if_pos hn]
        simp
      · rw [if_neg hn, if_neg hn]
        rw [ih]

/-- A name present in the global table after the symbol loop was either
present before or carried by some processed non-common-block entry: common
blocks are never inserted. -/
theorem buildSymsLoop_keys (obj_id : String) :
    ∀ (l : List (Nat × SymbolTableEntry))
      (global global' : List (SymbolName × (Option Defn × Refs))),
      buildSymsLoop obj_id l global = Except.ok global' →
      ∀ name, (gstLookup global' name).isSome = true →
        (gstLookup global name).isSome = true ∨
        ∃ q ∈ l, (Prod.snd q).st_name = name ∧ (Prod.snd q).is_common_block = false := by
  intro l
  induction l with
  | nil =>
    intro global global' h name hs
    unfold buildSymsLoop at h
    cases h
    exact Or.inl hs
  | cons q rest ih =>
    intro global global' h name hs
    obtain ⟨i, symbol⟩ := q
    unfold buildSymsLoop at h
    split at h
    · rcases ih _ _ h name hs with hl | ⟨q, hq, hn⟩
      · exact Or.inl hl
      · exact Or.inr ⟨q, List.mem_cons_of_mem _ hq, hn⟩
    · split at h
      · cases h
      · split at h
        · split at h
          · split at h
            · cases h
            · rcases ih _ _ h name hs with hl | ⟨q, hq, hn⟩
              · rw [gstLookup_gstUpdate_isSome] at hl
                exact Or.inl hl
              · exact Or.inr ⟨q, List.mem_cons_of_mem _ hq, hn⟩
          · rcases ih _ _ h name hs with hl | ⟨q, hq, hn⟩
            · rw [gstLookup_gstUpdate_isSome] at hl
              exact Or.inl hl
            · exact Or.inr ⟨q, List.mem_cons_of_mem _ hq, hn⟩
        · rcases ih _ _ h name hs with hl | ⟨q, hq, hn⟩
          · rw [gstLookup_gstInsertSorted_isSome] at hl
            rcases hl with he | hl
            · refine Or.inr ⟨(i, symbol), List.mem_cons_self _ _, he.symm, ?_⟩
              simp_all
            · exact Or.inl hl
          · exact Or.inr ⟨q, List.mem_cons_of_mem _ hq, hn⟩

/-- Inversion of a successful storage-and-symtable ingestion: the output
comes from the segment loop alone, the returned GOT requirement is the
module's GP4 tally, and the new info updates the four tables exactly as
the phase describes. -/
theorem alloc_sast_inv (id : String) (obj : ObjectIn) (out : ObjectOut)
    (info : LinkerInfo) (out' : ObjectOut) (info' : LinkerInfo) (g : Int)
    (h : alloc_storage_and_symtables id obj out info = Except.ok (out', info', g)) :
    g = gotSize obj.relocations ∧
    ∃ offs, allocSegs obj.object_data obj.segments.enum out {} = Except.ok (out', offs) ∧
    ∃ gl, buildSymsLoop id obj.symbol_table.enum info.global_symtable = Except.ok gl ∧
      info' = { segment_mapping := insertSorted info.segment_mapping id offs
                common_block_mapping := commonFold obj.symbol_table info.common_block_mapping
                symbol_tables := hashInsert info.symbol_tables id obj.symbol_table
                global_symtable := gl } := by
  unfold alloc_storage_and_symtables at h
  cases ha : allocSegs obj.object_data obj.segments.enum out {} with
  | error e => rw [ha] at h; cases h
  | ok pr =>
    rw [ha] at h
    obtain ⟨out1, offs⟩ := pr
    simp only [] at h
    cases hb : build_symbol_tables info obj id with
    | error e => rw [hb] at h; cases h
    | ok infoB =>
      rw [hb] at h
      simp only [] at h
      cases h
      unfold build_symbol_tables at hb
      cases hl : buildSymsLoop id obj.symbol_table.enum info.global_symtable with
      | error e => rw [hl] at hb; cases hb
      | ok gl =>
        rw [hl] at hb
        simp only [] at hb
        cases hb
        exact ⟨rfl, offs, rfl, gl, rfl, rfl⟩

/-- A member of an enumerated list has its payload in the list. -/
theorem mem_of_mem_enum (l : List α) (q : Nat × α) (h : q ∈ l.enum) : q.2 ∈ l := by
  have h2 := List.mem_map_of_mem Prod.snd h
  rwa [List.enum_map_snd] at h2

/-- A predicate holds on every enumerated payload iff it holds on every
element. -/
theorem forall_enum_iff (l : List α) (P : α → Prop) :
    (∀ q ∈ l.enum, P (Prod.snd q)) ↔ (∀ x ∈ l, P x) := by
  constructor
  · intro h x hx
    rw [← List.enum_map_snd l] at hx
    obtain ⟨q, hq, rfl⟩ := List.mem_map.mp hx
    exact h q hq
  · intro h q hq
    exact h _ (mem_of_mem_enum l q hq)

/-- The if-zero sum of .bss lengths agrees with the filterMap sum. -/
theorem bssContrib_filterMap (l : List Segment) :
    (l.map (fun sg => if sg.segment_name = SegmentName.bss then sg.segment_len else 0)).sum =
    (l.filterMap (fun sg =>
      if sg.segment_name = SegmentName.bss then some sg.segment_len else none)).sum := by
  induction l with
  | nil => rfl
  | cons sg rest ih =>
    by_cases hb : sg.segment_name = SegmentName.bss
    · simp [hb, ih]
    · simp [hb, ih]

/-- The .bss contribution summed over the enumerated segment list is the
module's total .bss length. -/
theorem enum_bss_sum (obj : ObjectIn) :
    (obj.segments.enum.map (fun q =>
      if (Prod.snd q).segment_name = SegmentName.bss
      then (Prod.snd q).segment_len else 0)).sum = moduleBssLen obj := by
  have h1 : obj.segments.enum.map (fun q =>
      if (Prod.snd q).segment_name = SegmentName.bss
      then (Prod.snd q).segment_len else 0) =
      (obj.segments.enum.map Prod.snd).map (fun sg =>
        if sg.segment_name = SegmentName.bss then sg.segment_len else 0) := by
    rw [List.map_map]
    rfl
  rw [h1, List.enum_map_snd, bssContrib_filterMap]
  rfl

/-- The max-update reads back as one running-maximum step at its key. -/
theorem gstLookup_commonEntryMax_self (m : List (SymbolName × Int)) (k : SymbolName)
    (v : Int) :
    gstLookup (commonEntryMax m k v) k = maxOptStep (gstLookup m k) v := by
  induction m with
  | nil => simp [commonEntryMax, gstLookup, maxOptStep]
  | cons q t ih =>
    obtain ⟨k', v'⟩ := q
    unfold commonEntryMax
    by_cases hk : k = k'
    · rw [if_pos hk]
      rw [gstLookup_cons, gstLookup_cons]
      rw [if_pos hk, if_pos hk]
      rfl
    · rw [if_neg hk]
      rw [gstLookup_cons, gstLookup_cons]
      rw [if_neg hk, if_neg hk]
      exact ih

/-- The max-update leaves every other key unchanged. -/
theorem gstLookup_commonEntryMax_ne (m : List (SymbolName × Int)) (k name : SymbolName)
    (v : Int) (h : name ≠ k) :
    gstLookup (commonEntryMax m k v) name = gstLookup m name := by
  induction m with
  | nil =>
    rw [gstLookup_nil]
    unfold commonEntryMax
    rw [gstLookup_cons, gstLookup_nil, if_neg h]
  | cons q t ih =>
    obtain ⟨k', v'⟩ := q
    unfold commonEntryMax
    by_cases hk : k = k'
    · rw [if_pos hk]
      rw [gstLookup_cons, gstLookup_cons]
      by_cases hn : name = k'
      · exact absurd (hn.trans hk.symm) h
      · rw [if_neg hn, if_neg hn]
    · rw [if_neg hk]
      rw [gstLookup_cons, gstLookup_cons]
      by_cases hn : name = k'
      · rw [if_pos hn, if_pos hn]
      · rw [if_neg hn, if_neg hn]
        exact ih

/-- The common-block fold of one symbol table is a running maximum over
the table's common declarations of the looked-up name. -/
theorem commonFold_lookup (name : SymbolName) :
    ∀ (stes : List SymbolTableEntry) (m : List (SymbolName × Int)),
      gstLookup (commonFold stes m) name =
        ((stes.filterMap (fun ste =>
            if ste.is_common_block then some (ste.st_name, ste.st_value) else none)).filterMap
          (fun q => if q.1 = name then some q.2 else none)).foldl maxOptStep
          (gstLookup m name) := by
  intro stes
  induction stes with
  | nil => intro m; rfl
  | cons ste rest ih =>
    intro m
    unfold commonFold
    by_cases hc : ste.is_common_block
    · rw [if_pos hc]
      rw [ih]
      simp only [List.filterMap_cons, hc, if_pos]
      by_cases hn : ste.st_name = name
      · simp only [hn, if_pos, List.filterMap_cons, List.foldl_cons]
        rw [gstLookup_commonEntryMax_self]
        try congr 1
      · simp only [List.filterMap_cons, if_neg hn]
        rw [gstLookup_commonEntryMax_ne]
        intro he
        exact hn he.symm
    · rw [if_neg hc]
      rw [ih]
      simp only [List.filterMap_cons]
      rw [if_neg hc]

/-- Declared values of a module list split off the head module's
declarations. -/
theorem declValues_cons (id : String) (obj : ObjectIn) (tr : List (String × ObjectIn))
    (name : SymbolName) :
    declValues ((id, obj) :: tr) name =
      ((obj.symbol_table.filterMap (fun ste =>
          if ste.is_common_block then some (ste.st_name, ste.st_value) else none)).filterMap
        (fun q => if q.1 = name then some q.2 else none)) ++ declValues tr name := by
  unfold declValues commonDecls
  rw [List.flatMap_cons, List.filterMap_append, List.filterMap_append]

/-- Sequential ingestion folds every declared common-block value of the
trace into the running maximum of the common-block table. -/
theorem ingestList_common :
    ∀ (tr : List (String × ObjectIn)) (st st' : LinkSt),
      ingestList tr st = Except.ok st' →
      ∀ name, gstLookup st'.info.common_block_mapping name =
        (declValues tr name).foldl maxOptStep
          (gstLookup st.info.common_block_mapping name) := by
  intro tr
  induction tr with
  | nil =>
    intro st st' h name
    unfold ingestList at h
    cases h
    rfl
  | cons p tr ih =>
    intro st st' h name
    obtain ⟨id, obj⟩ := p
    unfold ingestList at h
    cases ha : alloc_storage_and_symtables id obj st.out st.info with
    | error e => rw [ha] at h; cases h
    | ok v =>
      rw [ha] at h
      obtain ⟨out1, info1, g1⟩ := v
      simp only [] at h
      obtain ⟨-, offs, -, gl, -, hinfo⟩ := alloc_sast_inv id obj st.out st.info out1 info1 g1 ha
      have hrec := ih _ _ h name
      rw [hrec, declValues_cons, List.foldl_append]
      congr 1
      rw [hinfo]
      exact commonFold_lookup name obj.symbol_table st.info.common_block_mapping

/-- Sequential ingestion inserts exactly the trace modules into the
session map. -/
theorem ingestList_session :
    ∀ (tr : List (String × ObjectIn)) (st st' : LinkSt),
      ingestList tr st = Except.ok st' →
      st'.session = tr.foldl (fun s p => insertSorted s p.1 p.2) st.session := by
  intro tr
  induction tr with
  | nil =>
    intro st st' h
    unfold ingestList at h
    cases h
    rfl
  | cons p tr ih =>
    intro st st' h
    obtain ⟨id, obj⟩ := p
    unfold ingestList at h
    cases ha : alloc_storage_and_symtables id obj st.out st.info with
    | error e => rw [ha] at h; cases h
    | ok v =>
      rw [ha] at h
      obtain ⟨out1, info1, g1⟩ := v
      simp only [] at h
      exact ih _ _ h

/-- A name present in the global table after ingesting a trace was either
present before or is carried by a non-common-block entry of some trace
module. -/
theorem ingestList_keys :
    ∀ (tr : List (String × ObjectIn)) (st st' : LinkSt),
      ingestList tr st = Except.ok st' →
      ∀ name, (gstLookup st'.info.global_symtable name).isSome = true →
        (gstLookup st.info.global_symtable name).isSome = true ∨
        ∃ p ∈ tr, ∃ ste ∈ (Prod.snd p).symbol_table,
          ste.st_name = name ∧ ste.is_common_block = false := by
  intro tr
  induction tr with
  | nil =>
    intro st st' h name hs
    unfold ingestList at h
    cases h
    exact Or.inl hs
  | cons p tr ih =>
    intro st st' h name hs
    obtain ⟨id, obj⟩ := p
    unfold ingestList at h
    cases ha : alloc_storage_and_symtables id obj st.out st.info with
    | error e => rw [ha] at h; cases h
    | ok v =>
      rw [ha] at h
      obtain ⟨out1, info1, g1⟩ := v
      simp only [] at h
      obtain ⟨-, offs, -, gl, hgl, hinfo⟩ := alloc_sast_inv id obj st.out st.info out1 info1 g1 ha
      rcases ih _ _ h name hs with hl | ⟨q, hq, ste, hste, hn⟩
      · rw [hinfo] at hl
        rcases buildSymsLoop_keys id obj.symbol_table.enum st.info.global_symtable gl hgl
            name hl with hl2 | ⟨q, hq, hn⟩
        · exact Or.inl hl2
        · exact Or.inr ⟨(id, obj), List.mem_cons_self _ _, Prod.snd q,
            mem_of_mem_enum _ _ hq, hn⟩
      · exact Or.inr ⟨q, List.mem_cons_of_mem _ hq, ste, hste, hn⟩

/-- Ingesting a trace adds exactly the modules' .bss lengths to the output
.bss slot, which exists afterwards iff it existed before or some module
declared a .bss segment. -/
theorem ingestList_bss :
    ∀ (tr : List (String × ObjectIn)) (st st' : LinkSt),
      ingestList tr st = Except.ok st' →
      bssLenOf st'.out.segments = bssLenOf st.out.segments +
        (tr.map (fun p => moduleBssLen (Prod.snd p))).sum ∧
      (st'.out.segments.get .bss = none ↔ st.out.segments.get .bss = none ∧
        ∀ p ∈ tr, ∀ sg ∈ (Prod.snd p).segments, sg.segment_name ≠ SegmentName.bss) := by
  intro tr
  induction tr with
  | nil =>
    intro st st' h
    unfold ingestList at h
    cases h
    exact ⟨by simp, by simp⟩
  | cons p tr ih =>
    intro st st' h
    obtain ⟨id, obj⟩ := p
    unfold ingestList at h
    cases ha : alloc_storage_and_symtables id obj st.out st.info with
    | error e => rw [ha] at h; cases h
    | ok v =>
      rw [ha] at h
      obtain ⟨out1, info1, g1⟩ := v
      simp only [] at h
      obtain ⟨-, offs, hseg, -, -, -⟩ := alloc_sast_inv id obj st.out st.info out1 info1 g1 ha
      obtain ⟨hsum1, hnone1⟩ := allocSegs_bss obj.object_data obj.segments.enum st.out {} out1 offs hseg
      obtain ⟨hsum2, hnone2⟩ := ih _ _ h
      constructor
      · rw [hsum2]
        simp only []
        rw [hsum1, enum_bss_sum]
        simp only [List.map_cons, List.sum_cons]
        ring
      · rw [hnone2]
        simp only []
        rw [hnone1]
        rw [forall_enum_iff obj.segments (fun sg => sg.segment_name ≠ SegmentName.bss)]
        simp only [List.mem_cons]
        constructor
        · rintro ⟨⟨hn, hhd⟩, hall⟩
          refine ⟨hn, ?_⟩
          rintro p (rfl | hp)
          · exact hhd
          · exact hall p hp
        · rintro ⟨hn, hall⟩
          exact ⟨⟨hn, hall (id, obj) (Or.inl rfl)⟩, fun p hp => hall p (Or.inr hp)⟩

/-- Ingesting modules without .got segments never touches the .got slots
of the output. -/
theorem ingestList_got :
    ∀ (tr : List (String × ObjectIn)) (st st' : LinkSt),
      ingestList tr st = Except.ok st' →
      (∀ p ∈ tr, ∀ sg ∈ (Prod.snd p).segments, sg.segment_name ≠ SegmentName.got) →
      st'.out.segments.get .got = st.out.segments.get .got ∧
      st'.out.object_data.get .got = st.out.object_data.get .got := by
  intro tr
  induction tr with
  | nil =>
    intro st st' h _
    unfold ingestList at h
    cases h
    exact ⟨rfl, rfl⟩
  | cons p tr ih =>
    intro st st' h hng
    obtain ⟨id, obj⟩ := p
    unfold ingestList at h
    cases ha : alloc_storage_and_symtables id obj st.out st.info with
    | error e => rw [ha] at h; cases h
    | ok v =>
      rw [ha] at h
      obtain ⟨out1, info1, g1⟩ := v
      simp only [] at h
      obtain ⟨-, offs, hseg, -, -, -⟩ := alloc_sast_inv id obj st.out st.info out1 info1 g1 ha
      have hng1 : ∀ q ∈ obj.segments.enum, (Prod.snd q).segment_name ≠ SegmentName.got :=
        (forall_enum_iff obj.segments (fun sg => sg.segment_name ≠ SegmentName.got)).mpr
          (hng (id, obj) (List.mem_cons_self _ _))
      obtain ⟨h1, h2⟩ := allocSegs_got obj.object_data obj.segments.enum st.out {} out1 offs hseg hng1
      obtain ⟨h3, h4⟩ := ih _ _ h (fun p hp => hng p (List.mem_cons_of_mem _ hp))
      exact ⟨h3.trans h1, h4.trans h2⟩

/-- Ingestion traces compose by concatenation. -/
theorem ingestList_append (a b : List (String × ObjectIn)) :
    ∀ (st stm st' : LinkSt),
      ingestList a st = Except.ok stm → ingestList b stm = Except.ok st' →
      ingestList (a ++ b) st = Except.ok st' := by
  induction a with
  | nil =>
    intro st stm st' h1 h2
    unfold ingestList at h1
    cases h1
    exact h2
  | cons p a ih =>
    intro st stm st' h1 h2
    obtain ⟨id, obj⟩ := p
    rw [List.cons_append]
    unfold ingestList at h1 ⊢
    cases ha : alloc_storage_and_symtables id obj st.out st.info with
    | error e => rw [ha] at h1; cases h1
    | ok v =>
      rw [ha] at h1
      obtain ⟨out1, info1, g1⟩ := v
      simp only [] at h1 ⊢
      exact ih _ _ _ h1 h2

/-- The initial input pass is trace ingestion plus the GP4 tally of the
inputs. -/
theorem ingestInputs_ingestList :
    ∀ (objs : List (String × ObjectIn)) (st : LinkSt) (acc : Int) (st' : LinkSt)
      (acc' : Int), ingestInputs objs st acc = Except.ok (st', acc') →
      ingestList objs st = Except.ok st' ∧
      acc' = acc + (objs.map (fun p => gotSize (Prod.snd p).relocations)).sum := by
  intro objs
  induction objs with
  | nil =>
    intro st acc st' acc' h
    unfold ingestInputs at h
    cases h
    exact ⟨rfl, by simp⟩
  | cons p objs ih =>
    intro st acc st' acc' h
    obtain ⟨id, obj⟩ := p
    unfold ingestInputs at h
    unfold ingestList
    cases ha : alloc_storage_and_symtables id obj st.out st.info with
    | error e => rw [ha] at h; cases h
    | ok v =>
      rw [ha] at h
      obtain ⟨out1, info1, g1⟩ := v
      simp only [] at h ⊢
      obtain ⟨hg, -, -, -, -⟩ := alloc_sast_inv id obj st.out st.info out1 info1 g1 ha
      obtain ⟨h1, h2⟩ := ih _ _ _ _ h
      refine ⟨h1, ?_⟩
      rw [h2, hg]
      simp only [List.map_cons, List.sum_cons]
      ring

/-- A library-object ingestion is one trace step plus marking the id
visited. -/
theorem ingestLibObj_inv (id : String) (obj : ObjectIn) (st : LinkSt)
    (undef : List SymbolName) (visited : List String) (st1 : LinkSt)
    (undef1 : List SymbolName) (visited1 : List String)
    (h : ingestLibObj id obj st undef visited = Except.ok (st1, undef1, visited1)) :
    ingestList [(id, obj)] st = Except.ok st1 ∧ visited1 = visited ++ [id] := by
  unfold ingestLibObj at h
  cases ha : alloc_storage_and_symtables id obj st.out st.info with
  | error e => rw [ha] at h; cases h
  | ok v =>
    rw [ha] at h
    obtain ⟨out1, info1, g1⟩ := v
    simp only [] at h
    cases h
    constructor
    · unfold ingestList
      rw [ha]
      rfl
    · rfl

/-- Two ingestion traces whose visited sets chain compose: the combined
trace avoids the initial visited set and its ids stay distinct. -/
theorem trace_comp (visited v1 visited' : List String)
    (tr1 tr2 : List (String × ObjectIn))
    (h1v : v1 = visited ++ tr1.map Prod.fst) (h1f : ∀ p ∈ tr1, (Prod.fst p) ∉ visited)
    (h1n : (tr1.map Prod.fst).Nodup)
    (h2v : visited' = v1 ++ tr2.map Prod.fst) (h2f : ∀ p ∈ tr2, (Prod.fst p) ∉ v1)
    (h2n : (tr2.map Prod.fst).Nodup) :
    visited' = visited ++ (tr1 ++ tr2).map Prod.fst ∧
    (∀ p ∈ tr1 ++ tr2, (Prod.fst p) ∉ visited) ∧
    ((tr1 ++ tr2).map Prod.fst).Nodup := by
  subst h2v h1v
  refine ⟨by simp, ?_, ?_⟩
  · intro p hp
    rcases List.mem_append.mp hp with hm | hm
    · exact h1f p hm
    · intro hv
      exact h2f p hm (List.mem_append.mpr (Or.inl hv))
  · rw [List.map_append, List.nodup_append]
    refine ⟨h1n, h2n, ?_⟩
    intro a ha1 ha2
    obtain ⟨p, hp, hpa⟩ := List.mem_map.mp ha2
    subst hpa
    exact h2f p hp (List.mem_append.mpr (Or.inr ha1))

/-- The DirLib scan for one undefined name ingests a trace of MAP objects,
each unvisited and found under its id, marking exactly those ids
visited. -/
theorem scanDirLib_go_trace (objects : List (String × ObjectIn)) (undef_sym : SymbolName) :
    ∀ (symbols : List (String × List SymbolName)) (st : LinkSt)
      (undef : List SymbolName) (visited : List String) (st' : LinkSt)
      (undef' : List SymbolName) (visited' : List String) (brk : Bool),
      scanDirLib.go objects undef_sym symbols st undef visited =
        Except.ok (st', undef', visited', brk) →
      ∃ tr, ingestList tr st = Except.ok st' ∧
        visited' = visited ++ tr.map Prod.fst ∧
        (∀ p ∈ tr, (Prod.fst p) ∉ visited) ∧
        (tr.map Prod.fst).Nodup ∧
        (∀ p ∈ tr, List.lookup (Prod.fst p) objects = some (Prod.snd p)) := by
  intro symbols
  induction symbols with
  | nil =>
    intro st undef visited st' undef' visited' brk h
    unfold scanDirLib.go at h
    cases h
    exact ⟨[], rfl, by simp, by simp, by simp, by simp⟩
  | cons q rest ih =>
    intro st undef visited st' undef' visited' brk h
    obtain ⟨lib_obj_name, lib_obj_syms⟩ := q
    unfold scanDirLib.go at h
    by_cases hv : lib_obj_name ∈ visited
    · rw [if_pos hv] at h
      exact ih _ _ _ _ _ _ _ h
    · rw [if_neg hv] at h
      by_cases hs : undef_sym ∈ lib_obj_syms
      · rw [if_pos hs] at h
        cases hl : List.lookup lib_obj_name objects with
        | some lib_obj =>
          rw [hl] at h
          simp only [] at h
          cases hio : ingestLibObj lib_obj_name lib_obj st undef visited with
          | error e => rw [hio] at h; cases h
          | ok v =>
            rw [hio] at h
            obtain ⟨st1, undef1, visited1⟩ := v
            simp only [] at h
            cases h
            obtain ⟨hing, hvis⟩ := ingestLibObj_inv _ _ _ _ _ _ _ _ hio
            refine ⟨[(lib_obj_name, lib_obj)], hing, hvis, ?_, by simp, ?_⟩
            · intro p hp
              rcases List.mem_singleton.mp hp with rfl
              exact hv
            · intro p hp
              rcases List.mem_singleton.mp hp with rfl
              exact hl
        | none =>
          rw [hl] at h
          simp only [] at h
          cases h
          exact ⟨[], rfl, by simp, by simp, by simp, by simp⟩
      · rw [if_neg hs] at h
        exact ih _ _ _ _ _ _ _ h

/-- The FileLib scan for one undefined name ingests a trace of members
under synthetic ids libname_mod_i, each unvisited, marking exactly those
ids visited. -/
theorem scanFileLib_go_trace (libname : String) (objects : List ObjectIn)
    (undef_sym : SymbolName) :
    ∀ (symbols : List (SymbolName × Nat)) (st : LinkSt)
      (undef : List SymbolName) (visited : List String) (st' : LinkSt)
      (undef' : List SymbolName) (visited' : List String),
      scanFileLib.go libname objects undef_sym symbols st undef visited =
        Except.ok (st', undef', visited') →
      ∃ tr, ingestList tr st = Except.ok st' ∧
        visited' = visited ++ tr.map Prod.fst ∧
        (∀ p ∈ tr, (Prod.fst p) ∉ visited) ∧
        (tr.map Prod.fst).Nodup ∧
        (∀ p ∈ tr, ∃ i, objects.get? i = some (Prod.snd p) ∧
          (Prod.fst p) = libname ++ "_mod_" ++ decRepr i) := by
  intro symbols
  induction symbols with
  | nil =>
    intro st undef visited st' undef' visited' h
    unfold scanFileLib.go at h
    cases h
    exact ⟨[], rfl, by simp, by simp, by simp, by simp⟩
  | cons q rest ih =>
    intro st undef visited st' undef' visited' h
    obtain ⟨sym, off⟩ := q
    unfold scanFileLib.go at h
    by_cases hsym : sym = undef_sym
    · rw [if_pos hsym] at h
      cases hg : objects.get? off with
      | some lib_obj =>
        rw [hg] at h
        simp only [] at h
        by_cases hv : libname ++ "_mod_" ++ decRepr off ∈ visited
        · rw [if_pos hv] at h
          exact ih _ _ _ _ _ _ h
        · rw [if_neg hv] at h
          cases hio : ingestLibObj (libname ++ "_mod_" ++ decRepr off) lib_obj st
              undef visited with
          | error e => rw [hio] at h; cases h
          | ok v =>
            rw [hio] at h
            obtain ⟨st1, undef1, visited1⟩ := v
            simp only [] at h
            obtain ⟨hing1, hvis1⟩ := ingestLibObj_inv _ _ _ _ _ _ _ _ hio
            obtain ⟨tr2, hing2, hvis2, hf2, hn2, hp2⟩ := ih _ _ _ _ _ _ h
            have hf1 : ∀ p ∈ [((libname ++ "_mod_" ++ decRepr off : String), lib_obj)],
                (Prod.fst p) ∉ visited := by
              intro p hp
              rcases List.mem_singleton.mp hp with rfl
              exact hv
            obtain ⟨hc1, hc2, hc3⟩ := trace_comp visited visited1 visited'
              [(libname ++ "_mod_" ++ decRepr off, lib_obj)] tr2
              (by simpa using hvis1) hf1 (by simp) hvis2 hf2 hn2
            refine ⟨(libname ++ "_mod_" ++ decRepr off, lib_obj) :: tr2,
              ?_, ?_, ?_, ?_, ?_⟩
            · exact ingestList_append _ tr2 st st1 st' hing1 hing2
            · simpa using hc1
            · simpa using hc2
            · simpa using hc3
            · intro p hp
              rcases List.mem_cons.mp hp with rfl | hp2m
              · exact ⟨off, hg, rfl⟩
              · exact hp2 p hp2m
      | none =>
        rw [hg] at h
        simp only [] at h
        exact ih _ _ _ _ _ _ h
    · rw [if_neg hsym] at h
      exact ih _ _ _ _ _ _ h

/-- One pass over the libraries for one undefined name ingests a trace of
library objects, each unvisited with distinct ids and provenance in one of
the scanned libraries. -/
theorem scanLibs_trace (undef_sym : SymbolName) :
    ∀ (libs : List StaticLib) (st : LinkSt) (undef : List SymbolName)
      (visited : List String) (st' : LinkSt) (undef' : List SymbolName)
      (visited' : List String),
      scanLibs libs undef_sym st undef visited = Except.ok (st', undef', visited') →
      ∃ tr, ingestList tr st = Except.ok st' ∧
        visited' = visited ++ tr.map Prod.fst ∧
        (∀ p ∈ tr, (Prod.fst p) ∉ visited) ∧
        (tr.map Prod.fst).Nodup ∧
        (∀ p ∈ tr, libObjOf libs (Prod.fst p) (Prod.snd p)) := by
  intro libs
  induction libs with
  | nil =>
    intro st undef visited st' undef' visited' h
    unfold scanLibs at h
    cases h
    exact ⟨[], rfl, by simp, by simp, by simp, by simp⟩
  | cons lib rest ih =>
    intro st undef visited st' undef' visited' h
    unfold scanLibs at h
    cases lib with
    | DirLib n symbols objects =>
      simp only [] at h
      cases hd : scanDirLib symbols objects undef_sym st undef visited with
      | error e => rw [hd] at h; cases h
      | ok v =>
        rw [hd] at h
        obtain ⟨st1, undef1, visited1, brk⟩ := v
        simp only [] at h
        obtain ⟨tr1, hing1, hvis1, hf1, hn1, hp1⟩ :=
          scanDirLib_go_trace objects undef_sym symbols st undef visited st1 undef1
            visited1 brk hd
        cases brk with
        | true =>
          rw [if_pos rfl] at h
          cases h
          refine ⟨tr1, hing1, hvis1, hf1, hn1, ?_⟩
          intro p hp
          exact ⟨.DirLib n symbols objects, List.mem_cons_self _ _, hp1 p hp⟩
        | false =>
          rw [if_neg Bool.false_ne_true] at h
          obtain ⟨tr2, hing2, hvis2, hf2, hn2, hp2⟩ := ih _ _ _ _ _ _ h
          obtain ⟨hc1, hc2, hc3⟩ := trace_comp visited visited1 visited' tr1 tr2
            hvis1 hf1 hn1 hvis2 hf2 hn2
          refine ⟨tr1 ++ tr2, ingestList_append _ _ _ _ _ hing1 hing2, hc1, hc2, hc3, ?_⟩
          intro p hp
          rcases List.mem_append.mp hp with hm | hm
          · exact ⟨.DirLib n symbols objects, List.mem_cons_self _ _, hp1 p hm⟩
          · obtain ⟨lib', hlib', hpro⟩ := hp2 p hm
            exact ⟨lib', List.mem_cons_of_mem _ hlib', hpro⟩
    | FileLib libname symbols objects =>
      simp only [] at h
      cases hd : scanFileLib libname symbols objects undef_sym st undef visited with
      | error e => rw [hd] at h; cases h
      | ok v =>
        rw [hd] at h
        obtain ⟨st1, undef1, visited1⟩ := v
        simp only [] at h
        obtain ⟨tr1, hing1, hvis1, hf1, hn1, hp1⟩ :=
          scanFileLib_go_trace libname objects undef_sym symbols st undef visited st1
            undef1 visited1 hd
        obtain ⟨tr2, hing2, hvis2, hf2, hn2, hp2⟩ := ih _ _ _ _ _ _ h
        obtain ⟨hc1, hc2, hc3⟩ := trace_comp visited visited1 visited' tr1 tr2
          hvis1 hf1 hn1 hvis2 hf2 hn2
        refine ⟨tr1 ++ tr2, ingestList_append _ _ _ _ _ hing1 hing2, hc1, hc2, hc3, ?_⟩
        intro p hp
        rcases List.mem_append.mp hp with hm | hm
        · exact ⟨.FileLib libname symbols objects, List.mem_cons_self _ _, hp1 p hm⟩
        · obtain ⟨lib', hlib', hpro⟩ := hp2 p hm
          exact ⟨lib', List.mem_cons_of_mem _ hlib', hpro⟩
    | Stub s =>
      simp only [] at h
      obtain ⟨tr, hing, hvis, hf, hn, hp⟩ := ih _ _ _ _ _ _ h
      refine ⟨tr, hing, hvis, hf, hn, ?_⟩
      intro p hpm
      obtain ⟨lib', hlib', hpro⟩ := hp p hpm
      exact ⟨lib', List.mem_cons_of_mem _ hlib', hpro⟩

/-- The worklist loop ingests a trace of library objects with pairwise
distinct ids, none previously visited, each an object of one of the
libraries. -/
theorem lookupLoop_trace (libs : List StaticLib) :
    ∀ (fuel : Nat) (undef : List SymbolName) (visited : List String)
      (st st' : LinkSt),
      lookupLoop libs fuel undef visited st = Except.ok st' →
      ∃ tr, ingestList tr st = Except.ok st' ∧
        (∀ p ∈ tr, (Prod.fst p) ∉ visited) ∧
        (tr.map Prod.fst).Nodup ∧
        (∀ p ∈ tr, libObjOf libs (Prod.fst p) (Prod.snd p)) := by
  intro fuel
  induction fuel with
  | zero =>
    intro undef visited st st' h
    cases undef with
    | nil =>
      unfold lookupLoop at h
      cases h
      exact ⟨[], rfl, by simp, by simp, by simp⟩
    | cons u us =>
      unfold lookupLoop at h
      cases h
  | succ fuel ih =>
    intro undef visited st st' h
    cases undef with
    | nil =>
      unfold lookupLoop at h
      cases h
      exact ⟨[], rfl, by simp, by simp, by simp⟩
    | cons u us =>
      unfold lookupLoop at h
      cases hg : (u :: us).getLast? with
      | none => rw [hg] at h; cases h
      | some undef_sym =>
        rw [hg] at h
        simp only [] at h
        cases hs : scanLibs libs undef_sym st (u :: us).dropLast visited with
        | error e => rw [hs] at h; cases h
        | ok v =>
          rw [hs] at h
          obtain ⟨st1, undef1, visited1⟩ := v
          simp only [] at h
          obtain ⟨tr1, hing1, hvis1, hf1, hn1, hp1⟩ :=
            scanLibs_trace undef_sym libs st (u :: us).dropLast visited st1 undef1
              visited1 hs
          obtain ⟨tr2, hing2, hf2, hn2, hp2⟩ := ih _ _ _ _ h
          have hf2' : ∀ p ∈ tr2, (Prod.fst p) ∉ visited1 := hf2
          obtain ⟨-, hc2, hc3⟩ := trace_comp visited visited1 (visited1 ++ tr2.map Prod.fst)
            tr1 tr2 hvis1 hf1 hn1 rfl hf2' hn2
          refine ⟨tr1 ++ tr2, ingestList_append _ _ _ _ _ hing1 hing2, hc2, hc3, ?_⟩
          intro p hp
          rcases List.mem_append.mp hp with hm | hm
          · exact hp1 p hm
          · exact hp2 p hm

/-- Library satisfaction as a whole ingests a trace of library objects,
each ingested at most once (distinct synthetic ids), each an object of one
of the configured libraries. -/
theorem static_libs_symbol_lookup_trace (st : LinkSt) (undef_syms : List SymbolName)
    (static_libs : List StaticLib) (st' : LinkSt)
    (h : static_libs_symbol_lookup st undef_syms static_libs = Except.ok st') :
    ∃ tr, ingestList tr st = Except.ok st' ∧
      (tr.map Prod.fst).Nodup ∧
      (∀ p ∈ tr, libObjOf static_libs (Prod.fst p) (Prod.snd p)) := by
  unfold static_libs_symbol_lookup at h
  obtain ⟨tr, hing, -, hn, hp⟩ := lookupLoop_trace static_libs _ undef_syms [] st st' h
  exact ⟨tr, hing, hn, hp⟩

/-- andModify applies its function to the addressed slot. -/
theorem segMap_get_andModify_self (m : SegMap α) (k : SegmentName) (f : α → α) :
    (m.andModify k f).get k = (m.get k).map f := by
  unfold SegMap.andModify
  cases hg : m.get k with
  | none => rw [hg]; rfl
  | some v => rw [segMap_get_insert_self]; rfl

/-- patch_text_seg sets the .text start to text_start and changes no other
segment slot and no object data. -/
theorem patch_text_spec (cfg : LinkerCfg) (out : ObjectOut) (info : LinkerInfo) :
    (patch_text_seg cfg out info).1.segments.get .text =
      (out.segments.get .text).map (fun s => { s with segment_start := cfg.text_start }) ∧
    (∀ k, k ≠ SegmentName.text →
      (patch_text_seg cfg out info).1.segments.get k = out.segments.get k) ∧
    (patch_text_seg cfg out info).1.object_data = out.object_data := by
  unfold patch_text_seg
  exact ⟨segMap_get_andModify_self _ _ _,
    fun k hk => segMap_get_andModify_ne _ _ _ _ (fun he => hk he.symm), rfl⟩

/-- alloc_got places a zero-initialized .got of the requested size right
after .text and changes no other slot. -/
theorem alloc_got_spec (out : ObjectOut) (g : Int) (out' : ObjectOut)
    (h : alloc_got out g = Except.ok out') :
    ∃ t, out.segments.get .text = some t ∧
      out'.segments.get .got = some { Segment.new .got with
        segment_start := t.segment_start + t.segment_len, segment_len := g } ∧
      out'.object_data.get .got = some (SegmentData.new (usizeOfI32 g)) ∧
      (∀ k, k ≠ SegmentName.got → out'.segments.get k = out.segments.get k) ∧
      (∀ k, k ≠ SegmentName.got → out'.object_data.get k = out.object_data.get k) := by
  unfold alloc_got at h
  cases ht : out.segments.get .text with
  | none => rw [ht] at h; cases h
  | some t =>
    rw [ht] at h
    simp only [] at h
    cases h
    refine ⟨t, rfl, ?_, ?_, ?_, ?_⟩
    · show (out.segments.insert SegmentName.got _).get SegmentName.got = _
      apply segMap_get_insert_self
    · show (out.object_data.insert SegmentName.got _).get SegmentName.got = _
      apply segMap_get_insert_self
    · intro k hk
      exact segMap_get_insert_ne _ _ _ _ (fun he => hk he.symm)
    · intro k hk
      exact segMap_get_insert_ne _ _ _ _ (fun he => hk he.symm)

/-- patch_data_seg only moves the .data start: every other segment slot
and all object data are unchanged. -/
theorem patch_data_spec (cfg : LinkerCfg) (out : ObjectOut) (info : LinkerInfo)
    (out' : ObjectOut) (info' : LinkerInfo)
    (h : patch_data_seg cfg out info = Except.ok (out', info')) :
    (∀ k, k ≠ SegmentName.data → out'.segments.get k = out.segments.get k) ∧
    (out'.segments.get .data).isSome = (out.segments.get .data).isSome ∧
    out'.object_data = out.object_data := by
  unfold patch_data_seg at h
  cases hl : out.segments.get
      (match out.segments.get .got with
       | some _ => SegmentName.got
       | none => SegmentName.text) with
  | none => rw [hl] at h; cases h
  | some lastSeg =>
    rw [hl] at h
    simp only [] at h
    cases h
    refine ⟨?_, ?_, rfl⟩
    · intro k hk
      exact segMap_get_andModify_ne _ _ _ _ (fun he => hk he.symm)
    · rw [segMap_get_andModify_self]
      cases out.segments.get .data <;> rfl

/-- patch_bss_seg reads the .data end, aligns it to the returned bss_start,
moves only the .bss start and keeps all object data. -/
theorem patch_bss_spec (cfg : LinkerCfg) (out : ObjectOut) (info : LinkerInfo)
    (out' : ObjectOut) (info' : LinkerInfo) (bs : Int)
    (h : patch_bss_seg cfg out info = Except.ok (out', info', bs)) :
    ∃ d, out.segments.get .data = some d ∧
      bs = find_seg_start (d.segment_start + d.segment_len) cfg.bss_start_boundary ∧
      (∀ k, k ≠ SegmentName.bss → out'.segments.get k = out.segments.get k) ∧
      out'.segments.get .bss =
        (out.segments.get .bss).map (fun s => { s with segment_start := bs }) ∧
      out'.object_data = out.object_data := by
  unfold patch_bss_seg at h
  cases hd : out.segments.get .data with
  | none => rw [hd] at h; cases h
  | some d =>
    rw [hd] at h
    simp only [] at h
    cases h
    refine ⟨d, rfl, rfl, ?_, segMap_get_andModify_self _ _ _, rfl⟩
    intro k hk
    exact segMap_get_andModify_ne _ _ _ _ (fun he => hk he.symm)

/-- The layout phase creates a .got of exactly got_size bytes of zeros
right after the patched .text exactly when got_size is non-zero, never
touches the .got slots otherwise, preserves the .bss length and presence,
and returns the bss_start aligned after the final .data segment. -/
theorem patch_segment_offsets_spec (cfg : LinkerCfg) (out : ObjectOut)
    (info : LinkerInfo) (g : Int) (out' : ObjectOut) (info' : LinkerInfo) (bs : Int)
    (h : patch_segment_offsets cfg out info g = Except.ok (out', info', bs)) :
    (g ≠ 0 → ∃ t, out'.segments.get .text = some t ∧
      t.segment_start = cfg.text_start ∧
      out'.segments.get .got = some { Segment.new .got with
        segment_start := t.segment_start + t.segment_len, segment_len := g } ∧
      out'.object_data.get .got = some (SegmentData.new (usizeOfI32 g))) ∧
    (g = 0 → out'.segments.get .got = out.segments.get .got ∧
      out'.object_data.get .got = out.object_data.get .got) ∧
    bssLenOf out'.segments = bssLenOf out.segments ∧
    (out'.segments.get .bss = none ↔ out.segments.get .bss = none) ∧
    (∃ d, out'.segments.get .data = some d ∧
      bs = find_seg_start (d.segment_start + d.segment_len) cfg.bss_start_boundary) := by
  unfold patch_segment_offsets at h
  simp only [] at h
  obtain ⟨ht_text, ht_ne, ht_od⟩ := patch_text_spec cfg out info
  by_cases hg : g ≠ 0
  · rw [if_pos hg] at h
    cases hag : alloc_got (patch_text_seg cfg out info).1 g with
    | error e => rw [hag] at h; cases h
    | ok outg =>
      rw [hag] at h
      simp only [] at h
      cases hpd : patch_data_seg cfg outg (patch_text_seg cfg out info).2 with
      | error e => rw [hpd] at h; cases h
      | ok v =>
        rw [hpd] at h
        obtain ⟨outd, infod⟩ := v
        simp only [] at h
        obtain ⟨t0, hget_t, hgot_g, hod_g, hne_g, hodne_g⟩ :=
          alloc_got_spec (patch_text_seg cfg out info).1 g outg hag
        obtain ⟨hne_d, hsome_d, hod_d⟩ := patch_data_spec cfg outg
          (patch_text_seg cfg out info).2 outd infod hpd
        obtain ⟨d, hd_data, hbs, hne_b, hbss_b, hod_b⟩ :=
          patch_bss_spec cfg outd infod out' info' bs h
        have htext_start : t0.segment_start = cfg.text_start := by
          rw [ht_text] at hget_t
          cases hot : out.segments.get .text with
          | none => rw [hot] at hget_t; cases hget_t
          | some s0 =>
            rw [hot] at hget_t
            cases hget_t
            rfl
        refine ⟨?_, fun hg0 => absurd hg0 hg, ?_, ?_, ?_⟩
        · intro _
          refine ⟨t0, ?_, htext_start, ?_, ?_⟩
          · rw [hne_b _ (by intro he; cases he), hne_d _ (by intro he; cases he),
              hne_g _ (by intro he; cases he)]
            exact hget_t
          · rw [hne_b _ (by intro he; cases he), hne_d _ (by intro he; cases he)]
            exact hgot_g
          · rw [hod_b, hod_d]
            exact hod_g
        · unfold bssLenOf
          rw [hbss_b, hne_d _ (by intro he; cases he), hne_g _ (by intro he; cases he),
            ht_ne _ (by intro he; cases he)]
          cases out.segments.get .bss <;> rfl
        · rw [hbss_b, hne_d _ (by intro he; cases he), hne_g _ (by intro he; cases he),
            ht_ne _ (by intro he; cases he)]
          cases out.segments.get .bss <;> simp
        · refine ⟨d, ?_, hbs⟩
          rw [hne_b _ (by intro he; cases he)]
          exact hd_data
  · rw [if_neg hg] at h
    simp only [] at h
    cases hpd : patch_data_seg cfg (patch_text_seg cfg out info).1
        (patch_text_seg cfg out info).2 with
    | error e => rw [hpd] at h; cases h
    | ok v =>
      rw [hpd] at h
      obtain ⟨outd, infod⟩ := v
      simp only [] at h
      obtain ⟨hne_d, hsome_d, hod_d⟩ := patch_data_spec cfg (patch_text_seg cfg out info).1
        (patch_text_seg cfg out info).2 outd infod hpd
      obtain ⟨d, hd_data, hbs, hne_b, hbss_b, hod_b⟩ :=
        patch_bss_spec cfg outd infod out' info' bs h
      refine ⟨fun hgn => (hgn (not_not.mp hg)).elim, ?_, ?_, ?_, ?_⟩
      · intro _
        constructor
        · rw [hne_b _ (by intro he; cases he), hne_d _ (by intro he; cases he),
            ht_ne _ (by intro he; cases he)]
        · rw [hod_b, hod_d, ht_od]
      · unfold bssLenOf
        rw [hbss_b, hne_d _ (by intro he; cases he), ht_ne _ (by intro he; cases he)]
        cases out.segments.get .bss <;> rfl
      · rw [hbss_b, hne_d _ (by intro he; cases he), ht_ne _ (by intro he; cases he)]
        cases out.segments.get .bss <;> simp
      · refine ⟨d, ?_, hbs⟩
        rw [hne_b _ (by intro he; cases he)]
        exact hd_data

/-- Common-block allocation adds the summed table to the .bss length when
the sum is non-zero (creating the segment at bss_start when absent),
changes no other slot and no object data. -/
theorem common_block_allocation_spec (out : ObjectOut) (info : LinkerInfo)
    (bs : Int) :
    bssLenOf (common_block_allocation out info bs).segments =
      bssLenOf out.segments +
        (if commonSum info.common_block_mapping = 0 then 0
         else commonSum info.common_block_mapping) ∧
    (∀ k, k ≠ SegmentName.bss →
      (common_block_allocation out info bs).segments.get k = out.segments.get k) ∧
    (common_block_allocation out info bs).object_data = out.object_data ∧
    (commonSum info.common_block_mapping ≠ 0 → out.segments.get .bss = none →
      (common_block_allocation out info bs).segments.get .bss =
        some { Segment.new .bss with
               segment_start := bs
               segment_len := commonSum info.common_block_mapping }) ∧
    ((common_block_allocation out info bs).segments.get .bss = none ↔
      (out.segments.get .bss = none ∧ commonSum info.common_block_mapping = 0)) := by
  by_cases hc : commonSum info.common_block_mapping = 0
  · have hcba : common_block_allocation out info bs = out := by
      unfold common_block_allocation
      rw [if_neg (not_not_intro hc)]
    rw [hcba]
    refine ⟨by rw [if_pos hc]; ring, fun k _ => rfl, rfl, fun hn => absurd hc hn, ?_⟩
    simp [hc]
  · cases hb : out.segments.get .bss with
    | some seg =>
      have hcba : common_block_allocation out info bs = { out with segments :=
          (out.segments.insert .bss
            { seg with segment_len :=
                seg.segment_len + commonSum info.common_block_mapping }) } := by
        unfold common_block_allocation
        rw [if_pos hc, hb]
      rw [hcba]
      refine ⟨?_, ?_, rfl, ?_, ?_⟩
      · unfold bssLenOf
        simp only []
        rw [segMap_get_insert_self, hb, if_neg hc]
        try simp only []
        try ring
      · intro k hk
        exact segMap_get_insert_ne _ _ _ _ (fun he => hk he.symm)
      · intro _ hnone
        exact Option.noConfusion hnone
      · simp only []
        rw [segMap_get_insert_self]
        refine ⟨fun hx => Option.noConfusion hx, ?_⟩
        rintro ⟨h1, -⟩
        exact Option.noConfusion h1
    | none =>
      have hcba : common_block_allocation out info bs = { out with
          nsegs := out.nsegs + 1
          segments :=
            (out.segments.insert .bss
              { Segment.new .bss with
                segment_start := bs
                segment_len := commonSum info.common_block_mapping }) } := by
        unfold common_block_allocation
        rw [if_pos hc, hb]
      rw [hcba]
      refine ⟨?_, ?_, rfl, ?_, ?_⟩
      · unfold bssLenOf
        simp only []
        rw [segMap_get_insert_self, hb, if_neg hc]
        try simp only []
        try ring
      · intro k hk
        exact segMap_get_insert_ne _ _ _ _ (fun he => hk he.symm)
      · intro _ _
        simp only []
        rw [segMap_get_insert_self]
      · simp only []
        rw [segMap_get_insert_self]
        refine ⟨fun hx => Option.noConfusion hx, ?_⟩
        rintro ⟨-, h2⟩
        exact absurd h2 hc

/-- Resolving one entry never changes its symbol name. -/
theorem resolveEntry_fst (session : List (String × ObjectIn)) (info : LinkerInfo)
    (e e' : SymbolName × (Option Defn × Refs))
    (h : resolveEntry session info e = Except.ok e') : Prod.fst e' = Prod.fst e := by
  unfold resolveEntry at h
  repeat' split at h
  all_goals cases h
  rfl

/-- The resolution loop preserves the key list of the global table. -/
theorem resolveGo_keys (session : List (String × ObjectIn)) (info : LinkerInfo) :
    ∀ (l l' : List (SymbolName × (Option Defn × Refs))),
      resolve_global_sym_offsets.go session info l = Except.ok l' →
      l'.map Prod.fst = l.map Prod.fst := by
  intro l
  induction l with
  | nil =>
    intro l' h
    unfold resolve_global_sym_offsets.go at h
    cases h
    rfl
  | cons e rest ih =>
    intro l' h
    unfold resolve_global_sym_offsets.go at h
    cases hre : resolveEntry session info e with
    | error er => rw [hre] at h; cases h
    | ok e1 =>
      rw [hre] at h
      simp only [] at h
      cases hgo : resolve_global_sym_offsets.go session info rest with
      | error er => rw [hgo] at h; cases h
      | ok rest1 =>
        rw [hgo] at h
        simp only [] at h
        cases h
        simp only [List.map_cons]
        rw [resolveEntry_fst session info e e1 hre, ih rest1 hgo]

/-- Two association lists with the same key list have the same present
keys. -/
theorem gstLookup_isSome_of_keys_eq :
    ∀ (l l' : List (SymbolName × α)) (name : SymbolName),
      l'.map Prod.fst = l.map Prod.fst →
      (gstLookup l' name).isSome = (gstLookup l name).isSome := by
  intro l
  induction l with
  | nil =>
    intro l' name hk
    cases l' with
    | nil => rfl
    | cons q t => cases hk
  | cons q t ih =>
    intro l' name hk
    cases l' with
    | nil => cases hk
    | cons q' t' =>
      obtain ⟨k, v⟩ := q
      obtain ⟨k', v'⟩ := q'
      simp only [List.map_cons, List.cons.injEq] at hk
      obtain ⟨hk1, hk2⟩ := hk
      rw [gstLookup_cons, gstLookup_cons]
      by_cases hn : name = k
      · rw [if_pos hn, if_pos (hn.trans hk1.symm)]
        rfl
      · rw [if_neg hn, if_neg (fun he => hn (he.trans hk1))]
        exact ih t' name hk2
      
/-- Symbol resolution changes only entry values: the three mapping tables
and the set of global keys are untouched. -/
theorem resolve_global_sym_offsets_spec (session : List (String × ObjectIn))
    (info : LinkerInfo) (info' : LinkerInfo)
    (h : resolve_global_sym_offsets session info = Except.ok info') :
    info'.common_block_mapping = info.common_block_mapping ∧
    info'.segment_mapping = info.segment_mapping ∧
    info'.symbol_tables = info.symbol_tables ∧
    ∀ name, (gstLookup info'.global_symtable name).isSome =
      (gstLookup info.global_symtable name).isSome := by
  unfold resolve_global_sym_offsets at h
  cases hgo : resolve_global_sym_offsets.go session info info.global_symtable with
  | error e => rw [hgo] at h; cases h
  | ok g =>
    rw [hgo] at h
    simp only [] at h
    cases h
    refine ⟨rfl, rfl, rfl, ?_⟩
    intro name
    exact gstLookup_isSome_of_keys_eq info.global_symtable g name
      (resolveGo_keys session info info.global_symtable g hgo)

/-- The GOT tally of a relocation list is four bytes per GP4 entry. -/
theorem gotSize_eq (rels : List Relocation) :
    gotSize rels =
      4 * ((rels.filter (fun r => r.rel_type = RelType.GP4)).length : Int) := by
  induction rels with
  | nil => rfl
  | cons r rest ih =>
    unfold gotSize
    by_cases hr : r.rel_type = RelType.GP4
    · rw [if_pos hr, ih]
      simp [List.filter_cons, hr]
      ring
    · rw [if_neg hr, ih]
      simp [List.filter_cons, hr]

/-- The summed GOT tally of a module list is four bytes per GP4 relocation
across the modules. -/
theorem gotSum_eq (objs : List (String × ObjectIn)) :
    (objs.map (fun p => gotSize (Prod.snd p).relocations)).sum =
      4 * (objs.map (fun p =>
        ((((Prod.snd p).relocations.filter
            (fun r => r.rel_type = RelType.GP4)).length : Int)))).sum := by
  induction objs with
  | nil => rfl
  | cons p rest ih =>
    simp only [List.map_cons, List.sum_cons]
    rw [ih, gotSize_eq]
    ring

/-- The running-maximum fold from a seed returns the maximum of seed and
elements. -/
theorem foldl_maxOptStep_some (l : List Int) :
    ∀ (a : Int), ∃ v, l.foldl maxOptStep (some a) = some v ∧
      (v = a ∨ v ∈ l) ∧ a ≤ v ∧ ∀ w ∈ l, w ≤ v := by
  induction l with
  | nil =>
    intro a
    exact ⟨a, rfl, Or.inl rfl, le_refl a, by simp⟩
  | cons w rest ih =>
    intro a
    obtain ⟨v, hv, hmem, hle, hub⟩ := ih (if w > a then w else a)
    refine ⟨v, ?_, ?_, ?_, ?_⟩
    · simpa [maxOptStep] using hv
    · rcases hmem with rfl | hm
      · by_cases hw : w > a
        · rw [if_pos hw]
          exact Or.inr (List.mem_cons_self _ _)
        · rw [if_neg hw]
          exact Or.inl rfl
      · exact Or.inr (List.mem_cons_of_mem _ hm)
    · by_cases hw : w > a
      · rw [if_pos hw] at hle
        omega
      · rw [if_neg hw] at hle
        exact hle
    · intro x hx
      rcases List.mem_cons.mp hx with rfl | hm
      · by_cases hw : x > a
        · rw [if_pos hw] at hle
          exact hle
        · rw [if_neg hw] at hle
          omega
      · exact hub x hm

/-- maxDecl returns exactly the maximum element of a list. -/
theorem maxDecl_spec (l : List Int) (v : Int) :
    maxDecl l = some v ↔ (v ∈ l ∧ ∀ w ∈ l, w ≤ v) := by
  cases l with
  | nil =>
    unfold maxDecl
    simp
  | cons w rest =>
    unfold maxDecl
    simp only [List.foldl_cons]
    have hstep : maxOptStep none w = some w := rfl
    rw [hstep]
    obtain ⟨v0, hv0, hmem0, hle0, hub0⟩ := foldl_maxOptStep_some rest w
    rw [hv0]
    constructor
    · intro he
      cases he
      constructor
      · rcases hmem0 with rfl | hm
        · exact List.mem_cons_self _ _
        · exact List.mem_cons_of_mem _ hm
      · intro x hx
        rcases List.mem_cons.mp hx with rfl | hm
        · exact hle0
        · exact hub0 x hm
    · rintro ⟨hmem, hub⟩
      have h1 : v ≤ v0 := by
        rcases List.mem_cons.mp hmem with rfl | hm
        · exact hle0
        · exact hub0 v hm
      have h2 : v0 ≤ v := by
        rcases hmem0 with rfl | hm
        · exact hub v0 (List.mem_cons_self _ _)
        · exact hub v0 (List.mem_cons_of_mem _ hm)
      rw [le_antisymm h1 h2]

/-- Successful wrapping renames symbols pointwise: GOT tallies and segment
lists of every module are untouched. -/
theorem wrap_map_eq (objs_in objs : List (String × ObjectIn)) (W : List SymbolName)
    (h : wrap_routines objs_in W = Except.ok objs) :
    objs = objs_in.map (fun p => ((Prod.fst p),
      { (Prod.snd p) with symbol_table := (Prod.snd p).symbol_table.map (fun sym =>
          if sym.st_name ∈ W then
            { sym with st_name := SymbolName.WrappedSName sym.st_name.underlying }
          else sym) })) ∧
    (objs.map (fun p => gotSize (Prod.snd p).relocations)) =
      (objs_in.map (fun p => gotSize (Prod.snd p).relocations)) ∧
    (∀ p ∈ objs, ∃ q ∈ objs_in, (Prod.snd p).segments = (Prod.snd q).segments ∧
      (Prod.snd p).symbol_table = (Prod.snd q).symbol_table.map (fun sym =>
        if sym.st_name ∈ W then
          { sym with st_name := SymbolName.WrappedSName sym.st_name.underlying }
        else sym)) := by
  have hmap := wrap_routines_go_ok W objs_in [] objs h
  refine ⟨hmap, ?_, ?_⟩
  · rw [hmap, List.map_map]
    rfl
  · intro p hp
    rw [hmap] at hp
    obtain ⟨q, hq, rfl⟩ := List.mem_map.mp hp
    exact ⟨q, hq, rfl, rfl⟩

/-- The layout phase rewrites only the segment mapping of the link info:
common blocks, symbol tables and the global table are untouched. -/
theorem patch_segment_offsets_info (cfg : LinkerCfg) (out : ObjectOut)
    (info : LinkerInfo) (g : Int) (out3 : ObjectOut) (info3 : LinkerInfo) (bs : Int)
    (h : patch_segment_offsets cfg out info g = Except.ok (out3, info3, bs)) :
    info3.common_block_mapping = info.common_block_mapping ∧
    info3.global_symtable = info.global_symtable ∧
    info3.symbol_tables = info.symbol_tables := by
  unfold patch_segment_offsets at h
  simp only [] at h
  cases hag : (if g ≠ 0 then alloc_got (patch_text_seg cfg out info).1 g
               else Except.ok (patch_text_seg cfg out info).1) with
  | error e => rw [hag] at h; cases h
  | ok outg =>
    rw [hag] at h
    simp only [] at h
    cases hpd : patch_data_seg cfg outg (patch_text_seg cfg out info).2 with
    | error e => rw [hpd] at h; cases h
    | ok v =>
      rw [hpd] at h
      obtain ⟨outd, infod⟩ := v
      simp only [] at h
      have hinfo_t : (patch_text_seg cfg out info).2.common_block_mapping =
          info.common_block_mapping ∧
          (patch_text_seg cfg out info).2.global_symtable = info.global_symtable ∧
          (patch_text_seg cfg out info).2.symbol_tables = info.symbol_tables := by
        unfold patch_text_seg
        exact ⟨rfl, rfl, rfl⟩
      have hinfo_d : infod.common_block_mapping =
          (patch_text_seg cfg out info).2.common_block_mapping ∧
          infod.global_symtable = (patch_text_seg cfg out info).2.global_symtable ∧
          infod.symbol_tables = (patch_text_seg cfg out info).2.symbol_tables := by
        unfold patch_data_seg at hpd
        cases hl : outg.segments.get
            (match outg.segments.get .got with
             | some _ => SegmentName.got
             | none => SegmentName.text) with
        | none => rw [hl] at hpd; cases hpd
        | some lastSeg =>
          rw [hl] at hpd
          simp only [] at hpd
          cases hpd
          exact ⟨rfl, rfl, rfl⟩
      have hinfo_b : info3.common_block_mapping = infod.common_block_mapping ∧
          info3.global_symtable = infod.global_symtable ∧
          info3.symbol_tables = infod.symbol_tables := by
        unfold patch_bss_seg at h
        cases hl : outd.segments.get .data with
        | none => rw [hl] at h; cases h
        | some d =>
          rw [hl] at h
          simp only [] at h
          cases h
          exact ⟨rfl, rfl, rfl⟩
      exact ⟨hinfo_b.1.trans (hinfo_d.1.trans hinfo_t.1),
             hinfo_b.2.1.trans (hinfo_d.2.1.trans hinfo_t.2.1),
             hinfo_b.2.2.trans (hinfo_d.2.2.trans hinfo_t.2.2)⟩

/-- An Except that isOk holds a value. -/
theorem except_isOk_exists (e : Except ε α) (h : e.isOk = true) : ∃ v, e = Except.ok v := by
  cases e with
  | error er => cases h
  | ok v => exact ⟨v, rfl⟩

/-- Inversion of the pipeline up to resolution: wrapping, input ingestion,
a library pull trace with distinct unvisited ids, layout with the GOT
tally of the wrapped inputs, resolution, and common-block allocation. -/
theorem do_link_pre_inv (cfg : LinkerCfg) (objs_in : List (String × ObjectIn))
    (static_libs : List StaticLib) (wrap_names : List SymbolName) (st : LinkSt)
    (h : do_link_pre cfg objs_in static_libs wrap_names = Except.ok st) :
    ∃ objs st1 pulled st2 out3 info3 bs info4,
      wrap_routines objs_in wrap_names = Except.ok objs ∧
      ingestList objs ⟨ObjectOut.new, LinkerInfo.new, []⟩ = Except.ok st1 ∧
      ingestList pulled st1 = Except.ok st2 ∧
      (pulled.map Prod.fst).Nodup ∧
      (∀ p ∈ pulled, libObjOf static_libs (Prod.fst p) (Prod.snd p)) ∧
      patch_segment_offsets cfg st2.out st2.info
        ((objs.map (fun p => gotSize (Prod.snd p).relocations)).sum) =
        Except.ok (out3, info3, bs) ∧
      resolve_global_sym_offsets st2.session info3 = Except.ok info4 ∧
      st = ⟨common_block_allocation out3 info3 bs, info4, st2.session⟩ := by
  unfold do_link_pre at h
  cases hw : wrap_routines objs_in wrap_names with
  | error e => rw [hw] at h; cases h
  | ok objs =>
    rw [hw] at h
    simp only [] at h
    cases hi : ingestInputs objs ⟨ObjectOut.new, LinkerInfo.new, []⟩ 0 with
    | error e => rw [hi] at h; cases h
    | ok v =>
      rw [hi] at h
      obtain ⟨st1, got_size⟩ := v
      simp only [] at h
      obtain ⟨hing1, hgot⟩ := ingestInputs_ingestList objs _ 0 st1 got_size hi
      rw [zero_add] at hgot
      subst hgot
      cases hlk : (if undefNames st1.info.global_symtable ≠ [] then
            static_libs_symbol_lookup st1 (undefNames st1.info.global_symtable) static_libs
          else Except.ok st1) with
      | error e => rw [hlk] at h; cases h
      | ok st2 =>
        rw [hlk] at h
        simp only [] at h
        have hpulled : ∃ pulled, ingestList pulled st1 = Except.ok st2 ∧
            (pulled.map Prod.fst).Nodup ∧
            (∀ p ∈ pulled, libObjOf static_libs (Prod.fst p) (Prod.snd p)) := by
          by_cases hu : undefNames st1.info.global_symtable ≠ []
          · rw [if_pos hu] at hlk
            exact static_libs_symbol_lookup_trace st1 _ static_libs st2 hlk
          · rw [if_neg hu] at hlk
            cases hlk
            exact ⟨[], rfl, by simp, by simp⟩
        obtain ⟨pulled, hing2, hnd, hprov⟩ := hpulled
        cases hp : patch_segment_offsets cfg st2.out st2.info
            ((objs.map (fun p => gotSize (Prod.snd p).relocations)).sum) with
        | error e => rw [hp] at h; cases h
        | ok v =>
          rw [hp] at h
          obtain ⟨out3, info3, bs⟩ := v
          simp only [] at h
          split at h
          · cases h
          · cases hr : resolve_global_sym_offsets st2.session info3 with
            | error e => rw [hr] at h; cases h
            | ok info4 =>
              rw [hr] at h
              simp only [] at h
              cases h
              exact ⟨objs, st1, pulled, st2, out3, info3, bs, info4,
                rfl, hing1, hing2, hnd, hprov, hp, hr, rfl⟩

/-- Inversion of do_link: a successful link is the pre-relocation pipeline
followed by run_relocations on its session. -/
theorem do_link_inv (cfg : LinkerCfg) (objs_in : List (String × ObjectIn))
    (static_libs : List StaticLib) (wrap_names : List SymbolName)
    (res : ObjectOut × LinkerInfo × List (String × ObjectIn))
    (h : do_link cfg objs_in static_libs wrap_names = Except.ok res) :
    ∃ st, do_link_pre cfg objs_in static_libs wrap_names = Except.ok st ∧
      run_relocations cfg st.session st.out st.info = Except.ok res.1 ∧
      res.2.1 = st.info ∧ res.2.2 = st.session := by
  unfold do_link at h
  cases hp : do_link_pre cfg objs_in static_libs wrap_names with
  | error e => rw [hp] at h; cases h
  | ok st =>
    rw [hp] at h
    simp only [] at h
    cases hr : run_relocations cfg st.session st.out st.info with
    | error e => rw [hr] at h; cases h
    | ok out =>
      rw [hr] at h
      simp only [] at h
      cases h
      exact ⟨st, rfl, hr, rfl, rfl⟩

/-- Claim C2 as amended: the GOT requirement is four bytes per GP4
relocation of the INPUT modules only (the tally returned when ingesting a
library object is discarded, see the counterexample). When that input
tally n is non-zero the output holds a .got segment of exactly n bytes
starting at the end of the patched .text, zero-initialized before
relocations run; when it is zero no .got segment is created, regardless of
library GP4 relocations. Stated for sessions whose modules declare no
.got segment of their own, as produced by the parser. -/
theorem c2_got_allocation_amended (cfg : LinkerCfg) (objs_in : List (String × ObjectIn))
    (static_libs : List StaticLib) (wrap_names : List SymbolName)
    (res : ObjectOut × LinkerInfo × List (String × ObjectIn))
    (h : do_link cfg objs_in static_libs wrap_names = Except.ok res)
    (hin : ∀ p ∈ objs_in, ∀ sg ∈ (Prod.snd p).segments, sg.segment_name ≠ SegmentName.got)
    (hlib : ∀ id obj, libObjOf static_libs id obj →
      ∀ sg ∈ obj.segments, sg.segment_name ≠ SegmentName.got) :
    (objs_in.map (fun p => gotSize (Prod.snd p).relocations)).sum =
      4 * (objs_in.map (fun p =>
        ((((Prod.snd p).relocations.filter
            (fun r => r.rel_type = RelType.GP4)).length : Int)))).sum ∧
    ((objs_in.map (fun p => gotSize (Prod.snd p).relocations)).sum = 0 →
      res.1.segments.get .got = none) ∧
    ((objs_in.map (fun p => gotSize (Prod.snd p).relocations)).sum ≠ 0 →
      ∃ t g, res.1.segments.get .text = some t ∧ t.segment_start = cfg.text_start ∧
        res.1.segments.get .got = some g ∧
        g.segment_start = t.segment_start + t.segment_len ∧
        g.segment_len = (objs_in.map (fun p => gotSize (Prod.snd p).relocations)).sum ∧
        ∃ st, do_link_pre cfg objs_in static_libs wrap_names = Except.ok st ∧
          run_relocations cfg st.session st.out st.info = Except.ok res.1 ∧
          st.out.object_data.get .got =
            some (List.replicate (usizeOfI32 g.segment_len) 0)) := by
  obtain ⟨st, hpre, hrun, hinfo_eq, hsess_eq⟩ :=
    do_link_inv cfg objs_in static_libs wrap_names res h
  obtain ⟨objs, st1, pulled, st2, out3, info3, bs, info4, hw, hing1, hing2, hnd, hprov,
    hp, hr, hst⟩ := do_link_pre_inv cfg objs_in static_libs wrap_names st hpre
  obtain ⟨hmap, hgotmap, hsegs⟩ := wrap_map_eq objs_in objs wrap_names hw
  have hS : (objs.map (fun p => gotSize (Prod.snd p).relocations)).sum =
      (objs_in.map (fun p => gotSize (Prod.snd p).relocations)).sum := by rw [hgotmap]
  have hng_objs : ∀ p ∈ objs, ∀ sg ∈ (Prod.snd p).segments,
      sg.segment_name ≠ SegmentName.got := by
    intro p hp2 sg hsg
    obtain ⟨q, hq, hseg_eq, -⟩ := hsegs p hp2
    exact hin q hq sg (hseg_eq ▸ hsg)
  have hgot1 := ingestList_got objs ⟨ObjectOut.new, LinkerInfo.new, []⟩ st1 hing1 hng_objs
  have hng_pulled : ∀ p ∈ pulled, ∀ sg ∈ (Prod.snd p).segments,
      sg.segment_name ≠ SegmentName.got :=
    fun p hp2 => hlib (Prod.fst p) (Prod.snd p) (hprov p hp2)
  have hgot2 := ingestList_got pulled st1 st2 hing2 hng_pulled
  have hst2_got : st2.out.segments.get .got = none := by
    rw [hgot2.1, hgot1.1]
    rfl
  have hst2_gotod : st2.out.object_data.get .got = none := by
    rw [hgot2.2, hgot1.2]
    rfl
  obtain ⟨hpos, hzero, hblen, hbnone, hdata⟩ :=
    patch_segment_offsets_spec cfg st2.out st2.info _ out3 info3 bs hp
  obtain ⟨hcba_len, hcba_ne, hcba_od, hcba_new, hcba_none⟩ :=
    common_block_allocation_spec out3 info3 bs
  have hgo : run_relocations.go cfg st.info st.session st.out 0 = Except.ok res.1 := hrun
  obtain ⟨hsegs_eq, -, -⟩ :=
    run_relocations_segments cfg st.info st.session st.out 0 res.1 hgo
  have hout_eq : st.out = common_block_allocation out3 info3 bs := by rw [hst]
  refine ⟨gotSum_eq objs_in, ?_, ?_⟩
  · intro hS0
    have hg0 : (objs.map (fun p => gotSize (Prod.snd p).relocations)).sum = 0 :=
      hS.trans hS0
    obtain ⟨h1, -⟩ := hzero hg0
    rw [hsegs_eq, hout_eq, hcba_ne _ (by intro he; cases he), h1]
    exact hst2_got
  · intro hS0
    have hgn : (objs.map (fun p => gotSize (Prod.snd p).relocations)).sum ≠ 0 := by
      rw [hS]
      exact hS0
    obtain ⟨t, ht_text, ht_start, ht_got, ht_od⟩ := hpos hgn
    refine ⟨t, { Segment.new .got with
        segment_start := t.segment_start + t.segment_len
        segment_len := (objs.map (fun p => gotSize (Prod.snd p).relocations)).sum },
      ?_, ht_start, ?_, rfl, hS, st, hpre, hrun, ?_⟩
    · rw [hsegs_eq, hout_eq, hcba_ne _ (by intro he; cases he)]
      exact ht_text
    · rw [hsegs_eq, hout_eq, hcba_ne _ (by intro he; cases he)]
      exact ht_got
    · rw [hout_eq, hcba_od]
      exact ht_od

/-- Witness for C2 as amended on a one-module link carrying one GP4. -/
theorem c2_got_allocation_amended_witness :
    ∃ res, do_link cexCfg [("main", mod_gp4_self)] [] [] = Except.ok res ∧
      ∃ t g, res.1.segments.get .text = some t ∧ t.segment_start = cexCfg.text_start ∧
        res.1.segments.get .got = some g ∧
        g.segment_start = t.segment_start + t.segment_len ∧
        g.segment_len =
          ([(("main" : String), mod_gp4_self)].map
            (fun p => gotSize (Prod.snd p).relocations)).sum ∧
        ∃ st, do_link_pre cexCfg [("main", mod_gp4_self)] [] [] = Except.ok st ∧
          run_relocations cexCfg st.session st.out st.info = Except.ok res.1 ∧
          st.out.object_data.get .got =
            some (List.replicate (usizeOfI32 g.segment_len) 0) := by
  obtain ⟨res, hres⟩ := except_isOk_exists
    (do_link cexCfg [("main", mod_gp4_self)] [] []) (by rfl)
  have hthm := c2_got_allocation_amended cexCfg [("main", mod_gp4_self)] [] [] res hres
    (by decide)
    (by
      rintro id obj ⟨lib, hlib, -⟩
      cases hlib)
  exact ⟨res, hres, hthm.2.2 (by decide)⟩

/-- Claim C3: on every successful link there is an ingestion trace (the
wrapped inputs followed by the library pulls, which builds the session
map) such that the common-block table maps each name to the maximum value
declared for it across the trace (and to nothing when never declared);
every name present in the global symbol table is carried by some
non-common-block entry, so common blocks are never inserted; and when the
summed table C is non-zero the output .bss length is the sum of the
ingested .bss lengths plus C, the segment being created at the aligned
bss_start when no module contributed one. -/
theorem c3_common_block_accounting (cfg : LinkerCfg)
    (objs_in : List (String × ObjectIn)) (static_libs : List StaticLib)
    (wrap_names : List SymbolName)
    (res : ObjectOut × LinkerInfo × List (String × ObjectIn))
    (h : do_link cfg objs_in static_libs wrap_names = Except.ok res) :
    ∃ tr,
      (∃ objs pulled, wrap_routines objs_in wrap_names = Except.ok objs ∧
        tr = objs ++ pulled ∧
        (∀ p ∈ pulled, libObjOf static_libs (Prod.fst p) (Prod.snd p))) ∧
      res.2.2 = tr.foldl (fun s p => insertSorted s (Prod.fst p) (Prod.snd p)) [] ∧
      (∀ name, gstLookup res.2.1.common_block_mapping name =
        maxDecl (declValues tr name)) ∧
      (∀ name v, gstLookup res.2.1.common_block_mapping name = some v ↔
        (v ∈ declValues tr name ∧ ∀ w ∈ declValues tr name, w ≤ v)) ∧
      (∀ name, (gstLookup res.2.1.global_symtable name).isSome = true →
        ∃ p ∈ tr, ∃ ste ∈ (Prod.snd p).symbol_table,
          ste.st_name = name ∧ ste.is_common_block = false) ∧
      (commonSum res.2.1.common_block_mapping ≠ 0 →
        bssLenOf res.1.segments =
          (tr.map (fun p => moduleBssLen (Prod.snd p))).sum +
            commonSum res.2.1.common_block_mapping) ∧
      (commonSum res.2.1.common_block_mapping = 0 →
        bssLenOf res.1.segments =
          (tr.map (fun p => moduleBssLen (Prod.snd p))).sum) ∧
      (commonSum res.2.1.common_block_mapping ≠ 0 →
        (∀ p ∈ tr, ∀ sg ∈ (Prod.snd p).segments,
          sg.segment_name ≠ SegmentName.bss) →
        ∃ d, res.1.segments.get .data = some d ∧
          res.1.segments.get .bss =
            some { Segment.new .bss with
                   segment_start := find_seg_start
                     (d.segment_start + d.segment_len) cfg.bss_start_boundary
                   segment_len := commonSum res.2.1.common_block_mapping }) := by
  obtain ⟨st, hpre, hrun, hinfo_eq, hsess_eq⟩ :=
    do_link_inv cfg objs_in static_libs wrap_names res h
  obtain ⟨objs, st1, pulled, st2, out3, info3, bs, info4, hw, hing1, hing2, hnd, hprov,
    hp, hr, hst⟩ := do_link_pre_inv cfg objs_in static_libs wrap_names st hpre
  have htr : ingestList (objs ++ pulled) ⟨ObjectOut.new, LinkerInfo.new, []⟩ =
      Except.ok st2 :=
    ingestList_append objs pulled _ st1 st2 hing1 hing2
  obtain ⟨hres_cbm, hres_sm, hres_st, hres_keys⟩ :=
    resolve_global_sym_offsets_spec st2.session info3 info4 hr
  obtain ⟨hpat_cbm, hpat_gst, hpat_st⟩ :=
    patch_segment_offsets_info cfg st2.out st2.info _ out3 info3 bs hp
  have hinfo4 : res.2.1 = info4 := by rw [hinfo_eq, hst]
  have hcbm_chain : res.2.1.common_block_mapping = st2.info.common_block_mapping := by
    rw [hinfo4, hres_cbm, hpat_cbm]
  obtain ⟨hpos, hzero, hblen, hbnone, hdata⟩ :=
    patch_segment_offsets_spec cfg st2.out st2.info _ out3 info3 bs hp
  obtain ⟨hcba_len, hcba_ne, hcba_od, hcba_new, hcba_none⟩ :=
    common_block_allocation_spec out3 info3 bs
  have hgo : run_relocations.go cfg st.info st.session st.out 0 = Except.ok res.1 := hrun
  obtain ⟨hsegs_eq, -, -⟩ :=
    run_relocations_segments cfg st.info st.session st.out 0 res.1 hgo
  have hout_eq : st.out = common_block_allocation out3 info3 bs := by rw [hst]
  have hCeq : commonSum res.2.1.common_block_mapping =
      commonSum info3.common_block_mapping := by
    rw [hinfo4, hres_cbm]
  obtain ⟨hbss_sum, hbss_none⟩ := ingestList_bss (objs ++ pulled) _ st2 htr
  have hcommon := ingestList_common (objs ++ pulled) _ st2 htr
  refine ⟨objs ++ pulled, ⟨objs, pulled, hw, rfl, hprov⟩, ?_, ?_, ?_, ?_, ?_, ?_, ?_⟩
  · rw [hsess_eq, hst]
    simp only []
    rw [ingestList_session (objs ++ pulled) _ st2 htr]
    try rfl
  · intro name
    rw [hcbm_chain, hcommon name]
    rfl
  · intro name v
    rw [hcbm_chain, hcommon name]
    exact maxDecl_spec (declValues (objs ++ pulled) name) v
  · intro name hs
    rw [hinfo4] at hs
    rw [hres_keys name, hpat_gst] at hs
    rcases ingestList_keys (objs ++ pulled) _ st2 htr name hs with hl | hm
    · cases hl
    · exact hm
  · intro hC
    rw [hsegs_eq, hout_eq, hcba_len, hblen, hbss_sum]
    rw [hCeq] at hC
    rw [if_neg hC, ← hCeq]
    simp [bssLenOf, SegMap.get, ObjectOut.new]
  · intro hC
    rw [hsegs_eq, hout_eq, hcba_len, hblen, hbss_sum]
    rw [hCeq] at hC
    rw [if_pos hC]
    simp [bssLenOf, SegMap.get, ObjectOut.new]
  · intro hC hnomod
    rw [hCeq] at hC
    have hst2_bss : st2.out.segments.get .bss = none := by
      rw [hbss_none]
      exact ⟨rfl, hnomod⟩
    have hout3_bss : out3.segments.get .bss = none := hbnone.mpr hst2_bss
    obtain ⟨d, hd_data, hbs⟩ := hdata
    refine ⟨d, ?_, ?_⟩
    · rw [hsegs_eq, hout_eq, hcba_ne _ (by intro he; cases he)]
      exact hd_data
    · rw [hsegs_eq, hout_eq, hcba_new hC hout3_bss, ← hbs, hCeq]

/-- Witness for C3 on a three-module link declaring the common block cb
with sizes 4, 8 and 2. -/
theorem c3_common_block_accounting_witness :
    ∃ res, do_link cexCfg [("x", mod_cb 4), ("y", mod_cb 8), ("z", mod_cb 2)] [] [] =
        Except.ok res ∧
      ∃ tr,
        (∃ objs pulled,
          wrap_routines [("x", mod_cb 4), ("y", mod_cb 8), ("z", mod_cb 2)] [] =
            Except.ok objs ∧
          tr = objs ++ pulled ∧
          (∀ p ∈ pulled, libObjOf [] (Prod.fst p) (Prod.snd p))) ∧
        res.2.2 = tr.foldl (fun s p => insertSorted s (Prod.fst p) (Prod.snd p)) [] ∧
        (∀ name, gstLookup res.2.1.common_block_mapping name =
          maxDecl (declValues tr name)) ∧
        (∀ name v, gstLookup res.2.1.common_block_mapping name = some v ↔
          (v ∈ declValues tr name ∧ ∀ w ∈ declValues tr name, w ≤ v)) ∧
        (∀ name, (gstLookup res.2.1.global_symtable name).isSome = true →
          ∃ p ∈ tr, ∃ ste ∈ (Prod.snd p).symbol_table,
            ste.st_name = name ∧ ste.is_common_block = false) ∧
        (commonSum res.2.1.common_block_mapping ≠ 0 →
          bssLenOf res.1.segments =
            (tr.map (fun p => moduleBssLen (Prod.snd p))).sum +
              commonSum res.2.1.common_block_mapping) ∧
        (commonSum res.2.1.common_block_mapping = 0 →
          bssLenOf res.1.segments =
            (tr.map (fun p => moduleBssLen (Prod.snd p))).sum) ∧
        (commonSum res.2.1.common_block_mapping ≠ 0 →
          (∀ p ∈ tr, ∀ sg ∈ (Prod.snd p).segments,
            sg.segment_name ≠ SegmentName.bss) →
          ∃ d, res.1.segments.get .data = some d ∧
            res.1.segments.get .bss =
              some { Segment.new .bss with
                     segment_start := find_seg_start
                       (d.segment_start + d.segment_len) cexCfg.bss_start_boundary
                     segment_len := commonSum res.2.1.common_block_mapping }) := by
  obtain ⟨res, hres⟩ := except_isOk_exists
    (do_link cexCfg [("x", mod_cb 4), ("y", mod_cb 8), ("z", mod_cb 2)] [] []) (by rfl)
  exact ⟨res, hres,
    c3_common_block_accounting cexCfg [("x", mod_cb 4), ("y", mod_cb 8), ("z", mod_cb 2)]
      [] [] res hres⟩

/-- Claim C9 as amended: on every successful link the library-satisfaction
phase pulls a trace of objects with pairwise distinct synthetic ids (the
visited set forbids re-ingestion, so each object enters the session at
most once), each an object of one of the configured libraries, and the
session is the input modules plus exactly that trace. The first-library
clause of the claim holds only for DirLibs, which break the scan: a
FileLib hit keeps scanning, so a later library offering the same name also
ingests its module (second and third conjuncts: the FileLib alone pulls
exactly its member, while FileLib followed by a DirLib offering the same
name pulls both and the link fails with MultipleSymbolDefinitions). -/
theorem c9_library_pull_amended :
    (∀ (cfg : LinkerCfg) (objs_in : List (String × ObjectIn))
      (static_libs : List StaticLib) (wrap_names : List SymbolName)
      (res : ObjectOut × LinkerInfo × List (String × ObjectIn)),
      do_link cfg objs_in static_libs wrap_names = Except.ok res →
      ∃ objs pulled,
        wrap_routines objs_in wrap_names = Except.ok objs ∧
        (pulled.map Prod.fst).Nodup ∧
        (∀ p ∈ pulled, libObjOf static_libs (Prod.fst p) (Prod.snd p)) ∧
        res.2.2 = (objs ++ pulled).foldl
          (fun s p => insertSorted s (Prod.fst p) (Prod.snd p)) []) ∧
    (do_link cexCfg [("main", mod_main)] [filelib_F] []).map
        (fun t => t.2.2.map Prod.fst) = Except.ok ["F_mod_0", "main"] ∧
    do_link cexCfg [("main", mod_main)] [filelib_F, dirlib_D2] [] =
      Except.error (LErr.link LinkError.MultipleSymbolDefinitions) := by
  refine ⟨?_, by rfl, by rfl⟩
  intro cfg objs_in static_libs wrap_names res h
  obtain ⟨st, hpre, hrun, hinfo_eq, hsess_eq⟩ :=
    do_link_inv cfg objs_in static_libs wrap_names res h
  obtain ⟨objs, st1, pulled, st2, out3, info3, bs, info4, hw, hing1, hing2, hnd, hprov,
    hp, hr, hst⟩ := do_link_pre_inv cfg objs_in static_libs wrap_names st hpre
  have htr : ingestList (objs ++ pulled) ⟨ObjectOut.new, LinkerInfo.new, []⟩ =
      Except.ok st2 :=
    ingestList_append objs pulled _ st1 st2 hing1 hing2
  refine ⟨objs, pulled, hw, hnd, hprov, ?_⟩
  rw [hsess_eq, hst]
  simp only []
  rw [ingestList_session (objs ++ pulled) _ st2 htr]
  try rfl

/-- Witness for C9 as amended on the single-FileLib link. -/
theorem c9_library_pull_amended_witness :
    ∃ res, do_link cexCfg [("main", mod_main)] [filelib_F] [] = Except.ok res ∧
      ∃ objs pulled,
        wrap_routines [("main", mod_main)] [] = Except.ok objs ∧
        (pulled.map Prod.fst).Nodup ∧
        (∀ p ∈ pulled, libObjOf [filelib_F] (Prod.fst p) (Prod.snd p)) ∧
        res.2.2 = (objs ++ pulled).foldl
          (fun s p => insertSorted s (Prod.fst p) (Prod.snd p)) [] := by
  obtain ⟨res, hres⟩ := except_isOk_exists
    (do_link cexCfg [("main", mod_main)] [filelib_F] []) (by rfl)
  exact ⟨res, hres,
    c9_library_pull_amended.1 cexCfg [("main", mod_main)] [filelib_F] [] res hres⟩
